import Mathlib

/-!
# The c63 encoder split over two nodes: client driver (c63enc.c) and server driver (c63server.c)

A shallow embedding of the two driver programs and of the protocol declarations
of sisci_variables.h, followed by theorems about them.

Conventions of the embedding.

* C integers are naturals or integers; a cast to uint32_t is written `% 2 ^ 32`.
* The float expression `ceil(a / b)` with integer `a` and positive `b` is the
  integer `c_ceil_div a b`; `c_ceil_div_eq_ceil` relates it to the ceiling of
  the rational quotient. The conversion of the int numerator to float is
  `int_to_float` (IEEE single precision, round to nearest, ties to even). The
  float quotient itself is exact when the divisor is a power of two, as it is
  for luma and for 4:2:0 chroma, and cannot move the ceiling while the
  numerator is below 2 ^ 24.
* The headers c63.h, common.h, me.h, tables.h and the SISCI library are not
  among the sources. What the drivers use from them is either a parameter
  (subsampling factors, quantisation tables, pointer size, the pixel-compute
  collaborators, the results of the interconnect primitives) or a record
  whose doc comment says it is modelled from the specification.
* A busy-wait on a mailbox packet is a read of shared memory that the other
  node writes. The drivers are functions of an explicit environment that says
  what the other node and the interconnect did; they return an outcome and
  the trace of the protocol-relevant events in program order.
-/

namespace C63

/-! ## Session context (c63.h, init_c63_enc) -/

/-- Three values, one per colour component; `a[Y_COMPONENT]` is `a.Y`. -/
structure Planes (α : Type) where
  Y : α
  U : α
  V : α
deriving DecidableEq, Repr

/-- Modelled from the spec: c63.h is not among the sources. The chroma
subsampling factors `YX YY UX UY VX VY` that `init_c63_enc` reads. -/
structure Subsampling where
  YX : Int
  YY : Int
  UX : Int
  UY : Int
  VX : Int
  VY : Int
deriving DecidableEq, Repr

/-- Modelled from the spec: c63.h is not among the sources. The 4:2:0
subsampling that `read_yuv` documents ("Read planar YUV frames with 4:2:0
chroma sub-sampling"): luma factor 2, chroma factor 1 in both directions. -/
def yuv420 : Subsampling :=
  { YX := 2, YY := 2, UX := 1, UY := 1, VX := 1, VY := 1 }

/-- The C expression `ceil(a / b)` for an integer `a` and a positive float
`b` holding the integer `b`: the least integer not below the quotient. -/
def c_ceil_div (a b : Int) : Int := -((-a) / b)

/-- The cast `(uint32_t)x` of a non-negative integral value. -/
def to_uint32 (x : Int) : Nat := (x % 2 ^ 32).toNat

/-- Modelled from the spec: c63.h is not among the sources. A per-block
metadata record (motion vector and mode) as the glossary describes it. -/
structure macroblock where
  use_mv : Int
  mv_x : Int
  mv_y : Int
deriving DecidableEq, Repr

/-- Three planar pixel buffers (`yuv_t`). -/
abbrev yuv_t := Planes (List Nat)

/-- Residual coefficient buffers (`dct_t`); `Ydct` is `.Y` and so on. -/
abbrev dct_t := Planes (List Int)

/-- Modelled from the spec: c63.h is not among the sources. A frame with the
fields section 3 lists: keyframe flag, predicted and reconstructed pixel
buffers, residual coefficients and per-block metadata. -/
structure frame where
  keyframe : Bool
  predicted : yuv_t
  recons : yuv_t
  residuals : dct_t
  mbs : Planes (List macroblock)
deriving DecidableEq, Repr

/-- The encoder context `struct c63_common`, with the fields the drivers
read and write. A NULL frame pointer is `none`. -/
structure c63_common where
  width : Int
  height : Int
  ypw : Nat
  yph : Nat
  upw : Nat
  uph : Nat
  vpw : Nat
  vph : Nat
  padw : Planes Nat
  padh : Planes Nat
  mb_cols : Nat
  mb_rows : Nat
  qp : Nat
  me_search_range : Nat
  keyframe_interval : Nat
  quanttbl : Planes (List Nat)
  refframe : Option frame
  curframe : Option frame
  framenum : Nat
  frames_since_keyframe : Nat
deriving DecidableEq, Repr

/-- The number of low bits a natural number loses when it is rounded to the
24-bit significand of a float: 0 below 2 ^ 24, then one more for every
doubling. The first argument bounds the recursion. -/
def f32_shift : Nat → Nat → Nat
  | 0, _ => 0
  | fuel + 1, n => if n < 2 ^ 24 then 0 else 1 + f32_shift fuel (n / 2)

/-- A natural number rounded to the nearest float, ties to the even
significand. -/
def f32_round (n : Nat) : Nat :=
  let q := 2 ^ f32_shift 64 n
  let lo := n / q * q
  let r := n % q
  if 2 * r < q then lo
  else if q < 2 * r then lo + q
  else if (n / q) % 2 = 0 then lo
  else lo + q

/-- The value of an `int` converted to `float`, as in `width/16.0f`. -/
def int_to_float (x : Int) : Int :=
  if 0 ≤ x then (f32_round x.toNat : Int) else -(f32_round (-x).toNat : Int)

/-- One entry of a quantisation table: `def[i] / (qp / 10.0)` stored in a
uint8_t. -/
def quant_entry (qp v : Nat) : Nat := (v * 10 / qp) % 256

/-- The function `init_c63_enc` (c63server.c:97, c63enc.c:85; the two copies
are identical). `s` holds the subsampling macros and `ydef`, `uvdef` the
default tables of tables.h. -/
def init_c63_enc (s : Subsampling) (ydef uvdef : List Nat) (width height : Int) :
    c63_common :=
  let ypw := to_uint32 (c_ceil_div (int_to_float width) 16 * 16)
  let yph := to_uint32 (c_ceil_div (int_to_float height) 16 * 16)
  let upw := to_uint32 (c_ceil_div (int_to_float (width * s.UX)) (s.YX * 8) * 8)
  let uph := to_uint32 (c_ceil_div (int_to_float (height * s.UY)) (s.YY * 8) * 8)
  let vpw := to_uint32 (c_ceil_div (int_to_float (width * s.VX)) (s.YX * 8) * 8)
  let vph := to_uint32 (c_ceil_div (int_to_float (height * s.VY)) (s.YY * 8) * 8)
  let qp := 25
  { width := width
    height := height
    ypw := ypw
    yph := yph
    upw := upw
    uph := uph
    vpw := vpw
    vph := vph
    padw := { Y := ypw, U := upw, V := vpw }
    padh := { Y := yph, U := uph, V := vph }
    mb_cols := ypw / 8
    mb_rows := yph / 8
    qp := qp
    me_search_range := 16
    keyframe_interval := 100
    quanttbl :=
      { Y := (ydef.take 64).map (quant_entry qp)
        U := (uvdef.take 64).map (quant_entry qp)
        V := (uvdef.take 64).map (quant_entry qp) }
    refframe := none
    curframe := none
    framenum := 0
    frames_since_keyframe := 0 }

/-- The number `p` is the smallest multiple of `b` that is not below the
rational `x`. -/
def IsLeastMultipleGE (b : Nat) (x : ℚ) (p : Nat) : Prop :=
  b ∣ p ∧ x ≤ (p : ℚ) ∧ ∀ m : Nat, b ∣ m → x ≤ (m : ℚ) → p ≤ m

/-- Dimensions and subsampling factors for which the float arithmetic of
`init_c63_enc` is exact: everything positive, products below 2 ^ 24. -/
def valid_geometry (s : Subsampling) (width height : Int) : Prop :=
  0 < width ∧ 0 < height ∧ width < 2 ^ 24 ∧ height < 2 ^ 24 ∧
  0 < s.YX ∧ 0 < s.YY ∧ 0 < s.UX ∧ 0 < s.UY ∧ 0 < s.VX ∧ 0 < s.VY ∧
  s.YX ≤ 2 ^ 20 ∧ s.YY ≤ 2 ^ 20 ∧
  width * s.UX < 2 ^ 24 ∧ height * s.UY < 2 ^ 24 ∧
  width * s.VX < 2 ^ 24 ∧ height * s.VY < 2 ^ 24

instance (s : Subsampling) (w h : Int) : Decidable (valid_geometry s w h) := by
  unfold valid_geometry; infer_instance

/-! ## The per-frame compute stage (c63server.c, c63_encode_image) -/

/-- Modelled from the spec: common.c, me.c and the transform code are not
among the sources. The external collaborators of section 4.5, pure functions
over buffers: `create_frame cm image`; motion estimation, which reads the
image, the reference frame and the current frame and returns the per-block
metadata; motion compensation, which reads the reference frame and the
current frame (with its metadata) and returns the predicted buffers;
`dct_quantize in prediction w h quant` returning the coefficient buffer and
`dequantize_idct in prediction w h quant` returning the pixel buffer. -/
structure Collaborators where
  create_frame : c63_common → yuv_t → frame
  c63_motion_estimate : c63_common → yuv_t → frame → frame → Planes (List macroblock)
  c63_motion_compensate : c63_common → frame → frame → yuv_t
  dct_quantize : List Nat → List Nat → Nat → Nat → List Nat → List Int
  dequantize_idct : List Int → List Nat → Nat → Nat → List Nat → List Nat

/-- The keyframe test of c63server.c:51. -/
def is_keyframe (cm : c63_common) : Bool :=
  decide (cm.framenum = 0 ∨ cm.frames_since_keyframe = cm.keyframe_interval)

/-- The function `c63_encode_image` (c63server.c:41-91). The result is `none`
when motion estimation would dereference a NULL reference frame. -/
def c63_encode_image (K : Collaborators) (cm : c63_common) (image : yuv_t) :
    Option c63_common :=
  -- Advance to next frame: destroy_frame(cm->refframe); cm->refframe = cm->curframe
  let cm1 := { cm with refframe := cm.curframe }
  let cur0 := K.create_frame cm1 image
  -- Check if keyframe
  let key := is_keyframe cm1
  let cm2 := if key then { cm1 with frames_since_keyframe := 0 } else cm1
  let cur1 := { cur0 with keyframe := key }
  -- Motion estimation and compensation
  let cur2 : Option frame :=
    if !cur1.keyframe then
      match cm2.refframe with
      | none => none
      | some ref =>
        let cur_me := { cur1 with mbs := K.c63_motion_estimate cm2 image ref cur1 }
        some { cur_me with predicted := K.c63_motion_compensate cm2 ref cur_me }
    else some cur1
  match cur2 with
  | none => none
  | some cur =>
    -- DCT and quantization
    let res : dct_t :=
      { Y := K.dct_quantize image.Y cur.predicted.Y cm2.padw.Y cm2.padh.Y cm2.quanttbl.Y
        U := K.dct_quantize image.U cur.predicted.U cm2.padw.U cm2.padh.U cm2.quanttbl.U
        V := K.dct_quantize image.V cur.predicted.V cm2.padw.V cm2.padh.V cm2.quanttbl.V }
    -- Reconstruct frame for inter-prediction
    let rec_ : yuv_t :=
      { Y := K.dequantize_idct res.Y cur.predicted.Y cm2.ypw cm2.yph cm2.quanttbl.Y
        U := K.dequantize_idct res.U cur.predicted.U cm2.upw cm2.uph cm2.quanttbl.U
        V := K.dequantize_idct res.V cur.predicted.V cm2.vpw cm2.vph cm2.quanttbl.V }
    some { cm2 with curframe := some { cur with residuals := res, recons := rec_ } }

/-! ## Protocol declarations (sisci_variables.h) and segment layouts -/

/-- The command word `enum cmd`. -/
inductive cmd where
  | CMD_INVALID
  | CMD_QUIT
  | CMD_DONE
deriving DecidableEq, Repr

/-- The mailbox `struct packet`. -/
structure packet where
  cmd : cmd
  width : Int
  height : Int
deriving DecidableEq, Repr

/-- The two processes. A mailbox packet is named by the node that created
its segment: the client owns SEGMENT_CLIENT_COMMS, the server owns
SEGMENT_SERVER_COMMS. -/
inductive Node where
  | client
  | server
deriving DecidableEq, Repr

/-- Sizes the C compiler fixes: `sizeof` of a pointer, of `int` and of
`struct macroblock`. -/
structure Platform where
  ptr_size : Nat
  int_size : Nat
  mb_size : Nat
deriving DecidableEq, Repr

/-- A 64-bit platform with the three-field macroblock record padded to 8
bytes. -/
def lp64 : Platform := { ptr_size := 8, int_size := 4, mb_size := 8 }

/-- Byte offset of field `Y` in `struct image_segment` (c63enc.c:235,
c63server.c:290). -/
def image_segment_offset_Y (_P : Platform) (_cm : c63_common) : Nat := 0

/-- Byte offset of field `U`: after the `padw[Y]*padh[Y]` pointers of `Y`. -/
def image_segment_offset_U (P : Platform) (cm : c63_common) : Nat :=
  P.ptr_size * (cm.padw.Y * cm.padh.Y)

/-- Byte offset of field `V`: after the pointers of `Y` and of `U`. -/
def image_segment_offset_V (P : Platform) (cm : c63_common) : Nat :=
  image_segment_offset_U P cm + P.ptr_size * (cm.padw.U * cm.padh.U)

/-- The value of `sizeof(struct image_segment)`: the fields are arrays of
`uint8_t *`, one pointer per pixel. -/
def sizeof_image_segment (P : Platform) (cm : c63_common) : Nat :=
  image_segment_offset_V P cm + P.ptr_size * (cm.padw.V * cm.padh.V)

/-- Byte offset of field `mbs` in `struct result_segment`: the `int keyframe`
rounded up to pointer alignment. -/
def result_segment_offset_mbs (P : Platform) : Nat :=
  (P.int_size + P.ptr_size - 1) / P.ptr_size * P.ptr_size

/-- Byte offset of field `Ydct`: after `COLOR_COMPONENTS` rows of
`mb_rows * mb_cols` pointers. -/
def result_segment_offset_Ydct (P : Platform) (cm : c63_common) : Nat :=
  result_segment_offset_mbs P + P.ptr_size * (3 * (cm.mb_rows * cm.mb_cols))

/-- Byte offset of field `Udct`. -/
def result_segment_offset_Udct (P : Platform) (cm : c63_common) : Nat :=
  result_segment_offset_Ydct P cm + P.ptr_size * (cm.ypw * cm.yph)

/-- Byte offset of field `Vdct`. -/
def result_segment_offset_Vdct (P : Platform) (cm : c63_common) : Nat :=
  result_segment_offset_Udct P cm + P.ptr_size * (cm.upw * cm.uph)

/-- The value of `sizeof(struct result_segment)`. -/
def sizeof_result_segment (P : Platform) (cm : c63_common) : Nat :=
  result_segment_offset_Vdct P cm + P.ptr_size * (cm.vpw * cm.vph)

/-- Contents of an image segment as the drivers use it: the bytes at the start
of each of the three fields. -/
abbrev image_segment := yuv_t

/-- Contents of a result segment as the drivers use it: the keyframe word and
the records and coefficients at the start of each array field. -/
structure result_segment where
  keyframe : Bool
  mbs : Planes (List macroblock)
  Ydct : List Int
  Udct : List Int
  Vdct : List Int
deriving DecidableEq, Repr

/-- The call `memcpy(dst, src, n)` on arrays of equal element size, counted
in elements: the first `n` elements of `dst` become those of `src`. -/
def memcpy {α : Type} (dst src : List α) (n : Nat) : List α :=
  src.take n ++ dst.drop n

/-! ## Events, outcomes and the interconnect primitives -/

/-- An error code of the interconnect library (`sci_error_t`). -/
abbrev sci_error_t := Nat

/-- Modelled from the spec: the SISCI headers are not among the sources. The
code every primitive reports on success. -/
def SCI_ERR_OK : sci_error_t := 0

/-- The status `EXIT_FAILURE` of stdlib.h. -/
def EXIT_FAILURE : Nat := 1

/-- The status `EXIT_SUCCESS` of stdlib.h. -/
def EXIT_SUCCESS : Nat := 0

/-- The interconnect primitives the drivers call. -/
inductive Prim where
  | SCIInitialize
  | SCIOpen
  | SCICreateSegment
  | SCIPrepareSegment
  | SCISetSegmentAvailable
  | SCIConnectSegment
  | SCIMapLocalSegment
  | SCIMapRemoteSegment
  | SCICreateDMAQueue
  | SCIStartDmaTransfer
  | SCIWaitForDMAQueue
deriving DecidableEq, Repr

/-- What a driver prints on the error stream. -/
inductive Msg where
  | sci_failed (p : Prim) (code : sci_error_t)
  | ferror
  | incorrect_bytes
  | fopen_output
  | fopen_input
deriving DecidableEq, Repr

/-- The protocol-relevant actions of a driver, in program order. In a mailbox
event the first node is the one acting and the second the owner of the packet
accessed. -/
inductive Event where
  | sci_call (n : Node) (line : Nat) (p : Prim) (err : sci_error_t)
  | report (n : Node) (m : Msg)
  | write_cmd (writer owner : Node) (c : cmd)
  | write_width (writer owner : Node) (v : Int)
  | write_height (writer owner : Node) (v : Int)
  | read_cmd (reader owner : Node)
  | read_width (reader owner : Node)
  | read_height (reader owner : Node)
  | pack_image (img : image_segment)
  | unpack_image (img : yuv_t)
  | encode (keyframe : Bool)
  | pack_result (r : result_segment)
  | unpack_result (r : result_segment)
  | dma_start (n : Node) (size : Nat) (err : sci_error_t)
  | dma_wait (n : Node) (err : sci_error_t)
  | write_frame (f : frame)
  | terminate (n : Node)
deriving DecidableEq, Repr

/-- How a run of a driver ends: `exit status` (also a return from `main`),
`crash` for a NULL dereference, `running` when the driver is still in a
busy-wait or retry loop, or in its frame loop, once the environment given has
been used up. -/
inductive Outcome where
  | exit (status : Nat)
  | crash
  | running
deriving DecidableEq, Repr

/-- Result of one pass through a loop body. -/
inductive Step (σ : Type) where
  | next (s : σ) (ev : List Event)
  | brk (s : σ) (ev : List Event)
  | halt (o : Outcome) (ev : List Event)

/-- What the code does after a setup primitive when `error != SCI_ERR_OK`. -/
inductive OnError where
  | exit_failure
  | exit_code
  | retry
  | unchecked
deriving DecidableEq, Repr

/-- One call site of a setup primitive: source line, primitive, error
handling. -/
structure SetupStep where
  line : Nat
  prim : Prim
  on_error : OnError
deriving DecidableEq, Repr

/-- The loop `do { SCIConnectSegment(...) } while (error != SCI_ERR_OK)` run on
the codes the successive attempts report: the events of the attempts made and
whether one succeeded. -/
def connect_loop (n : Node) (line : Nat) (p : Prim) :
    List sci_error_t → Bool × List Event
  | [] => (false, [])
  | e :: es =>
    if e = SCI_ERR_OK then (true, [Event.sci_call n line p e])
    else
      let r := connect_loop n line p es
      (r.1, Event.sci_call n line p e :: r.2)

/-- Runs a sequence of setup call sites. `sci line` lists the codes that the
successive calls at that source line report (for a call made once a missing
code is success; a retry loop whose codes run out before a success is still
retrying). Returns `none` and the events when every step let the program continue, and
the outcome otherwise. -/
def run_setup (n : Node) (sci : Nat → List sci_error_t) :
    List SetupStep → Option Outcome × List Event
  | [] => (none, [])
  | st :: rest =>
    match st.on_error with
    | OnError.retry =>
      let r := connect_loop n st.line st.prim (sci st.line)
      if r.1 then
        let k := run_setup n sci rest
        (k.1, r.2 ++ k.2)
      else (some Outcome.running, r.2)
    | OnError.unchecked =>
      let e := (sci st.line).headD SCI_ERR_OK
      let k := run_setup n sci rest
      (k.1, Event.sci_call n st.line st.prim e :: k.2)
    | OnError.exit_failure =>
      let e := (sci st.line).headD SCI_ERR_OK
      if e ≠ SCI_ERR_OK then
        (some (Outcome.exit EXIT_FAILURE),
          [Event.sci_call n st.line st.prim e, Event.report n (Msg.sci_failed st.prim e)])
      else
        let k := run_setup n sci rest
        (k.1, Event.sci_call n st.line st.prim e :: k.2)
    | OnError.exit_code =>
      let e := (sci st.line).headD SCI_ERR_OK
      if e ≠ SCI_ERR_OK then
        (some (Outcome.exit e),
          [Event.sci_call n st.line st.prim e, Event.report n (Msg.sci_failed st.prim e)])
      else
        let k := run_setup n sci rest
        (k.1, Event.sci_call n st.line st.prim e :: k.2)

/-! ## The server driver (c63server.c, main) -/

/-- The variables of the server's frame loop: the context, the `image`
buffers, the server's own mailbox packet `local_comms`, and the mapped image
and result segments. -/
structure ServerState where
  cm : c63_common
  image : yuv_t
  local_comms : packet
  local_seg : image_segment
  result_local_seg : result_segment
deriving DecidableEq, Repr

/-- What the client and the interconnect do around one pass of the server's
frame loop: the command the client wrote into the server's packet (if it
wrote), the image its transfer put into the server's image segment (if any),
and the codes of the two transfer calls of the pass. -/
structure ServerFrameEnv where
  cmd : Option cmd
  seg : Option image_segment
  dma_start : sci_error_t
  dma_wait : sci_error_t
deriving DecidableEq, Repr

/-- The client's remote writes become visible in the server's memory. -/
def server_observe (e : ServerFrameEnv) (s : ServerState) : ServerState :=
  { s with
    local_comms :=
      match e.cmd with
      | some c => { s.local_comms with cmd := c }
      | none => s.local_comms
    local_seg := e.seg.getD s.local_seg }

/-- The copies of c63server.c:470-489 into the result segment. -/
def server_pack_result (cm : c63_common) (cur : frame) (r : result_segment) :
    result_segment :=
  { keyframe := cur.keyframe
    mbs :=
      { Y := memcpy r.mbs.Y cur.mbs.Y (cm.mb_rows * cm.mb_cols)
        U := memcpy r.mbs.U cur.mbs.U (cm.mb_rows / 2 * cm.mb_cols / 2)
        V := memcpy r.mbs.V cur.mbs.V (cm.mb_rows / 2 * cm.mb_cols / 2) }
    Ydct := memcpy r.Ydct cur.residuals.Y (cm.ypw * cm.yph)
    Udct := memcpy r.Udct cur.residuals.U (cm.upw * cm.uph)
    Vdct := memcpy r.Vdct cur.residuals.V (cm.vpw * cm.vph) }

/-- The copies of c63server.c:456-464 out of the image segment into `image`. -/
def server_unpack_image (s : ServerState) : yuv_t :=
  { Y := memcpy s.image.Y s.local_seg.Y (s.cm.padw.Y * s.cm.padh.Y)
    U := memcpy s.image.U s.local_seg.U (s.cm.padw.U * s.cm.padh.U)
    V := memcpy s.image.V s.local_seg.V (s.cm.padw.V * s.cm.padh.V) }

/-- One pass through the body of the server's `while(1)` (c63server.c:443-530)
in the memory state `s`. A poll that still reads CMD_INVALID is a pass that
changes nothing. -/
def server_iteration (P : Platform) (K : Collaborators) (s : ServerState)
    (dma_start dma_wait : sci_error_t) : Step ServerState :=
  -- while(local_comms->packet.cmd == CMD_INVALID);
  if s.local_comms.cmd = cmd.CMD_INVALID then
    Step.next s [Event.read_cmd Node.server Node.server]
  -- if(local_comms->packet.cmd == CMD_QUIT){break;}
  else if s.local_comms.cmd = cmd.CMD_QUIT then
    Step.brk s [Event.read_cmd Node.server Node.server]
  else
    -- local_comms->packet.cmd = CMD_INVALID;
    let lc := { s.local_comms with cmd := cmd.CMD_INVALID }
    -- memcpy of the three planes out of the local segment
    let image := server_unpack_image s
    let ev1 :=
      [Event.read_cmd Node.server Node.server,
       Event.write_cmd Node.server Node.server cmd.CMD_INVALID,
       Event.unpack_image image]
    -- c63_encode_image(cm, image);
    match c63_encode_image K s.cm image with
    | none => Step.halt Outcome.crash ev1
    | some cm1 =>
      match cm1.curframe with
      | none => Step.halt Outcome.crash ev1
      | some cur =>
        let r := server_pack_result cm1 cur s.result_local_seg
        let ev2 := ev1 ++
          [Event.encode cur.keyframe, Event.pack_result r,
           Event.dma_start Node.server (sizeof_result_segment P cm1) dma_start]
        -- SCIStartDmaTransfer
        if dma_start ≠ SCI_ERR_OK then
          Step.halt (Outcome.exit EXIT_FAILURE)
            (ev2 ++ [Event.report Node.server (Msg.sci_failed Prim.SCIStartDmaTransfer dma_start)])
        -- SCIWaitForDMAQueue
        else if dma_wait ≠ SCI_ERR_OK then
          Step.halt (Outcome.exit EXIT_FAILURE)
            (ev2 ++ [Event.dma_wait Node.server dma_wait,
              Event.report Node.server (Msg.sci_failed Prim.SCIWaitForDMAQueue dma_wait)])
        else
          -- ++cm->framenum; ++cm->frames_since_keyframe;
          let cm2 :=
            { cm1 with
              framenum := cm1.framenum + 1
              frames_since_keyframe := cm1.frames_since_keyframe + 1 }
          -- remote_comms->packet.cmd = CMD_DONE;
          Step.next
            { cm := cm2, image := image, local_comms := lc, local_seg := s.local_seg,
              result_local_seg := r }
            (ev2 ++ [Event.dma_wait Node.server dma_wait,
              Event.write_cmd Node.server Node.client cmd.CMD_DONE])

/-- The server's frame loop and the code after it (c63server.c:443-537), run
against the given environment, one entry per pass. -/
def server_loop (P : Platform) (K : Collaborators) :
    List ServerFrameEnv → ServerState → Outcome × List Event
  | [], _ => (Outcome.running, [])
  | e :: es, s =>
    match server_iteration P K (server_observe e s) e.dma_start e.dma_wait with
    | Step.next s1 ev =>
      let r := server_loop P K es s1
      (r.1, ev ++ r.2)
    | Step.brk _ ev => (Outcome.exit 0, ev ++ [Event.terminate Node.server])
    | Step.halt o ev => (o, ev)

/-- The setup calls of the server before the handshake (c63server.c:185-273). -/
def server_setup_comms : List SetupStep :=
  [ ⟨186, Prim.SCIInitialize, OnError.exit_failure⟩,
    ⟨193, Prim.SCIOpen, OnError.exit_code⟩,
    ⟨203, Prim.SCICreateSegment, OnError.exit_failure⟩,
    ⟨217, Prim.SCIPrepareSegment, OnError.exit_failure⟩,
    ⟨224, Prim.SCISetSegmentAvailable, OnError.exit_failure⟩,
    ⟨235, Prim.SCIConnectSegment, OnError.retry⟩,
    ⟨250, Prim.SCIMapLocalSegment, OnError.exit_failure⟩,
    ⟨262, Prim.SCIMapRemoteSegment, OnError.exit_failure⟩ ]

/-- The setup calls of the server after the handshake (c63server.c:314-431).
The result of the call at line 408 is never tested. -/
def server_setup_segments : List SetupStep :=
  [ ⟨317, Prim.SCICreateSegment, OnError.exit_failure⟩,
    ⟨331, Prim.SCIPrepareSegment, OnError.exit_failure⟩,
    ⟨338, Prim.SCISetSegmentAvailable, OnError.exit_failure⟩,
    ⟨348, Prim.SCICreateSegment, OnError.exit_failure⟩,
    ⟨362, Prim.SCIPrepareSegment, OnError.exit_failure⟩,
    ⟨369, Prim.SCISetSegmentAvailable, OnError.exit_failure⟩,
    ⟨379, Prim.SCIMapLocalSegment, OnError.exit_failure⟩,
    ⟨396, Prim.SCIConnectSegment, OnError.retry⟩,
    ⟨408, Prim.SCIMapLocalSegment, OnError.unchecked⟩,
    ⟨420, Prim.SCICreateDMAQueue, OnError.exit_failure⟩ ]

/-- Everything outside the server process that its run depends on: the codes
of the setup calls by source line, the client's packet as the handshake poll
finally reads it (`none` when it stays CMD_INVALID), the initial contents of
the server's own segments, and the environment of the frame loop. -/
structure ServerEnv where
  sci : Nat → List sci_error_t
  handshake : Option packet
  local_comms0 : packet
  local_seg0 : image_segment
  result_seg0 : result_segment
  frames : List ServerFrameEnv

/-- The server's `main` after option parsing (c63server.c:185-537). -/
def server_main (S : Subsampling) (ydef uvdef : List Nat) (P : Platform)
    (K : Collaborators) (env : ServerEnv) : Outcome × List Event :=
  match run_setup Node.server env.sci server_setup_comms with
  | (some o, ev) => (o, ev)
  | (none, ev1) =>
    -- while(remote_comms->packet.cmd == CMD_INVALID);
    match env.handshake with
    | none => (Outcome.running, ev1 ++ [Event.read_cmd Node.server Node.client])
    | some pk =>
      if pk.cmd = cmd.CMD_INVALID then
        (Outcome.running, ev1 ++ [Event.read_cmd Node.server Node.client])
      else
        let cm := init_c63_enc S ydef uvdef pk.width pk.height
        let ev2 := ev1 ++
          [Event.read_cmd Node.server Node.client,
           Event.read_width Node.server Node.client,
           Event.read_height Node.server Node.client]
        match run_setup Node.server env.sci server_setup_segments with
        | (some o, ev) => (o, ev2 ++ ev)
        | (none, ev3) =>
          let image : yuv_t :=
            { Y := List.replicate (cm.padw.Y * cm.padh.Y) 0
              U := List.replicate (cm.padw.U * cm.padh.U) 0
              V := List.replicate (cm.padw.V * cm.padh.V) 0 }
          let r := server_loop P K env.frames
            { cm := cm, image := image, local_comms := env.local_comms0,
              local_seg := env.local_seg0, result_local_seg := env.result_seg0 }
          (r.1, ev2 ++ ev3 ++ r.2)

/-! ## The client driver (c63enc.c) -/

/-- An input stream: the bytes not yet read, whether the stream ends in a read
error instead of an end of file, and the two indicators `feof` and `ferror`
test. -/
structure FILE where
  data : List Nat
  bad : Bool
  eof : Bool
  error : Bool
deriving DecidableEq, Repr

/-- The call `fread(buf, 1, n, file)`: the bytes obtained and the stream
afterwards. Fewer than `n` bytes are obtained only when the stream ends, and
then the end-of-file (or error) indicator is set. -/
def fread (n : Nat) (f : FILE) : List Nat × FILE :=
  let got := f.data.take n
  let f1 := { f with data := f.data.drop n }
  if got.length < n then
    (got, if f.bad then { f1 with error := true } else { f1 with eof := true })
  else (got, f1)

/-- What `read_yuv` hands to its caller: an image, NULL, or no return at all
because it called `exit(EXIT_FAILURE)`. -/
inductive ReadResult where
  | image (img : yuv_t)
  | null
  | exit_failure
deriving DecidableEq, Repr

/-- The total `len` of the three `fread` calls of `read_yuv` (c63enc.c:42-52). -/
def read_yuv_len (width height : Nat) (file : FILE) : Nat :=
  let wh := (width * height) % 2 ^ 32
  let y := fread wh file
  let u := fread (wh / 4) y.2
  let v := fread (wh / 4) u.2
  y.1.length + u.1.length + v.1.length

/-- The function `read_yuv` (c63enc.c:34-83) with the globals `width` and
`height` (uint32_t) as arguments. The test `len != width*height*1.5` is in
doubles, exact here, and is written `2 * len ≠ 3 * (width*height)`. -/
def read_yuv (width height : Nat) (cm : c63_common) (file : FILE) :
    ReadResult × FILE × List Event :=
  let wh := (width * height) % 2 ^ 32
  let y := fread wh file
  let u := fread (wh / 4) y.2
  let v := fread (wh / 4) u.2
  let len := y.1.length + u.1.length + v.1.length
  let image : yuv_t :=
    { Y := memcpy (List.replicate (cm.padw.Y * cm.padh.Y) 0) y.1 y.1.length
      U := memcpy (List.replicate (cm.padw.U * cm.padh.U) 0) u.1 u.1.length
      V := memcpy (List.replicate (cm.padw.V * cm.padh.V) 0) v.1 v.1.length }
  if v.2.error then
    (ReadResult.exit_failure, v.2, [Event.report Node.client Msg.ferror])
  else if v.2.eof then
    (ReadResult.null, v.2, [])
  else if 2 * len ≠ 3 * wh then
    (ReadResult.null, v.2, [Event.report Node.client Msg.incorrect_bytes])
  else
    (ReadResult.image image, v.2, [])

/-- The variables of the client's frame loop. -/
structure ClientState where
  cm : c63_common
  infile : FILE
  numframes : Int
  local_comms : packet
  local_seg : image_segment
  result_local_seg : result_segment
deriving DecidableEq, Repr

/-- What the interconnect and the server do during one pass of the client's
frame loop: the codes of the two transfer calls and, when the server answers
with CMD_DONE, the contents of the client's result segment at that time
(`none` when the client's packet never becomes CMD_DONE). -/
structure ClientFrameEnv where
  dma_start : sci_error_t
  dma_wait : sci_error_t
  response : Option result_segment
deriving DecidableEq, Repr

/-- The copies of c63enc.c:571-593 out of the result segment. -/
def client_unpack_result (cm : c63_common) (cur : frame) (r : result_segment) : frame :=
  { cur with
    keyframe := r.keyframe
    mbs :=
      { Y := memcpy cur.mbs.Y r.mbs.Y (cm.mb_rows * cm.mb_cols)
        U := memcpy cur.mbs.U r.mbs.U (cm.mb_rows / 2 * cm.mb_cols / 2)
        V := memcpy cur.mbs.V r.mbs.V (cm.mb_rows / 2 * cm.mb_cols / 2) }
    residuals :=
      { Y := memcpy cur.residuals.Y r.Ydct (cm.ypw * cm.yph)
        U := memcpy cur.residuals.U r.Udct (cm.upw * cm.uph)
        V := memcpy cur.residuals.V r.Vdct (cm.vpw * cm.vph) } }

/-- The copies of c63enc.c:518-520 of `image` into the image segment. -/
def client_pack_image (s : ClientState) (image : yuv_t) : image_segment :=
  { Y := memcpy s.local_seg.Y image.Y (s.cm.padw.Y * s.cm.padh.Y)
    U := memcpy s.local_seg.U image.U (s.cm.padw.U * s.cm.padh.U)
    V := memcpy s.local_seg.V image.V (s.cm.padw.V * s.cm.padh.V) }

/-- One pass through the body of the client's `while (1)` (c63enc.c:505-600).
`e` is `none` when the environment says nothing more about the interconnect. -/
def client_iteration (P : Platform) (width height : Nat) (limit_numframes : Int)
    (s : ClientState) (e : Option ClientFrameEnv) : Step ClientState :=
  -- local_comms->packet.cmd = CMD_INVALID;
  let lc := { s.local_comms with cmd := cmd.CMD_INVALID }
  let ev0 := [Event.write_cmd Node.client Node.client cmd.CMD_INVALID]
  -- image = read_yuv(infile, cm); if (!image) { break; }
  match read_yuv width height s.cm s.infile with
  | (ReadResult.exit_failure, _, evr) => Step.halt (Outcome.exit EXIT_FAILURE) (ev0 ++ evr)
  | (ReadResult.null, f, evr) =>
    Step.brk { s with local_comms := lc, infile := f } (ev0 ++ evr)
  | (ReadResult.image image, f, evr) =>
    match e with
    | none => Step.halt Outcome.running (ev0 ++ evr)
    | some e =>
      -- memcpy of the three planes into the local segment
      let seg := client_pack_image s image
      let ev1 := ev0 ++ evr ++
        [Event.pack_image seg,
         Event.dma_start Node.client (sizeof_image_segment P s.cm) e.dma_start]
      -- SCIStartDmaTransfer
      if e.dma_start ≠ SCI_ERR_OK then
        Step.halt (Outcome.exit EXIT_FAILURE)
          (ev1 ++ [Event.report Node.client (Msg.sci_failed Prim.SCIStartDmaTransfer e.dma_start)])
      -- SCIWaitForDMAQueue
      else if e.dma_wait ≠ SCI_ERR_OK then
        Step.halt (Outcome.exit EXIT_FAILURE)
          (ev1 ++ [Event.dma_wait Node.client e.dma_wait,
            Event.report Node.client (Msg.sci_failed Prim.SCIWaitForDMAQueue e.dma_wait)])
      else
        -- remote_comms->packet.cmd = CMD_DONE;
        let ev2 := ev1 ++
          [Event.dma_wait Node.client e.dma_wait,
           Event.write_cmd Node.client Node.server cmd.CMD_DONE,
           Event.read_cmd Node.client Node.client]
        -- while(local_comms->packet.cmd != CMD_DONE);
        match e.response, s.cm.curframe with
        | none, _ => Step.halt Outcome.running ev2
        | some _, none => Step.halt Outcome.crash ev2
        | some r, some cur =>
          let cur1 := client_unpack_result s.cm cur r
          let ev3 := ev2 ++ [Event.unpack_result r, Event.write_frame cur1]
          let s1 : ClientState :=
            { cm := { s.cm with curframe := some cur1 }
              infile := f
              numframes := s.numframes + 1
              local_comms := { lc with cmd := cmd.CMD_DONE }
              local_seg := seg
              result_local_seg := r }
          -- if (limit_numframes && numframes >= limit_numframes) { break; }
          if limit_numframes ≠ 0 ∧ s1.numframes ≥ limit_numframes then Step.brk s1 ev3
          else Step.next s1 ev3

/-- The code after the client's frame loop (c63enc.c:602-623). -/
def client_finish : Outcome × List Event :=
  (Outcome.exit EXIT_SUCCESS,
    [Event.write_cmd Node.client Node.server cmd.CMD_QUIT, Event.terminate Node.client])

/-- The client's frame loop and the code after it, run against the given
environment, one entry per frame transferred. -/
def client_loop (P : Platform) (width height : Nat) (limit_numframes : Int) :
    List ClientFrameEnv → ClientState → Outcome × List Event
  | [], s =>
    match client_iteration P width height limit_numframes s none with
    | Step.next _ ev => (Outcome.running, ev)
    | Step.brk _ ev => (client_finish.1, ev ++ client_finish.2)
    | Step.halt o ev => (o, ev)
  | e :: es, s =>
    match client_iteration P width height limit_numframes s (some e) with
    | Step.next s1 ev =>
      let r := client_loop P width height limit_numframes es s1
      (r.1, ev ++ r.2)
    | Step.brk _ ev => (client_finish.1, ev ++ client_finish.2)
    | Step.halt o ev => (o, ev)

/-- The setup calls of the client before the handshake (c63enc.c:258-353). -/
def client_setup_comms : List SetupStep :=
  [ ⟨259, Prim.SCIInitialize, OnError.exit_failure⟩,
    ⟨266, Prim.SCIOpen, OnError.exit_code⟩,
    ⟨278, Prim.SCICreateSegment, OnError.exit_failure⟩,
    ⟨292, Prim.SCIPrepareSegment, OnError.exit_failure⟩,
    ⟨298, Prim.SCISetSegmentAvailable, OnError.exit_failure⟩,
    ⟨310, Prim.SCIConnectSegment, OnError.retry⟩,
    ⟨330, Prim.SCIMapLocalSegment, OnError.exit_failure⟩,
    ⟨342, Prim.SCIMapRemoteSegment, OnError.exit_failure⟩ ]

/-- The setup calls of the client after the handshake (c63enc.c:363-485). -/
def client_setup_segments : List SetupStep :=
  [ ⟨366, Prim.SCICreateSegment, OnError.exit_failure⟩,
    ⟨380, Prim.SCIPrepareSegment, OnError.exit_failure⟩,
    ⟨386, Prim.SCISetSegmentAvailable, OnError.exit_failure⟩,
    ⟨396, Prim.SCICreateSegment, OnError.exit_failure⟩,
    ⟨410, Prim.SCIPrepareSegment, OnError.exit_failure⟩,
    ⟨416, Prim.SCISetSegmentAvailable, OnError.exit_failure⟩,
    ⟨427, Prim.SCIConnectSegment, OnError.retry⟩,
    ⟨442, Prim.SCIMapLocalSegment, OnError.exit_failure⟩,
    ⟨458, Prim.SCIMapLocalSegment, OnError.exit_failure⟩,
    ⟨474, Prim.SCICreateDMAQueue, OnError.exit_failure⟩ ]

/-- The parsed command line of the client and the two `fopen` results. -/
structure ClientArgs where
  width : Nat
  height : Nat
  limit_numframes : Int
  output_ok : Bool
  input : Option FILE

/-- Everything outside the client process that its run depends on. -/
structure ClientEnv where
  sci : Nat → List sci_error_t
  local_seg0 : image_segment
  result_seg0 : result_segment
  frames : List ClientFrameEnv

/-- The frame the client allocates for `c63_write` (c63enc.c:487-499): only
the residuals and the metadata arrays exist, zero-filled. -/
def client_curframe (cm : c63_common) : frame :=
  { keyframe := false
    predicted := { Y := [], U := [], V := [] }
    recons := { Y := [], U := [], V := [] }
    residuals :=
      { Y := List.replicate (cm.ypw * cm.yph) 0
        U := List.replicate (cm.upw * cm.uph) 0
        V := List.replicate (cm.vpw * cm.vph) 0 }
    mbs :=
      { Y := List.replicate (cm.mb_rows * cm.mb_cols) ⟨0, 0, 0⟩
        U := List.replicate (cm.mb_rows / 2 * cm.mb_cols / 2) ⟨0, 0, 0⟩
        V := List.replicate (cm.mb_rows / 2 * cm.mb_cols / 2) ⟨0, 0, 0⟩ } }

/-- The variables of the client on entry to its frame loop: the frame for
`c63_write` is allocated and `numframes` is 0. -/
def client_entry_state (cm : c63_common) (infile : FILE) (lc : packet) (env : ClientEnv) :
    ClientState :=
  { cm := { cm with curframe := some (client_curframe cm) }
    infile := infile
    numframes := 0
    local_comms := lc
    local_seg := env.local_seg0
    result_local_seg := env.result_seg0 }

/-- The client's `main` after option parsing (c63enc.c:209-624). -/
def client_main (S : Subsampling) (ydef uvdef : List Nat) (P : Platform)
    (args : ClientArgs) (env : ClientEnv) : Outcome × List Event :=
  -- outfile = fopen(output_file, "wb");
  if !args.output_ok then
    (Outcome.exit EXIT_FAILURE, [Event.report Node.client Msg.fopen_output])
  else
    let cm := init_c63_enc S ydef uvdef args.width args.height
    -- FILE *infile = fopen(input_file, "rb");
    match args.input with
    | none => (Outcome.exit EXIT_FAILURE, [Event.report Node.client Msg.fopen_input])
    | some infile =>
      match run_setup Node.client env.sci client_setup_comms with
      | (some o, ev) => (o, ev)
      | (none, ev1) =>
        -- local_comms->packet.width = width; ... .height = height; ... .cmd = CMD_DONE;
        let lc : packet := { cmd := cmd.CMD_DONE, width := args.width, height := args.height }
        let ev2 := ev1 ++
          [Event.write_width Node.client Node.client args.width,
           Event.write_height Node.client Node.client args.height,
           Event.write_cmd Node.client Node.client cmd.CMD_DONE]
        match run_setup Node.client env.sci client_setup_segments with
        | (some o, ev) => (o, ev2 ++ ev)
        | (none, ev3) =>
          let r := client_loop P args.width args.height args.limit_numframes env.frames
            (client_entry_state cm infile lc env)
          (r.1, ev2 ++ ev3 ++ r.2)

/-! ## Reading traces -/

/-- The keyframe flags of the frames encoded, in order. -/
def keyframe_flags : List Event → List Bool
  | [] => []
  | Event.encode b :: t => b :: keyframe_flags t
  | _ :: t => keyframe_flags t

/-- The events of a loop pass. -/
def Step.events {σ : Type} : Step σ → List Event
  | Step.next _ ev => ev
  | Step.brk _ ev => ev
  | Step.halt _ ev => ev

/-- An environment entry in which the client has delivered a frame: it wrote
CMD_DONE into the server's packet and both transfer calls succeed. -/
def ServerFrameEnv.delivers (e : ServerFrameEnv) : Prop :=
  e.cmd = some cmd.CMD_DONE ∧ e.dma_start = SCI_ERR_OK ∧ e.dma_wait = SCI_ERR_OK

instance (e : ServerFrameEnv) : Decidable e.delivers := by
  unfold ServerFrameEnv.delivers; infer_instance

/-- The context the server's loop passes on after a frame: the increments of
c63server.c:524-525. -/
def bump_counters (cm : c63_common) : c63_common :=
  { cm with
    framenum := cm.framenum + 1
    frames_since_keyframe := cm.frames_since_keyframe + 1 }

/-- The counters of the context after `j` frames with keyframe interval `k`:
before the first frame both are zero; afterwards the since-keyframe counter
lies in `1..k`, is congruent to the frame number, and a current frame exists. -/
def counters_after (k j : Nat) (cm : c63_common) : Prop :=
  cm.keyframe_interval = k ∧ cm.framenum = j ∧
  ((j = 0 ∧ cm.frames_since_keyframe = 0) ∨
   (0 < j ∧ 1 ≤ cm.frames_since_keyframe ∧ cm.frames_since_keyframe ≤ k ∧
    cm.frames_since_keyframe % k = j % k ∧ cm.curframe ≠ none))

/-! ## Concrete inputs for running the drivers -/

/-- A small instance of the collaborators: frames start zero-filled, motion
compensation predicts the reference reconstruction, the transform halves the
difference to the prediction (dropping a bit) and the inverse doubles it. -/
def toy_collaborators : Collaborators :=
  { create_frame := fun cm _ =>
      { keyframe := false
        predicted :=
          { Y := List.replicate (cm.ypw * cm.yph) 0
            U := List.replicate (cm.upw * cm.uph) 0
            V := List.replicate (cm.vpw * cm.vph) 0 }
        recons :=
          { Y := List.replicate (cm.ypw * cm.yph) 0
            U := List.replicate (cm.upw * cm.uph) 0
            V := List.replicate (cm.vpw * cm.vph) 0 }
        residuals := { Y := [], U := [], V := [] }
        mbs := { Y := [], U := [], V := [] } }
    c63_motion_estimate := fun _ _ _ cur => cur.mbs
    c63_motion_compensate := fun _ ref _ => ref.recons
    dct_quantize := fun src pred _ _ _ =>
      List.zipWith (fun a b => ((a : Int) - (b : Int)) / 2) src pred
    dequantize_idct := fun res pred _ _ _ =>
      List.zipWith (fun r b => (r * 2 + (b : Int)).toNat) res pred }

/-- A context for 2x2 luma and 1x1 chroma buffers with keyframe interval 2. -/
def tiny_context : c63_common :=
  { width := 2, height := 2, ypw := 2, yph := 2, upw := 1, uph := 1, vpw := 1, vph := 1
    padw := { Y := 2, U := 1, V := 1 }, padh := { Y := 2, U := 1, V := 1 }
    mb_cols := 2, mb_rows := 2, qp := 25, me_search_range := 16, keyframe_interval := 2
    quanttbl := { Y := [], U := [], V := [] }
    refframe := none, curframe := none, framenum := 0, frames_since_keyframe := 0 }

/-- The server's loop state on entry with `tiny_context` and empty segments. -/
def tiny_server_state : ServerState :=
  { cm := tiny_context
    image := { Y := [0, 0, 0, 0], U := [0], V := [0] }
    local_comms := { cmd := cmd.CMD_INVALID, width := 0, height := 0 }
    local_seg := { Y := [0, 0, 0, 0], U := [0], V := [0] }
    result_local_seg :=
      { keyframe := false, mbs := { Y := [], U := [], V := [] }, Ydct := [], Udct := [], Vdct := [] } }

/-- The client delivers the given image and both transfer calls succeed. -/
def deliver (img : image_segment) : ServerFrameEnv :=
  { cmd := some cmd.CMD_DONE, seg := some img, dma_start := SCI_ERR_OK, dma_wait := SCI_ERR_OK }

/-- Three frames delivered to the server. -/
def three_frames : List ServerFrameEnv :=
  [ deliver { Y := [9, 9, 9, 9], U := [5], V := [5] },
    deliver { Y := [8, 7, 6, 5], U := [4], V := [3] },
    deliver { Y := [1, 2, 3, 4], U := [5], V := [6] } ]

/-- The event is a write of CMD_QUIT into some packet. -/
def Event.is_quit_write : Event → Bool
  | Event.write_cmd _ _ cmd.CMD_QUIT => true
  | _ => false

/-- The event is the client's write of CMD_DONE into the server's packet. -/
def Event.is_client_proceed : Event → Bool
  | Event.write_cmd Node.client Node.server cmd.CMD_DONE => true
  | _ => false

/-- The event is the start of a transfer by the client. -/
def Event.is_client_transfer : Event → Bool
  | Event.dma_start Node.client _ _ => true
  | _ => false

/-- The event is a call of `write_frame`. -/
def Event.is_write_frame : Event → Bool
  | Event.write_frame _ => true
  | _ => false

/-- The event is an access to a mailbox packet. -/
def Event.is_mailbox : Event → Bool
  | Event.write_cmd _ _ _ => true
  | Event.write_width _ _ _ => true
  | Event.write_height _ _ _ => true
  | Event.read_cmd _ _ => true
  | Event.read_width _ _ => true
  | Event.read_height _ _ => true
  | _ => false

/-- The event is a message on the error stream. -/
def Event.is_report : Event → Bool
  | Event.report _ _ => true
  | _ => false

/-- An environment entry in which both transfer calls of the client succeed
and the server answers. -/
def ClientFrameEnv.answers (e : ClientFrameEnv) : Prop :=
  e.dma_start = SCI_ERR_OK ∧ e.dma_wait = SCI_ERR_OK ∧ e.response ≠ none

instance (e : ClientFrameEnv) : Decidable e.answers := by
  unfold ClientFrameEnv.answers; infer_instance

/-- The number of bytes `read_yuv` asks for per frame. -/
def frame_bytes (width height : Nat) : Nat :=
  (width * height) % 2 ^ 32 + (width * height) % 2 ^ 32 / 4 + (width * height) % 2 ^ 32 / 4

/-- A stream positioned at its start that ends in an end of file. -/
def FILE.fresh (f : FILE) : Prop := f.bad = false ∧ f.eof = false ∧ f.error = false

instance (f : FILE) : Decidable f.fresh := by
  unfold FILE.fresh; infer_instance

/-- An input stream with the given bytes that ends in an end of file. -/
def file_of (data : List Nat) : FILE :=
  { data := data, bad := false, eof := false, error := false }

/-- The client's loop state on entry for 2x2 frames, with `tiny_context`. -/
def tiny_client_state (data : List Nat) : ClientState :=
  { cm := { tiny_context with curframe := some (client_curframe tiny_context) }
    infile := file_of data
    numframes := 0
    local_comms := { cmd := cmd.CMD_DONE, width := 2, height := 2 }
    local_seg := { Y := [0, 0, 0, 0], U := [0], V := [0] }
    result_local_seg :=
      { keyframe := false, mbs := { Y := [], U := [], V := [] }, Ydct := [], Udct := [], Vdct := [] } }

/-- The server answers with a keyframe result and both transfer calls succeed. -/
def answer : ClientFrameEnv :=
  { dma_start := SCI_ERR_OK
    dma_wait := SCI_ERR_OK
    response := some
      { keyframe := true, mbs := { Y := [], U := [], V := [] }
        Ydct := [4, 4, 4, 4], Udct := [2], Vdct := [2] } }

/-- The image `read_yuv` builds from the three `fread` calls: each buffer is
zero-filled to its padded size and holds the bytes obtained at its start. -/
def read_yuv_image (width height : Nat) (cm : c63_common) (file : FILE) : yuv_t :=
  let wh := (width * height) % 2 ^ 32
  let y := fread wh file
  let u := fread (wh / 4) y.2
  let v := fread (wh / 4) u.2
  { Y := memcpy (List.replicate (cm.padw.Y * cm.padh.Y) 0) y.1 y.1.length
    U := memcpy (List.replicate (cm.padw.U * cm.padh.U) 0) u.1 u.1.length
    V := memcpy (List.replicate (cm.padw.V * cm.padh.V) 0) v.1 v.1.length }

/-- The event belongs to the setup code: a call of a setup primitive or a
message on the error stream. -/
def Event.is_setup : Event → Bool
  | Event.sci_call _ _ _ _ => true
  | Event.report _ _ => true
  | _ => false

/-- The three mailbox writes of the client's handshake (c63enc.c:359-361). -/
def client_handshake (args : ClientArgs) : List Event :=
  [Event.write_width Node.client Node.client args.width,
   Event.write_height Node.client Node.client args.height,
   Event.write_cmd Node.client Node.client cmd.CMD_DONE]

/-- The packet the client's handshake leaves in its own segment. -/
def client_packet (args : ClientArgs) : packet :=
  { cmd := cmd.CMD_DONE, width := args.width, height := args.height }

/-- Command line and files of a client run on 2x2 frames without frame limit. -/
def tiny_args (data : List Nat) : ClientArgs :=
  { width := 2, height := 2, limit_numframes := 0, output_ok := true,
    input := some (file_of data) }

/-- An environment in which every setup call succeeds and the server answers
the given number of frames. -/
def tiny_env (n : Nat) : ClientEnv :=
  { sci := fun _ => [SCI_ERR_OK]
    local_seg0 := { Y := [0, 0, 0, 0], U := [0], V := [0] }
    result_seg0 :=
      { keyframe := false, mbs := { Y := [], U := [], V := [] }, Ydct := [], Udct := [], Vdct := [] }
    frames := List.replicate n answer }

/-- The claimed discipline for one event: a mailbox write goes to the writer's
own packet and a mailbox read to the other node's packet. -/
def Event.owner_writes_other_reads : Event → Bool
  | Event.write_cmd w o _ => decide (w = o)
  | Event.write_width w o _ => decide (w = o)
  | Event.write_height w o _ => decide (w = o)
  | Event.read_cmd r o => decide (r ≠ o)
  | Event.read_width r o => decide (r ≠ o)
  | Event.read_height r o => decide (r ≠ o)
  | _ => true

/-- The mailbox accesses the client makes: it writes width, height, CMD_DONE
and CMD_INVALID into its own packet and CMD_DONE and CMD_QUIT into the
server's packet, and reads only the command word of its own packet. -/
def Event.client_discipline : Event → Bool
  | Event.write_cmd w o c =>
    decide (w = Node.client) &&
      ((decide (o = Node.client) && (decide (c = cmd.CMD_INVALID) || decide (c = cmd.CMD_DONE))) ||
       (decide (o = Node.server) && (decide (c = cmd.CMD_DONE) || decide (c = cmd.CMD_QUIT))))
  | Event.write_width w o _ => decide (w = Node.client) && decide (o = Node.client)
  | Event.write_height w o _ => decide (w = Node.client) && decide (o = Node.client)
  | Event.read_cmd r o => decide (r = Node.client) && decide (o = Node.client)
  | Event.read_width _ _ => false
  | Event.read_height _ _ => false
  | _ => true

/-- The mailbox accesses the server makes: it writes CMD_INVALID into its own
packet and CMD_DONE into the client's packet, never a width or height, and it
reads the command word of either packet and the width and height of the
client's packet. -/
def Event.server_discipline : Event → Bool
  | Event.write_cmd w o c =>
    decide (w = Node.server) &&
      ((decide (o = Node.server) && decide (c = cmd.CMD_INVALID)) ||
       (decide (o = Node.client) && decide (c = cmd.CMD_DONE)))
  | Event.write_width _ _ _ => false
  | Event.write_height _ _ _ => false
  | Event.read_cmd r _ => decide (r = Node.server)
  | Event.read_width r o => decide (r = Node.server) && decide (o = Node.client)
  | Event.read_height r o => decide (r = Node.server) && decide (o = Node.client)
  | _ => true

/-- The mailbox reads of the server's frame loop go to its own packet. -/
def Event.server_loop_reads_own : Event → Bool
  | Event.read_cmd r o => decide (r = Node.server) && decide (o = Node.server)
  | Event.read_width _ _ => false
  | Event.read_height _ _ => false
  | _ => true

/-- The event belongs to a frame cycle or to the code after the frame loop. -/
def Event.is_frame_loop : Event → Bool
  | Event.pack_image _ => true
  | Event.unpack_image _ => true
  | Event.encode _ => true
  | Event.pack_result _ => true
  | Event.unpack_result _ => true
  | Event.dma_start _ _ _ => true
  | Event.dma_wait _ _ => true
  | Event.write_frame _ => true
  | Event.terminate _ => true
  | _ => false

/-- The code the failing step passes to `exit`: the driver's code where the
source writes `exit(error)`, EXIT_FAILURE otherwise. -/
def SetupStep.exit_status (st : SetupStep) (err : sci_error_t) : Nat :=
  match st.on_error with
  | OnError.exit_code => err
  | _ => EXIT_FAILURE

/-- The step tests the code its call reports and exits on an error. -/
def SetupStep.checked (st : SetupStep) : Prop :=
  st.on_error = OnError.exit_failure ∨ st.on_error = OnError.exit_code

instance (st : SetupStep) : Decidable st.checked := by
  unfold SetupStep.checked; infer_instance

/-- Setup results in which every call succeeds except the calls at `line`,
which report the codes `errs` in turn. -/
def sci_failing (line : Nat) (errs : List sci_error_t) : Nat → List sci_error_t :=
  fun l => if l = line then errs else [SCI_ERR_OK]

/-- A client environment with the given setup results in which the server
answers one frame. -/
def tiny_env_sci (sci : Nat → List sci_error_t) : ClientEnv :=
  { sci := sci
    local_seg0 := { Y := [0, 0, 0, 0], U := [0], V := [0] }
    result_seg0 :=
      { keyframe := false, mbs := { Y := [], U := [], V := [] }, Ydct := [], Udct := [], Vdct := [] }
    frames := [answer] }

/-- An input stream with the given bytes that ends in a read error. -/
def bad_file_of (data : List Nat) : FILE :=
  { data := data, bad := true, eof := false, error := false }

/-- The run `r` of node `n` ended because setup step `st` reported the code
`err`: the process called `exit` with a non-zero argument (EXIT_FAILURE, or
the code itself where the source passes it on), its last action was the
message naming the failing primitive and the code, and no action of a frame
cycle took place. -/
def fatal_setup_exit (r : Outcome × List Event) (n : Node) (st : SetupStep)
    (err : sci_error_t) : Prop :=
  r.1 = Outcome.exit (st.exit_status err) ∧ st.exit_status err ≠ 0 ∧
  r.2.getLast? = some (Event.report n (Msg.sci_failed st.prim err)) ∧
  r.2.countP Event.is_frame_loop = 0

/-- The event is the server's write of CMD_DONE into the client's packet. -/
def Event.is_server_proceed : Event → Bool
  | Event.write_cmd Node.server Node.client cmd.CMD_DONE => true
  | _ => false

/-- One step of the monitor for the order of a frame cycle of node `n`. The
state is 0 when no payload is ready, 1 when the payload has been copied into
the local segment, 2 when the transfer was then started without error, 3
when the completion wait then returned without error. A write of CMD_DONE by
`n` into the other node's packet is allowed in state 3 only and leads back to
state 0; `none` is a violation. -/
def proceed_step (n : Node) (st : Nat) : Event → Option Nat
  | Event.pack_image _ => if n = Node.client then some 1 else some st
  | Event.pack_result _ => if n = Node.server then some 1 else some st
  | Event.dma_start m _ err =>
    if m = n then (if st = 1 ∧ err = SCI_ERR_OK then some 2 else some 0) else some st
  | Event.dma_wait m err =>
    if m = n then (if st = 2 ∧ err = SCI_ERR_OK then some 3 else some 0) else some st
  | Event.write_cmd w o c =>
    if w = n ∧ o ≠ n ∧ c = cmd.CMD_DONE then (if st = 3 then some 0 else none) else some st
  | _ => some st

/-- The monitor run over a trace from state `st`. -/
def proceed_run (n : Node) : Nat → List Event → Option Nat
  | st, [] => some st
  | st, e :: t =>
    match proceed_step n st e with
    | none => none
    | some st1 => proceed_run n st1 t

/-! ## Segments as bytes (struct image_segment, struct result_segment) -/

/-- The bytes of a mapped segment, by byte offset from its start. -/
abbrev Bytes := Nat → Nat

/-- The call `memcpy(seg + off, src, n)` into a segment: the `n` bytes from
offset `off` become the first `n` bytes of `src`. -/
def write_bytes (seg : Bytes) (off : Nat) (src : List Nat) (n : Nat) : Bytes :=
  fun a => if off ≤ a ∧ a < off + n then src.getD (a - off) 0 else seg a

/-- The `n` bytes of a segment from offset `off`, as `memcpy(dst, seg + off, n)`
reads them. -/
def read_bytes (seg : Bytes) (off n : Nat) : List Nat :=
  (List.range n).map (fun i => seg (off + i))

/-- The copies of c63enc.c:518-520 at byte level: the three planes go to the
starts of the fields `Y`, `U` and `V` of the client's image segment. -/
def client_pack_image_bytes (P : Platform) (cm : c63_common) (seg : Bytes) (image : yuv_t) :
    Bytes :=
  let s1 := write_bytes seg (image_segment_offset_Y P cm) image.Y (cm.padw.Y * cm.padh.Y)
  let s2 := write_bytes s1 (image_segment_offset_U P cm) image.U (cm.padw.U * cm.padh.U)
  write_bytes s2 (image_segment_offset_V P cm) image.V (cm.padw.V * cm.padh.V)

/-- The copies of c63server.c:456-464 at byte level: the three planes come
from the starts of the fields `Y`, `U` and `V` of the server's image segment. -/
def server_unpack_image_bytes (P : Platform) (cm : c63_common) (seg : Bytes) (image : yuv_t) :
    yuv_t :=
  { Y := memcpy image.Y (read_bytes seg (image_segment_offset_Y P cm) (cm.padw.Y * cm.padh.Y))
      (cm.padw.Y * cm.padh.Y)
    U := memcpy image.U (read_bytes seg (image_segment_offset_U P cm) (cm.padw.U * cm.padh.U))
      (cm.padw.U * cm.padh.U)
    V := memcpy image.V (read_bytes seg (image_segment_offset_V P cm) (cm.padw.V * cm.padh.V))
      (cm.padw.V * cm.padh.V) }

/-- The three buffers of an image have the padded sizes of the context, as
`calloc` in `read_yuv` and in the server's `main` makes them. -/
def yuv_sized (cm : c63_common) (image : yuv_t) : Prop :=
  image.Y.length = cm.padw.Y * cm.padh.Y ∧ image.U.length = cm.padw.U * cm.padh.U ∧
  image.V.length = cm.padw.V * cm.padh.V

instance (cm : c63_common) (image : yuv_t) : Decidable (yuv_sized cm image) := by
  unfold yuv_sized; infer_instance

/-- A segment whose bytes are all zero. -/
def zero_bytes : Bytes := fun _ => 0

/-- How the values the result segment carries are laid down in memory: the
object representation of the `int` holding the keyframe flag, of a
`struct macroblock` and of an `int16_t` coefficient, each with its reading
back. -/
structure ObjectRepr where
  int_bytes : Bool → List Nat
  int_of_bytes : List Nat → Bool
  mb_bytes : macroblock → List Nat
  mb_of_bytes : List Nat → macroblock
  i16_bytes : Int → List Nat
  i16_of_bytes : List Nat → Int

/-- The bytes of an array: the representations of its elements one after
another. -/
def encode_array {α : Type} (enc : α → List Nat) : List α → List Nat
  | [] => []
  | x :: xs => enc x ++ encode_array enc xs

/-- The first `n` elements of `size` bytes each, read out of a run of bytes. -/
def decode_array {α : Type} (dec : List Nat → α) (size : Nat) : Nat → List Nat → List α
  | 0, _ => []
  | n + 1, bs => dec (bs.take size) :: decode_array dec size n (bs.drop size)

/-- The values of a frame have representations of the platform's sizes
(`sizeof(int)`, `sizeof(struct macroblock)`, `sizeof(int16_t)` = 2) that read
back as the same values. -/
def ObjectRepr.faithful_on (R : ObjectRepr) (P : Platform) (cur : frame) : Prop :=
  ((R.int_bytes cur.keyframe).length = P.int_size ∧
    R.int_of_bytes (R.int_bytes cur.keyframe) = cur.keyframe) ∧
  (∀ m ∈ cur.mbs.Y ++ (cur.mbs.U ++ cur.mbs.V),
    (R.mb_bytes m).length = P.mb_size ∧ R.mb_of_bytes (R.mb_bytes m) = m) ∧
  (∀ x ∈ cur.residuals.Y ++ (cur.residuals.U ++ cur.residuals.V),
    (R.i16_bytes x).length = 2 ∧ R.i16_of_bytes (R.i16_bytes x) = x)

instance (R : ObjectRepr) (P : Platform) (cur : frame) : Decidable (R.faithful_on P cur) := by
  unfold ObjectRepr.faithful_on; infer_instance

/-- The arrays of a frame have the element counts of the context: the block
metadata arrays and residual arrays as the drivers' copies count them. -/
def frame_sized (cm : c63_common) (cur : frame) : Prop :=
  (cur.mbs.Y.length = cm.mb_rows * cm.mb_cols ∧
    cur.mbs.U.length = cm.mb_rows / 2 * cm.mb_cols / 2 ∧
    cur.mbs.V.length = cm.mb_rows / 2 * cm.mb_cols / 2) ∧
  (cur.residuals.Y.length = cm.ypw * cm.yph ∧ cur.residuals.U.length = cm.upw * cm.uph ∧
    cur.residuals.V.length = cm.vpw * cm.vph)

instance (cm : c63_common) (cur : frame) : Decidable (frame_sized cm cur) := by
  unfold frame_sized; infer_instance

/-- Byte offset of row `i` of field `mbs` in `struct result_segment`: each row
is `mb_rows * mb_cols` pointers. -/
def result_segment_offset_mbs_row (P : Platform) (cm : c63_common) (i : Nat) : Nat :=
  result_segment_offset_mbs P + P.ptr_size * (i * (cm.mb_rows * cm.mb_cols))

/-- The copies of c63server.c:470-489 at byte level: the keyframe word at the
start of the segment, the block metadata at the starts of the three rows of
`mbs`, the coefficients at the starts of `Ydct`, `Udct` and `Vdct`. -/
def server_pack_result_bytes (P : Platform) (R : ObjectRepr) (cm : c63_common) (seg : Bytes)
    (cur : frame) : Bytes :=
  let s0 := write_bytes seg 0 (R.int_bytes cur.keyframe) P.int_size
  let s1 := write_bytes s0 (result_segment_offset_mbs_row P cm 0)
    (encode_array R.mb_bytes cur.mbs.Y) (cm.mb_rows * cm.mb_cols * P.mb_size)
  let s2 := write_bytes s1 (result_segment_offset_mbs_row P cm 1)
    (encode_array R.mb_bytes cur.mbs.U) (cm.mb_rows / 2 * cm.mb_cols / 2 * P.mb_size)
  let s3 := write_bytes s2 (result_segment_offset_mbs_row P cm 2)
    (encode_array R.mb_bytes cur.mbs.V) (cm.mb_rows / 2 * cm.mb_cols / 2 * P.mb_size)
  let s4 := write_bytes s3 (result_segment_offset_Ydct P cm)
    (encode_array R.i16_bytes cur.residuals.Y) (cm.ypw * cm.yph * 2)
  let s5 := write_bytes s4 (result_segment_offset_Udct P cm)
    (encode_array R.i16_bytes cur.residuals.U) (cm.upw * cm.uph * 2)
  write_bytes s5 (result_segment_offset_Vdct P cm)
    (encode_array R.i16_bytes cur.residuals.V) (cm.vpw * cm.vph * 2)

/-- The copies of c63enc.c:571-593 at byte level, out of the client's result
segment into the current frame. -/
def client_unpack_result_bytes (P : Platform) (R : ObjectRepr) (cm : c63_common) (seg : Bytes)
    (cur : frame) : frame :=
  { cur with
    keyframe := R.int_of_bytes (read_bytes seg 0 P.int_size)
    mbs :=
      { Y := memcpy cur.mbs.Y
          (decode_array R.mb_of_bytes P.mb_size (cm.mb_rows * cm.mb_cols)
            (read_bytes seg (result_segment_offset_mbs_row P cm 0)
              (cm.mb_rows * cm.mb_cols * P.mb_size)))
          (cm.mb_rows * cm.mb_cols)
        U := memcpy cur.mbs.U
          (decode_array R.mb_of_bytes P.mb_size (cm.mb_rows / 2 * cm.mb_cols / 2)
            (read_bytes seg (result_segment_offset_mbs_row P cm 1)
              (cm.mb_rows / 2 * cm.mb_cols / 2 * P.mb_size)))
          (cm.mb_rows / 2 * cm.mb_cols / 2)
        V := memcpy cur.mbs.V
          (decode_array R.mb_of_bytes P.mb_size (cm.mb_rows / 2 * cm.mb_cols / 2)
            (read_bytes seg (result_segment_offset_mbs_row P cm 2)
              (cm.mb_rows / 2 * cm.mb_cols / 2 * P.mb_size)))
          (cm.mb_rows / 2 * cm.mb_cols / 2) }
    residuals :=
      { Y := memcpy cur.residuals.Y
          (decode_array R.i16_of_bytes 2 (cm.ypw * cm.yph)
            (read_bytes seg (result_segment_offset_Ydct P cm) (cm.ypw * cm.yph * 2)))
          (cm.ypw * cm.yph)
        U := memcpy cur.residuals.U
          (decode_array R.i16_of_bytes 2 (cm.upw * cm.uph)
            (read_bytes seg (result_segment_offset_Udct P cm) (cm.upw * cm.uph * 2)))
          (cm.upw * cm.uph)
        V := memcpy cur.residuals.V
          (decode_array R.i16_of_bytes 2 (cm.vpw * cm.vph)
            (read_bytes seg (result_segment_offset_Vdct P cm) (cm.vpw * cm.vph * 2)))
          (cm.vpw * cm.vph) } }

/-- A little-endian representation for the 64-bit platform: a 4-byte `int`,
an 8-byte macroblock record (4-byte mode, two 1-byte vector components, two
bytes of padding) and a 2-byte two-complement coefficient. -/
def le_repr : ObjectRepr :=
  { int_bytes := fun b => if b then [1, 0, 0, 0] else [0, 0, 0, 0]
    int_of_bytes := fun bs => bs.any (fun b => b != 0)
    mb_bytes := fun m =>
      [(m.use_mv % 256).toNat, (m.use_mv / 256 % 256).toNat, (m.use_mv / 65536 % 256).toNat,
       (m.use_mv / 16777216 % 256).toNat, (m.mv_x % 256).toNat, (m.mv_y % 256).toNat, 0, 0]
    mb_of_bytes := fun bs =>
      let u : Int := bs.getD 0 0 + 256 * bs.getD 1 0 + 65536 * bs.getD 2 0
        + 16777216 * bs.getD 3 0
      { use_mv := if u < 2147483648 then u else u - 4294967296
        mv_x := if bs.getD 4 0 < 128 then (bs.getD 4 0 : Int) else (bs.getD 4 0 : Int) - 256
        mv_y := if bs.getD 5 0 < 128 then (bs.getD 5 0 : Int) else (bs.getD 5 0 : Int) - 256 }
    i16_bytes := fun x => [(x % 256).toNat, (x / 256 % 256).toNat]
    i16_of_bytes := fun bs =>
      let u : Int := bs.getD 0 0 + 256 * bs.getD 1 0
      if u < 32768 then u else u - 65536 }

/-- A frame of the tiny context's sizes with a keyframe flag, motion vectors
and coefficients of both signs. -/
def tiny_frame : frame :=
  { keyframe := true
    predicted := { Y := [], U := [], V := [] }
    recons := { Y := [], U := [], V := [] }
    residuals := { Y := [-3, 300, 0, -32768], U := [32767], V := [-1] }
    mbs :=
      { Y := [{ use_mv := 1, mv_x := -16, mv_y := 15 }, { use_mv := 0, mv_x := 0, mv_y := 0 },
              { use_mv := 1, mv_x := 3, mv_y := -1 }, { use_mv := 1, mv_x := 127, mv_y := -128 }]
        U := [{ use_mv := 1, mv_x := -8, mv_y := 7 }]
        V := [{ use_mv := 0, mv_x := 0, mv_y := 0 }] } }

/-- A frame of the tiny context's sizes with every value zero. -/
def blank_frame : frame :=
  { keyframe := false
    predicted := { Y := [], U := [], V := [] }
    recons := { Y := [], U := [], V := [] }
    residuals := { Y := [0, 0, 0, 0], U := [0], V := [0] }
    mbs :=
      { Y := List.replicate 4 { use_mv := 0, mv_x := 0, mv_y := 0 }
        U := [{ use_mv := 0, mv_x := 0, mv_y := 0 }]
        V := [{ use_mv := 0, mv_x := 0, mv_y := 0 }] } }

/-! ## The two nodes side by side (c63enc.c:505-605, c63server.c:443-530) -/

/-- Where the client stands in its frame loop: before the statement named. -/
inductive ClientPc where
  /-- The store `local_comms->packet.cmd = CMD_INVALID` (c63enc.c:509). -/
  | reset
  /-- The call of `read_yuv` and the test of its result (c63enc.c:512-513). -/
  | read
  /-- The three copies into the image segment (c63enc.c:518-520). -/
  | pack
  /-- The call of `SCIStartDmaTransfer` (c63enc.c:526-541). -/
  | dma_start
  /-- The call of `SCIWaitForDMAQueue` (c63enc.c:544-552). -/
  | dma_wait
  /-- The store `remote_comms->packet.cmd = CMD_DONE` (c63enc.c:559). -/
  | signal
  /-- The loop `while(local_comms->packet.cmd != CMD_DONE);` (c63enc.c:564). -/
  | poll
  /-- The copies out of the result segment, `write_frame`, the count and the
  test of the limit (c63enc.c:571-599). -/
  | unpack
  /-- The store `remote_comms->packet.cmd = CMD_QUIT` (c63enc.c:605). -/
  | quit
  /-- After the loop and the quit signal. -/
  | done
  /-- After `exit(EXIT_FAILURE)`. -/
  | failed
deriving DecidableEq, Repr

/-- Where the server stands in its frame loop: before the statement named. -/
inductive ServerPc where
  /-- The loop `while(local_comms->packet.cmd == CMD_INVALID);`
  (c63server.c:446). -/
  | poll
  /-- The test `if(local_comms->packet.cmd == CMD_QUIT){break;}`
  (c63server.c:448). -/
  | check
  /-- The store `local_comms->packet.cmd = CMD_INVALID` (c63server.c:450). -/
  | reset
  /-- The three copies out of the image segment (c63server.c:456-464). -/
  | unpack
  /-- The call `c63_encode_image(cm, image)` (c63server.c:467). -/
  | encode
  /-- The copies into the result segment (c63server.c:470-489). -/
  | pack
  /-- The call of `SCIStartDmaTransfer` (c63server.c:496-510). -/
  | dma_start
  /-- The call of `SCIWaitForDMAQueue` (c63server.c:513-521). -/
  | dma_wait
  /-- The two increments and the store `remote_comms->packet.cmd = CMD_DONE`
  (c63server.c:524-529). -/
  | signal
  /-- After the loop. -/
  | done
  /-- After `exit(EXIT_FAILURE)`. -/
  | failed
deriving DecidableEq, Repr

/-- The memory of both nodes during the frame loops. A payload segment holds
`some p` when it holds the whole payload `p` and `none` when its content is
not one whole payload: before the first transfer into it, and while a
transfer into it is under way. The four lists at the end are not program
state: they record what was transferred and what each receiver read. -/
structure World (Img Res : Type) where
  cpc : ClientPc
  spc : ServerPc
  /-- The field `packet.cmd` of the client's communication segment. -/
  client_cmd : cmd
  /-- The field `packet.cmd` of the server's communication segment. -/
  server_cmd : cmd
  /-- The client's image segment (`local_seg` in c63enc.c). -/
  client_seg : Option Img
  /-- The server's image segment (`local_seg` in c63server.c). -/
  server_seg : Option Img
  /-- The server's result segment (`result_local_seg` in c63server.c). -/
  server_result_seg : Option Res
  /-- The client's result segment (`result_local_seg` in c63enc.c). -/
  client_result_seg : Option Res
  /-- The whole frames the input file still holds. -/
  infile : List Img
  numframes : Nat
  limit_numframes : Int
  /-- The client's variable `image`. -/
  image : Option Img
  /-- The server's buffers `image`. -/
  server_image : Option Img
  /-- The encoding results in `cm->curframe` on the server. -/
  curframe : Option Res
  framenum : Nat
  /-- The content of the client's image segment at each completed transfer. -/
  sent : List (Option Img)
  /-- The content of its image segment the server copied out, each time. -/
  consumed : List (Option Img)
  /-- The content of the server's result segment at each completed transfer. -/
  returned : List (Option Res)
  /-- The content of its result segment the client copied out and wrote, each
  time. -/
  received : List (Option Res)
deriving DecidableEq, Repr

/-- One turn of the scheduler: which node takes its next step, and whether
the call it makes there (`read_yuv`, `SCIStartDmaTransfer`,
`SCIWaitForDMAQueue`) reports an error. -/
structure Tick where
  node : Node
  fails : Bool
deriving DecidableEq, Repr

/-- The memory when both nodes enter their frame loops: the client's packet
holds the `CMD_DONE` of the handshake (c63enc.c:361), the server's packet
holds `CMD_INVALID`, the value 0 of a segment nothing was stored to yet, no
payload segment holds a payload. -/
def World.start {Img Res : Type} (input : List Img) (limit_numframes : Int) : World Img Res :=
  { cpc := ClientPc.reset, spc := ServerPc.poll
    client_cmd := cmd.CMD_DONE, server_cmd := cmd.CMD_INVALID
    client_seg := none, server_seg := none, server_result_seg := none, client_result_seg := none
    infile := input, numframes := 0, limit_numframes := limit_numframes
    image := none, server_image := none, curframe := none, framenum := 0
    sent := [], consumed := [], returned := [], received := [] }

/-- The client's next step (c63enc.c:505-605). A step that waits leaves the
memory as it is. A transfer leaves the server's image segment without a whole
payload from its start until its completion, when the segment is a copy of
the client's. -/
def step_client {Img Res : Type} (fails : Bool) (w : World Img Res) : World Img Res :=
  match w.cpc with
  | ClientPc.reset => { w with client_cmd := cmd.CMD_INVALID, cpc := ClientPc.read }
  | ClientPc.read =>
    if fails then { w with cpc := ClientPc.failed }
    else
      match w.infile with
      | [] => { w with image := none, cpc := ClientPc.quit }
      | img :: rest => { w with image := some img, infile := rest, cpc := ClientPc.pack }
  | ClientPc.pack => { w with client_seg := w.image, cpc := ClientPc.dma_start }
  | ClientPc.dma_start =>
    if fails then { w with cpc := ClientPc.failed }
    else { w with server_seg := none, cpc := ClientPc.dma_wait }
  | ClientPc.dma_wait =>
    if fails then { w with cpc := ClientPc.failed }
    else
      { w with
        server_seg := w.client_seg, sent := w.sent ++ [w.client_seg], cpc := ClientPc.signal }
  | ClientPc.signal => { w with server_cmd := cmd.CMD_DONE, cpc := ClientPc.poll }
  | ClientPc.poll => if w.client_cmd = cmd.CMD_DONE then { w with cpc := ClientPc.unpack } else w
  | ClientPc.unpack =>
    { w with
      received := w.received ++ [w.client_result_seg]
      numframes := w.numframes + 1
      cpc :=
        if w.limit_numframes ≠ 0 ∧ ((w.numframes + 1 : Nat) : Int) ≥ w.limit_numframes then
          ClientPc.quit
        else ClientPc.reset }
  | ClientPc.quit => { w with server_cmd := cmd.CMD_QUIT, cpc := ClientPc.done }
  | ClientPc.done => w
  | ClientPc.failed => w

/-- The server's next step (c63server.c:443-530). `encode` stands for
`c63_encode_image`: its results depend on all the images the server copied
out so far. -/
def step_server {Img Res : Type} (encode : List (Option Img) → Res) (fails : Bool)
    (w : World Img Res) : World Img Res :=
  match w.spc with
  | ServerPc.poll => if w.server_cmd = cmd.CMD_INVALID then w else { w with spc := ServerPc.check }
  | ServerPc.check =>
    if w.server_cmd = cmd.CMD_QUIT then { w with spc := ServerPc.done }
    else { w with spc := ServerPc.reset }
  | ServerPc.reset => { w with server_cmd := cmd.CMD_INVALID, spc := ServerPc.unpack }
  | ServerPc.unpack =>
    { w with
      server_image := w.server_seg, consumed := w.consumed ++ [w.server_seg]
      spc := ServerPc.encode }
  | ServerPc.encode => { w with curframe := some (encode w.consumed), spc := ServerPc.pack }
  | ServerPc.pack => { w with server_result_seg := w.curframe, spc := ServerPc.dma_start }
  | ServerPc.dma_start =>
    if fails then { w with spc := ServerPc.failed }
    else { w with client_result_seg := none, spc := ServerPc.dma_wait }
  | ServerPc.dma_wait =>
    if fails then { w with spc := ServerPc.failed }
    else
      { w with
        client_result_seg := w.server_result_seg
        returned := w.returned ++ [w.server_result_seg]
        spc := ServerPc.signal }
  | ServerPc.signal =>
    { w with framenum := w.framenum + 1, client_cmd := cmd.CMD_DONE, spc := ServerPc.poll }
  | ServerPc.done => w
  | ServerPc.failed => w

/-- One turn: the node the scheduler names takes its next step. -/
def step {Img Res : Type} (encode : List (Option Img) → Res) (t : Tick) (w : World Img Res) :
    World Img Res :=
  match t.node with
  | Node.client => step_client t.fails w
  | Node.server => step_server encode t.fails w

/-- The memory after the turns of a schedule, in order. -/
def run {Img Res : Type} (encode : List (Option Img) → Res) :
    List Tick → World Img Res → World Img Res
  | [], w => w
  | t :: ts, w => run encode ts (step encode t w)

/-- The first `k` images of the input, each whole. -/
def img_log {Img : Type} (input : List Img) (k : Nat) : List (Option Img) :=
  (input.take k).map some

/-- The first `k` results of encoding the input, each whole. -/
def res_log {Img Res : Type} (encode : List (Option Img) → Res) (input : List Img) (k : Nat) :
    List (Option Res) :=
  (List.range k).map (fun j => some (encode (img_log input (j + 1))))

/-- The named node takes `k` turns in a row, no call failing. -/
def turns (n : Node) (k : Nat) : List Tick := List.replicate k { node := n, fails := false }

/-- A schedule that lets each node run until it waits: the client sends the
first image, the server encodes and returns it, the client writes it and
sends the second, the server returns that, the client writes it, finds the
file at its end and signals quit, the server sees the quit. -/
def two_frames : List Tick :=
  turns Node.client 6 ++ turns Node.server 9 ++ turns Node.client 8 ++ turns Node.server 9
    ++ turns Node.client 5 ++ turns Node.server 2

/-- A schedule in which the client's transfer of the first image starts and
its completion wait reports an error, after which the server gets five
turns. -/
def broken_transfer : List Tick :=
  turns Node.client 4 ++ [{ node := Node.client, fails := true }] ++ turns Node.server 5

/-- An encoder standing in for `c63_encode_image`: the sum of the pixels the
server copied out so far, counting a segment without a whole payload as
1000. -/
def toy_encode (consumed : List (Option Nat)) : Nat :=
  (consumed.map (fun p => p.getD 1000)).sum

/-- What the four records hold when the client has read `off` frames from the
file, `s` images were sent, `c` copied out by the server, `r` results
returned and `numframes` results written. -/
def logs_are {Img Res : Type} (encode : List (Option Img) → Res) (input : List Img)
    (w : World Img Res) (off s c r : Nat) : Prop :=
  w.infile = input.drop off ∧ w.sent = img_log input s ∧ w.consumed = img_log input c ∧
  w.returned = res_log encode input r ∧ w.received = res_log encode input w.numframes

/-- The states the two loops can be in together, with what memory holds in
each: while the client reads and sends, the server waits at its poll with
`CMD_INVALID` in its packet; while the server works, the client waits at its
poll with `CMD_INVALID` in its packet. -/
def phase_inv {Img Res : Type} (encode : List (Option Img) → Res) (input : List Img)
    (w : World Img Res) : Prop :=
  match w.cpc, w.spc with
  | ClientPc.reset, ServerPc.poll =>
    w.server_cmd = cmd.CMD_INVALID ∧
    logs_are encode input w w.numframes w.numframes w.numframes w.numframes
  | ClientPc.read, ServerPc.poll =>
    w.client_cmd = cmd.CMD_INVALID ∧ w.server_cmd = cmd.CMD_INVALID ∧
    logs_are encode input w w.numframes w.numframes w.numframes w.numframes
  | ClientPc.pack, ServerPc.poll =>
    w.client_cmd = cmd.CMD_INVALID ∧ w.server_cmd = cmd.CMD_INVALID ∧
    w.numframes < input.length ∧ w.image = input[w.numframes]? ∧
    logs_are encode input w (w.numframes + 1) w.numframes w.numframes w.numframes
  | ClientPc.dma_start, ServerPc.poll =>
    w.client_cmd = cmd.CMD_INVALID ∧ w.server_cmd = cmd.CMD_INVALID ∧
    w.numframes < input.length ∧ w.client_seg = input[w.numframes]? ∧
    logs_are encode input w (w.numframes + 1) w.numframes w.numframes w.numframes
  | ClientPc.dma_wait, ServerPc.poll =>
    w.client_cmd = cmd.CMD_INVALID ∧ w.server_cmd = cmd.CMD_INVALID ∧
    w.numframes < input.length ∧ w.client_seg = input[w.numframes]? ∧
    logs_are encode input w (w.numframes + 1) w.numframes w.numframes w.numframes
  | ClientPc.signal, ServerPc.poll =>
    w.client_cmd = cmd.CMD_INVALID ∧ w.server_cmd = cmd.CMD_INVALID ∧
    w.numframes < input.length ∧ w.server_seg = input[w.numframes]? ∧
    logs_are encode input w (w.numframes + 1) (w.numframes + 1) w.numframes w.numframes
  | ClientPc.failed, ServerPc.poll =>
    w.server_cmd = cmd.CMD_INVALID ∧
    ∃ off, logs_are encode input w off w.numframes w.numframes w.numframes
  | ClientPc.poll, ServerPc.poll =>
    (w.client_cmd = cmd.CMD_INVALID ∧ w.server_cmd = cmd.CMD_DONE ∧
      w.numframes < input.length ∧ w.server_seg = input[w.numframes]? ∧
      logs_are encode input w (w.numframes + 1) (w.numframes + 1) w.numframes w.numframes) ∨
    (w.client_cmd = cmd.CMD_DONE ∧ w.server_cmd = cmd.CMD_INVALID ∧
      w.client_result_seg = some (encode (img_log input (w.numframes + 1))) ∧
      logs_are encode input w (w.numframes + 1) (w.numframes + 1) (w.numframes + 1)
        (w.numframes + 1))
  | ClientPc.poll, ServerPc.check =>
    w.client_cmd = cmd.CMD_INVALID ∧ w.server_cmd = cmd.CMD_DONE ∧
    w.numframes < input.length ∧ w.server_seg = input[w.numframes]? ∧
    logs_are encode input w (w.numframes + 1) (w.numframes + 1) w.numframes w.numframes
  | ClientPc.poll, ServerPc.reset =>
    w.client_cmd = cmd.CMD_INVALID ∧ w.server_cmd = cmd.CMD_DONE ∧
    w.numframes < input.length ∧ w.server_seg = input[w.numframes]? ∧
    logs_are encode input w (w.numframes + 1) (w.numframes + 1) w.numframes w.numframes
  | ClientPc.poll, ServerPc.unpack =>
    w.client_cmd = cmd.CMD_INVALID ∧ w.server_cmd = cmd.CMD_INVALID ∧
    w.numframes < input.length ∧ w.server_seg = input[w.numframes]? ∧
    logs_are encode input w (w.numframes + 1) (w.numframes + 1) w.numframes w.numframes
  | ClientPc.poll, ServerPc.encode =>
    w.client_cmd = cmd.CMD_INVALID ∧ w.server_cmd = cmd.CMD_INVALID ∧
    logs_are encode input w (w.numframes + 1) (w.numframes + 1) (w.numframes + 1) w.numframes
  | ClientPc.poll, ServerPc.pack =>
    w.client_cmd = cmd.CMD_INVALID ∧ w.server_cmd = cmd.CMD_INVALID ∧
    w.curframe = some (encode (img_log input (w.numframes + 1))) ∧
    logs_are encode input w (w.numframes + 1) (w.numframes + 1) (w.numframes + 1) w.numframes
  | ClientPc.poll, ServerPc.dma_start =>
    w.client_cmd = cmd.CMD_INVALID ∧ w.server_cmd = cmd.CMD_INVALID ∧
    w.server_result_seg = some (encode (img_log input (w.numframes + 1))) ∧
    logs_are encode input w (w.numframes + 1) (w.numframes + 1) (w.numframes + 1) w.numframes
  | ClientPc.poll, ServerPc.dma_wait =>
    w.client_cmd = cmd.CMD_INVALID ∧ w.server_cmd = cmd.CMD_INVALID ∧
    w.server_result_seg = some (encode (img_log input (w.numframes + 1))) ∧
    logs_are encode input w (w.numframes + 1) (w.numframes + 1) (w.numframes + 1) w.numframes
  | ClientPc.poll, ServerPc.signal =>
    w.client_cmd = cmd.CMD_INVALID ∧ w.server_cmd = cmd.CMD_INVALID ∧
    w.client_result_seg = some (encode (img_log input (w.numframes + 1))) ∧
    logs_are encode input w (w.numframes + 1) (w.numframes + 1) (w.numframes + 1)
      (w.numframes + 1)
  | ClientPc.poll, ServerPc.failed =>
    w.client_cmd = cmd.CMD_INVALID ∧ w.server_cmd = cmd.CMD_INVALID ∧
    logs_are encode input w (w.numframes + 1) (w.numframes + 1) (w.numframes + 1) w.numframes
  | ClientPc.unpack, ServerPc.poll =>
    w.server_cmd = cmd.CMD_INVALID ∧
    w.client_result_seg = some (encode (img_log input (w.numframes + 1))) ∧
    logs_are encode input w (w.numframes + 1) (w.numframes + 1) (w.numframes + 1)
      (w.numframes + 1)
  | ClientPc.quit, ServerPc.poll =>
    w.server_cmd = cmd.CMD_INVALID ∧
    ∃ off, logs_are encode input w off w.numframes w.numframes w.numframes
  | ClientPc.done, ServerPc.poll =>
    w.server_cmd = cmd.CMD_QUIT ∧
    ∃ off, logs_are encode input w off w.numframes w.numframes w.numframes
  | ClientPc.done, ServerPc.check =>
    w.server_cmd = cmd.CMD_QUIT ∧
    ∃ off, logs_are encode input w off w.numframes w.numframes w.numframes
  | ClientPc.done, ServerPc.done =>
    ∃ off, logs_are encode input w off w.numframes w.numframes w.numframes
  | _, _ => False

/-! ## Theorems -/

/-! ### Padded dimensions -/

theorem c_ceil_div_eq_ceil (a b : Int) (hb : 0 < b) :
    c_ceil_div a b = ⌈(a : ℚ) / (b : ℚ)⌉ := by
  unfold c_ceil_div
  symm
  rw [Int.ceil_eq_iff]
  have h1 := Int.emod_add_ediv (-a) b
  have h2 := Int.emod_nonneg (-a) (ne_of_gt hb)
  have h3 := Int.emod_lt_of_pos (-a) hb
  have hbq : (0 : ℚ) < b := by exact_mod_cast hb
  constructor
  · rw [lt_div_iff₀ hbq]
    have : (-(-a / b) - 1) * b < a := by nlinarith
    exact_mod_cast this
  · rw [div_le_iff₀ hbq]
    have : a ≤ (-(-a / b)) * b := by nlinarith
    exact_mod_cast this

theorem c_ceil_div_le_self (a b : Int) (ha : 0 ≤ a) (hb : 0 < b) :
    c_ceil_div a b ≤ a := by
  rw [c_ceil_div_eq_ceil a b hb, Int.ceil_le]
  have hbq : (1 : ℚ) ≤ b := by exact_mod_cast hb
  have haq : (0 : ℚ) ≤ a := by exact_mod_cast ha
  rw [div_le_iff₀ (by linarith)]
  nlinarith

theorem f32_round_exact (n : Nat) (h : n < 2 ^ 24) : f32_round n = n := by
  have hs : f32_shift (63 + 1) n = 0 := by simp only [f32_shift, h, if_true]
  have hs64 : f32_shift 64 n = 0 := hs
  simp [f32_round, hs64, Nat.mod_one]

theorem int_to_float_exact (x : Int) (h0 : 0 ≤ x) (h : x < 2 ^ 24) : int_to_float x = x := by
  unfold int_to_float
  rw [if_pos h0, f32_round_exact x.toNat (by omega)]
  exact Int.toNat_of_nonneg h0

theorem to_uint32_least_multiple (a d : Int) (k : Nat) (ha : 0 ≤ a) (hd : 0 < d)
    (hk : 0 < k) (hsmall : c_ceil_div a (d * k) * k < 2 ^ 32) :
    IsLeastMultipleGE k ((a : ℚ) / (d : ℚ)) (to_uint32 (c_ceil_div a (d * k) * k)) := by
  have hdk : 0 < d * (k : Int) := by positivity
  have hc := c_ceil_div_eq_ceil a (d * k) hdk
  have hdq : (0 : ℚ) < d := by exact_mod_cast hd
  have hkq : (0 : ℚ) < (k : ℚ) := by exact_mod_cast hk
  have hnn : 0 ≤ c_ceil_div a (d * k) := by
    rw [hc]; apply Int.ceil_nonneg; push_cast; positivity
  have hval : ((to_uint32 (c_ceil_div a (d * k) * k) : Nat) : Int)
      = c_ceil_div a (d * k) * k := by
    unfold to_uint32
    have h0 : 0 ≤ c_ceil_div a (d * k) * k := by positivity
    rw [Int.emod_eq_of_lt h0 hsmall]
    exact Int.toNat_of_nonneg h0
  refine ⟨?_, ?_, ?_⟩
  · have : (k : Int) ∣ ((to_uint32 (c_ceil_div a (d * k) * k) : Nat) : Int) := by
      rw [hval]; exact Dvd.intro_left _ rfl
    exact_mod_cast this
  · have h1 : ((to_uint32 (c_ceil_div a (d * k) * k) : Nat) : ℚ)
        = (c_ceil_div a (d * k) : ℚ) * k := by
      have := congrArg (fun z : Int => (z : ℚ)) hval
      simpa using this
    rw [h1, hc]
    have := Int.le_ceil ((a : ℚ) / ((d * k : Int) : ℚ))
    push_cast at this ⊢
    calc (a : ℚ) / d = (a : ℚ) / (d * k) * k := by field_simp; ring
      _ ≤ _ := by gcongr
  · intro m hm hle
    obtain ⟨j, rfl⟩ := hm
    have hj : c_ceil_div a (d * k) ≤ (j : Int) := by
      rw [hc, Int.ceil_le]
      push_cast at hle ⊢
      rw [div_le_iff₀ (by positivity)]
      rw [div_le_iff₀ hdq] at hle
      linarith
    have : ((to_uint32 (c_ceil_div a (d * k) * k) : Nat) : Int) ≤ ((k * j : Nat) : Int) := by
      rw [hval]; push_cast
      have hk' : (0 : Int) ≤ k := by positivity
      nlinarith
    exact_mod_cast this

/-- The padded size computed for a dimension `a` scaled by `n / d` in blocks of
`k` pixels is the least multiple of `k` not below `a * n / d`. -/
theorem padded_is_least (a n d : Int) (k : Nat) (ha : 0 < a) (hn : 0 < n) (hd : 0 < d)
    (hk : 0 < k) (hk16 : k ≤ 16) (hsmall : a * n < 2 ^ 24) :
    IsLeastMultipleGE k (((a * n : Int) : ℚ) / (d : ℚ))
      (to_uint32 (c_ceil_div (a * n) (d * k) * k)) := by
  have han : 0 ≤ a * n := by positivity
  apply to_uint32_least_multiple (a * n) d k han hd hk
  have hdk : 0 < d * (k : Int) := by positivity
  have h1 := c_ceil_div_le_self (a * n) (d * k) han hdk
  have hk' : (k : Int) ≤ 16 := by exact_mod_cast hk16
  have hk0 : (0 : Int) ≤ k := by positivity
  have hc0 : 0 ≤ c_ceil_div (a * n) (d * ↑k) := by
    rw [c_ceil_div_eq_ceil _ _ hdk]; apply Int.ceil_nonneg; push_cast; positivity
  calc c_ceil_div (a * n) (d * ↑k) * ↑k ≤ (a * n) * 16 := by
        apply mul_le_mul h1 hk' hk0 han
    _ < 2 ^ 32 := by omega

/-- Claim C2. For positive width and height in the range where the float
arithmetic is exact, `init_c63_enc` makes `ypw`, `yph` the least multiples of
16 not below width and height, and `upw`, `uph`, `vpw`, `vph` the least
multiples of 8 not below `width*UX/YX`, `height*UY/YY`, `width*VX/YX`,
`height*VY/YY`; `padw` and `padh` hold the same values; and with the 4:2:0
factors each chroma padded dimension is the luma one scaled by 1/2. -/
theorem init_c63_enc_padded_dims (s : Subsampling) (ydef uvdef : List Nat)
    (width height : Int) (h : valid_geometry s width height) :
    IsLeastMultipleGE 16 (width : ℚ) (init_c63_enc s ydef uvdef width height).ypw ∧
    IsLeastMultipleGE 16 (height : ℚ) (init_c63_enc s ydef uvdef width height).yph ∧
    IsLeastMultipleGE 8 (((width * s.UX : Int) : ℚ) / (s.YX : ℚ))
      (init_c63_enc s ydef uvdef width height).upw ∧
    IsLeastMultipleGE 8 (((height * s.UY : Int) : ℚ) / (s.YY : ℚ))
      (init_c63_enc s ydef uvdef width height).uph ∧
    IsLeastMultipleGE 8 (((width * s.VX : Int) : ℚ) / (s.YX : ℚ))
      (init_c63_enc s ydef uvdef width height).vpw ∧
    IsLeastMultipleGE 8 (((height * s.VY : Int) : ℚ) / (s.YY : ℚ))
      (init_c63_enc s ydef uvdef width height).vph ∧
    (init_c63_enc s ydef uvdef width height).padw =
      { Y := (init_c63_enc s ydef uvdef width height).ypw
        U := (init_c63_enc s ydef uvdef width height).upw
        V := (init_c63_enc s ydef uvdef width height).vpw } ∧
    (init_c63_enc s ydef uvdef width height).padh =
      { Y := (init_c63_enc s ydef uvdef width height).yph
        U := (init_c63_enc s ydef uvdef width height).uph
        V := (init_c63_enc s ydef uvdef width height).vph } ∧
    2 * (init_c63_enc yuv420 ydef uvdef width height).upw =
      (init_c63_enc yuv420 ydef uvdef width height).ypw ∧
    2 * (init_c63_enc yuv420 ydef uvdef width height).uph =
      (init_c63_enc yuv420 ydef uvdef width height).yph ∧
    2 * (init_c63_enc yuv420 ydef uvdef width height).vpw =
      (init_c63_enc yuv420 ydef uvdef width height).ypw ∧
    2 * (init_c63_enc yuv420 ydef uvdef width height).vph =
      (init_c63_enc yuv420 ydef uvdef width height).yph := by
  obtain ⟨hw, hh, hw24, hh24, hYX, hYY, hUX, hUY, hVX, hVY, -, -, hwu, hhu, hwv, hhv⟩ := h
  have ew := int_to_float_exact width (le_of_lt hw) hw24
  have eh := int_to_float_exact height (le_of_lt hh) hh24
  have ewu := int_to_float_exact (width * s.UX) (by positivity) hwu
  have ehu := int_to_float_exact (height * s.UY) (by positivity) hhu
  have ewv := int_to_float_exact (width * s.VX) (by positivity) hwv
  have ehv := int_to_float_exact (height * s.VY) (by positivity) hhv
  have ew1 : int_to_float (width * yuv420.UX) = width * 1 := by
    rw [show width * yuv420.UX = width from mul_one width, ew, mul_one]
  have eh1 : int_to_float (height * yuv420.UY) = height * 1 := by
    rw [show height * yuv420.UY = height from mul_one height, eh, mul_one]
  have ew2 : int_to_float (width * yuv420.VX) = width * 1 := ew1
  have eh2 : int_to_float (height * yuv420.VY) = height * 1 := eh1
  have e28 : yuv420.YX * 8 = 2 * 8 := rfl
  have e28h : yuv420.YY * 8 = 2 * 8 := rfl
  have luma : ∀ a : Int, 0 < a → a < 2 ^ 24 →
      IsLeastMultipleGE 16 (a : ℚ) (to_uint32 (c_ceil_div a 16 * 16)) := by
    intro a ha ha24
    have := padded_is_least a 1 1 16 ha one_pos one_pos (by norm_num) le_rfl (by omega)
    simpa using this
  have half : ∀ a : Int, 0 < a → a < 2 ^ 24 →
      2 * to_uint32 (c_ceil_div (a * 1) (2 * 8) * 8) = to_uint32 (c_ceil_div a 16 * 16) := by
    intro a ha ha24
    have hc := c_ceil_div_le_self a 16 (le_of_lt ha) (by norm_num)
    have hc0 : 0 ≤ c_ceil_div a 16 := by
      rw [c_ceil_div_eq_ceil _ _ (by norm_num)]; apply Int.ceil_nonneg; push_cast; positivity
    simp only [mul_one, to_uint32]
    norm_num
    omega
  refine ⟨?_, ?_, ?_, ?_, ?_, ?_, rfl, rfl, ?_, ?_, ?_, ?_⟩
  · simp only [init_c63_enc, ew]
    exact luma width hw hw24
  · simp only [init_c63_enc, eh]
    exact luma height hh hh24
  · simp only [init_c63_enc, ewu]
    exact padded_is_least width s.UX s.YX 8 hw hUX hYX (by norm_num) (by norm_num) hwu
  · simp only [init_c63_enc, ehu]
    exact padded_is_least height s.UY s.YY 8 hh hUY hYY (by norm_num) (by norm_num) hhu
  · simp only [init_c63_enc, ewv]
    exact padded_is_least width s.VX s.YX 8 hw hVX hYX (by norm_num) (by norm_num) hwv
  · simp only [init_c63_enc, ehv]
    exact padded_is_least height s.VY s.YY 8 hh hVY hYY (by norm_num) (by norm_num) hhv
  · simp only [init_c63_enc, ew, ew1, e28]
    exact half width hw hw24
  · simp only [init_c63_enc, eh, eh1, e28h]
    exact half height hh hh24
  · simp only [init_c63_enc, ew, ew2, e28]
    exact half width hw hw24
  · simp only [init_c63_enc, eh, eh2, e28h]
    exact half height hh hh24

theorem init_c63_enc_padded_dims_witness :
    valid_geometry yuv420 17 33 ∧
    (init_c63_enc yuv420 [] [] 17 33).ypw = 32 ∧
    (init_c63_enc yuv420 [] [] 17 33).yph = 48 ∧
    (init_c63_enc yuv420 [] [] 17 33).upw = 16 ∧
    (init_c63_enc yuv420 [] [] 17 33).uph = 24 ∧
    IsLeastMultipleGE 16 ((17 : Int) : ℚ) (init_c63_enc yuv420 [] [] 17 33).ypw ∧
    IsLeastMultipleGE 8 (((17 * yuv420.UX : Int) : ℚ) / (yuv420.YX : ℚ))
      (init_c63_enc yuv420 [] [] 17 33).upw :=
  ⟨by decide, by decide, by decide, by decide, by decide,
   (init_c63_enc_padded_dims yuv420 [] [] 17 33 (by decide)).1,
   (init_c63_enc_padded_dims yuv420 [] [] 17 33 (by decide)).2.2.1⟩

/-! ### The compute stage and the keyframe schedule -/

theorem c63_encode_image_spec (K : Collaborators) (cm : c63_common) (image : yuv_t)
    (h : is_keyframe cm = true ∨ cm.curframe ≠ none) :
    ∃ cm1 cur, c63_encode_image K cm image = some cm1 ∧ cm1.curframe = some cur ∧
      cm1.refframe = cm.curframe ∧ cur.keyframe = is_keyframe cm ∧
      cm1.framenum = cm.framenum ∧ cm1.keyframe_interval = cm.keyframe_interval ∧
      cm1.frames_since_keyframe
        = (if is_keyframe cm then 0 else cm.frames_since_keyframe) ∧
      cur.recons =
        { Y := K.dequantize_idct cur.residuals.Y cur.predicted.Y cm.ypw cm.yph cm.quanttbl.Y
          U := K.dequantize_idct cur.residuals.U cur.predicted.U cm.upw cm.uph cm.quanttbl.U
          V := K.dequantize_idct cur.residuals.V cur.predicted.V cm.vpw cm.vph cm.quanttbl.V } := by
  by_cases hp : cm.framenum = 0 ∨ cm.frames_since_keyframe = cm.keyframe_interval
  · cases hres : c63_encode_image K cm image with
    | none => simp [c63_encode_image, is_keyframe, hp] at hres
    | some cm1 =>
      simp [c63_encode_image, is_keyframe, hp] at hres
      subst hres
      simp [is_keyframe, hp]
  · have hkey : is_keyframe cm = false := by simp [is_keyframe, hp]
    rw [hkey] at h
    rcases h with h | h
    · exact absurd h (by simp)
    · obtain ⟨ref, href⟩ := Option.ne_none_iff_exists'.mp h
      cases hres : c63_encode_image K cm image with
      | none => simp [c63_encode_image, is_keyframe, hp, href] at hres
      | some cm1 =>
        simp [c63_encode_image, is_keyframe, hp, href] at hres
        subst hres
        simp [is_keyframe, hp, href]

theorem c63_encode_image_curframe (K : Collaborators) (cm cm1 : c63_common) (image : yuv_t)
    (he : c63_encode_image K cm image = some cm1) : ∃ cur, cm1.curframe = some cur := by
  simp only [c63_encode_image] at he
  split at he
  · simp at he
  · simp only [Option.some.injEq] at he
    subst he
    exact ⟨_, rfl⟩

theorem keyframe_flags_append (a b : List Event) :
    keyframe_flags (a ++ b) = keyframe_flags a ++ keyframe_flags b := by
  induction a with
  | nil => rfl
  | cons e t ih => cases e <;> simp [keyframe_flags, ih]

theorem counters_after_is_keyframe (k j : Nat) (cm : c63_common)
    (h : counters_after k j cm) :
    is_keyframe cm = decide (j % k = 0) ∧ (is_keyframe cm = true ∨ cm.curframe ≠ none) := by
  obtain ⟨hk1, hj, h | ⟨hj0, h1, h2, h3, h4⟩⟩ := h
  · simp [is_keyframe, hj, h.1]
  · refine ⟨?_, Or.inr h4⟩
    have hne : cm.framenum ≠ 0 := by omega
    have : (cm.frames_since_keyframe = cm.keyframe_interval) ↔ j % k = 0 := by
      rw [hk1, ← h3]
      constructor
      · intro h; rw [h]; exact Nat.mod_self k
      · intro h
        rcases Nat.lt_or_ge cm.frames_since_keyframe k with hlt | hge
        · rw [Nat.mod_eq_of_lt hlt] at h; omega
        · omega
    simp [is_keyframe, hne, this]

theorem counters_after_step (K : Collaborators) (k j : Nat) (cm cm1 : c63_common)
    (image : yuv_t) (hk : 1 ≤ k) (h : counters_after k j cm)
    (he : c63_encode_image K cm image = some cm1) :
    counters_after k (j + 1) (bump_counters cm1) := by
  obtain ⟨hkey, hpre⟩ := counters_after_is_keyframe k j cm h
  obtain ⟨cm2, cur, he2, hcur, -, -, hfn, hki, hfsk, -⟩ := c63_encode_image_spec K cm image hpre
  rw [he] at he2
  cases he2
  obtain ⟨hk1, hj, hc⟩ := h
  refine ⟨by simp [bump_counters, hki, hk1], by simp [bump_counters, hfn, hj], Or.inr ?_⟩
  refine ⟨by omega, by simp [bump_counters], ?_, ?_, by simp [bump_counters, hcur]⟩
  · simp only [bump_counters, hfsk, hkey]
    by_cases hz : j % k = 0
    · simp [hz]; omega
    · simp only [hz, decide_False, Bool.false_eq_true, if_false]
      rcases hc with ⟨hj0, _⟩ | ⟨_, _, h2, h3, _⟩
      · simp [hj0] at hz
      · rcases Nat.lt_or_ge cm.frames_since_keyframe k with hlt | hge
        · omega
        · have : cm.frames_since_keyframe = k := by omega
          rw [this, Nat.mod_self] at h3
          omega
  · simp only [bump_counters, hfsk, hkey]
    by_cases hz : j % k = 0
    · simp only [hz, decide_True, if_true]
      rw [Nat.add_mod j 1 k, hz]
      simp
    · simp only [hz, decide_False, Bool.false_eq_true, if_false]
      rcases hc with ⟨hj0, _⟩ | ⟨_, _, _, h3, _⟩
      · simp [hj0] at hz
      · rw [Nat.add_mod, h3, ← Nat.add_mod]

theorem server_iteration_cases (P : Platform) (K : Collaborators) (s : ServerState)
    (d1 d2 : sci_error_t) :
    (s.local_comms.cmd = cmd.CMD_INVALID ∧
      server_iteration P K s d1 d2 = Step.next s [Event.read_cmd Node.server Node.server]) ∨
    (s.local_comms.cmd = cmd.CMD_QUIT ∧
      server_iteration P K s d1 d2 = Step.brk s [Event.read_cmd Node.server Node.server]) ∨
    (s.local_comms.cmd = cmd.CMD_DONE ∧
      c63_encode_image K s.cm (server_unpack_image s) = none ∧
      ∃ ev, server_iteration P K s d1 d2 = Step.halt Outcome.crash ev ∧
        keyframe_flags ev = []) ∨
    (s.local_comms.cmd = cmd.CMD_DONE ∧
      ∃ cm1 cur ev, c63_encode_image K s.cm (server_unpack_image s) = some cm1 ∧
        cm1.curframe = some cur ∧ keyframe_flags ev = [cur.keyframe] ∧
        ((¬ (d1 = SCI_ERR_OK ∧ d2 = SCI_ERR_OK) ∧
            server_iteration P K s d1 d2 = Step.halt (Outcome.exit EXIT_FAILURE) ev) ∨
         (d1 = SCI_ERR_OK ∧ d2 = SCI_ERR_OK ∧
            ∃ s1, server_iteration P K s d1 d2 = Step.next s1 ev ∧
              s1.cm = bump_counters cm1))) := by
  cases hc : s.local_comms.cmd with
  | CMD_INVALID => left; simp [server_iteration, hc]
  | CMD_QUIT => right; left; simp [server_iteration, hc]
  | CMD_DONE =>
    right; right
    cases he : c63_encode_image K s.cm (server_unpack_image s) with
    | none =>
      left
      refine ⟨rfl, rfl, (server_iteration P K s d1 d2).events, ?_⟩
      simp [server_iteration, hc, he, keyframe_flags, Step.events]
    | some cm1 =>
      right
      refine ⟨rfl, ?_⟩
      obtain ⟨cur, hcur⟩ := c63_encode_image_curframe K _ _ _ he
      have hev : keyframe_flags (server_iteration P K s d1 d2).events = [cur.keyframe] := by
        by_cases h1 : d1 = SCI_ERR_OK <;> by_cases h2 : d2 = SCI_ERR_OK <;>
          simp [server_iteration, hc, he, hcur, h1, h2, Step.events, keyframe_flags]
      refine ⟨cm1, cur, (server_iteration P K s d1 d2).events, rfl, hcur, hev, ?_⟩
      by_cases h1 : d1 = SCI_ERR_OK
      · by_cases h2 : d2 = SCI_ERR_OK
        · right
          refine ⟨h1, h2, ?_⟩
          simp [server_iteration, hc, he, hcur, h1, h2, Step.events, bump_counters]
        · left
          simp [server_iteration, hc, he, hcur, h1, h2, Step.events]
      · left
        simp [server_iteration, hc, he, hcur, h1, Step.events]

theorem map_range_shift (f : Nat → Bool) (j m : Nat) :
    f j :: (List.range m).map (fun i => f (j + 1 + i))
      = (List.range (m + 1)).map (fun i => f (j + i)) := by
  rw [List.range_succ_eq_map]
  simp [List.map_map, Function.comp, Nat.add_assoc, Nat.add_comm 1]

theorem server_observe_cm (e : ServerFrameEnv) (s : ServerState) :
    (server_observe e s).cm = s.cm := rfl

theorem server_iteration_keyframe (K : Collaborators) (k j : Nat) (cm cm1 : c63_common)
    (cur : frame) (image : yuv_t) (h : counters_after k j cm)
    (he : c63_encode_image K cm image = some cm1) (hcur : cm1.curframe = some cur) :
    cur.keyframe = decide (j % k = 0) := by
  obtain ⟨hkey, hpre⟩ := counters_after_is_keyframe k j cm h
  obtain ⟨cm2, cur2, he2, hcur2, -, hk2, -⟩ := c63_encode_image_spec K cm image hpre
  rw [he] at he2
  cases he2
  rw [hcur] at hcur2
  cases hcur2
  rw [hk2, hkey]

theorem server_loop_flags (P : Platform) (K : Collaborators) (k : Nat) (hk : 1 ≤ k) :
    ∀ (envs : List ServerFrameEnv) (s : ServerState) (j : Nat), counters_after k j s.cm →
      ∃ m, keyframe_flags (server_loop P K envs s).2
        = (List.range m).map (fun i => decide ((j + i) % k = 0)) := by
  intro envs
  induction envs with
  | nil => intro s j _; exact ⟨0, rfl⟩
  | cons e es ih =>
    intro s j hinv
    have hinv1 : counters_after k j (server_observe e s).cm := hinv
    rcases server_iteration_cases P K (server_observe e s) e.dma_start e.dma_wait with
      ⟨-, hst⟩ | ⟨-, hst⟩ | ⟨-, -, ev, hst, hfl⟩ | ⟨-, cm1, cur, ev, he, hcur, hfl, hst⟩
    · obtain ⟨m, hm⟩ := ih (server_observe e s) j hinv1
      refine ⟨m, ?_⟩
      simp only [server_loop, hst]
      simpa [keyframe_flags] using hm
    · refine ⟨0, ?_⟩
      simp [server_loop, hst, keyframe_flags]
    · refine ⟨0, ?_⟩
      simp [server_loop, hst, hfl]
    · have hkey := server_iteration_keyframe K k j _ cm1 cur _ hinv1 he hcur
      rcases hst with ⟨-, hst⟩ | ⟨-, -, s1, hst, hs1⟩
      · refine ⟨1, ?_⟩
        simp only [server_loop, hst, hfl, hkey]
        exact map_range_shift (fun i => decide (i % k = 0)) j 0
      · have hinv2 : counters_after k (j + 1) s1.cm := by
          rw [hs1]; exact counters_after_step K k j _ cm1 _ hk hinv1 he
        obtain ⟨m, hm⟩ := ih s1 (j + 1) hinv2
        refine ⟨m + 1, ?_⟩
        simp only [server_loop, hst, keyframe_flags_append, hfl, hm, hkey]
        exact map_range_shift (fun i => decide (i % k = 0)) j m

theorem server_loop_delivers (P : Platform) (K : Collaborators) (k : Nat) (hk : 1 ≤ k) :
    ∀ (envs : List ServerFrameEnv) (s : ServerState) (j : Nat), counters_after k j s.cm →
      (∀ e ∈ envs, e.delivers) →
      keyframe_flags (server_loop P K envs s).2
        = (List.range envs.length).map (fun i => decide ((j + i) % k = 0)) := by
  intro envs
  induction envs with
  | nil => intro s j _ _; rfl
  | cons e es ih =>
    intro s j hinv hd
    have hinv1 : counters_after k j (server_observe e s).cm := hinv
    obtain ⟨hc, hd1, hd2⟩ := hd e (List.mem_cons_self _ _)
    have hcmd : (server_observe e s).local_comms.cmd = cmd.CMD_DONE := by
      simp [server_observe, hc]
    obtain ⟨-, hpre⟩ := counters_after_is_keyframe k j _ hinv1
    obtain ⟨cm0, cur0, he0, -⟩ :=
      c63_encode_image_spec K (server_observe e s).cm
        (server_unpack_image (server_observe e s)) hpre
    rcases server_iteration_cases P K (server_observe e s) e.dma_start e.dma_wait with
      ⟨h, -⟩ | ⟨h, -⟩ | ⟨-, hn, -⟩ | ⟨-, cm1, cur, ev, he, hcur, hfl, hst⟩
    · rw [hcmd] at h; cases h
    · rw [hcmd] at h; cases h
    · rw [he0] at hn; cases hn
    · have hkey := server_iteration_keyframe K k j _ cm1 cur _ hinv1 he hcur
      rcases hst with ⟨hno, -⟩ | ⟨-, -, s1, hst, hs1⟩
      · exact absurd ⟨hd1, hd2⟩ hno
      · have hinv2 : counters_after k (j + 1) s1.cm := by
          rw [hs1]; exact counters_after_step K k j _ cm1 _ hk hinv1 he
        have hm := ih s1 (j + 1) hinv2 (fun x hx => hd x (List.mem_cons_of_mem _ hx))
        simp only [server_loop, hst, keyframe_flags_append, hfl, hm, hkey, List.length_cons]
        exact map_range_shift (fun i => decide (i % k = 0)) j es.length

/-- Claim C1. From a context with both counters zero and keyframe interval at
least 1, whatever the client and the interconnect do, the keyframe flags the
server's loop gives the frames it encodes are, in order, true exactly at the
indices that are 0 or a multiple of the interval; when every entry of the
environment delivers a frame, one flag is produced per entry; and for
interval 2 and three delivered frames the flags are true, false, true. -/
theorem keyframe_schedule (P : Platform) (K : Collaborators) (s : ServerState)
    (envs : List ServerFrameEnv) (hk : 1 ≤ s.cm.keyframe_interval)
    (h0 : s.cm.framenum = 0) (h1 : s.cm.frames_since_keyframe = 0) :
    (∃ m, keyframe_flags (server_loop P K envs s).2
      = (List.range m).map (fun i => decide (i = 0 ∨ s.cm.keyframe_interval ∣ i))) ∧
    ((∀ e ∈ envs, e.delivers) →
      keyframe_flags (server_loop P K envs s).2
        = (List.range envs.length).map
            (fun i => decide (i = 0 ∨ s.cm.keyframe_interval ∣ i))) ∧
    ((∀ e ∈ envs, e.delivers) → s.cm.keyframe_interval = 2 → envs.length = 3 →
      keyframe_flags (server_loop P K envs s).2 = [true, false, true]) := by
  have hinv : counters_after s.cm.keyframe_interval 0 s.cm := ⟨rfl, h0, Or.inl ⟨rfl, h1⟩⟩
  have hfun : (fun i => decide ((0 + i) % s.cm.keyframe_interval = 0))
      = (fun i => decide (i = 0 ∨ s.cm.keyframe_interval ∣ i)) := by
    funext i
    simp only [Nat.zero_add, decide_eq_decide]
    constructor
    · intro h; exact Or.inr (Nat.dvd_of_mod_eq_zero h)
    · rintro (h | h)
      · simp [h]
      · exact Nat.mod_eq_zero_of_dvd h
  have hdel := server_loop_delivers P K s.cm.keyframe_interval hk envs s 0 hinv
  rw [hfun] at hdel
  refine ⟨?_, hdel, ?_⟩
  · obtain ⟨m, hm⟩ := server_loop_flags P K s.cm.keyframe_interval hk envs s 0 hinv
    exact ⟨m, by rw [hm, hfun]⟩
  · intro hd h2 h3
    rw [hdel hd, h2, h3]
    decide

theorem keyframe_schedule_witness :
    keyframe_flags (server_loop lp64 toy_collaborators three_frames tiny_server_state).2
      = [true, false, true] :=
  (keyframe_schedule lp64 toy_collaborators tiny_server_state three_frames
    (by decide) (by decide) (by decide)).2.2 (by decide) (by decide) (by decide)

/-! ### The reference frame -/

/-- Claim C3. A call of `c63_encode_image` that returns (the frame is a
keyframe or a current frame exists) leaves as reference frame exactly the
frame that was current before the call, buffers included; the new current
frame's reconstruction is the output of `dequantize_idct` on its residuals and
prediction; and after the loop's counter increments the next call returns with
that frame, unchanged, as its reference. -/
theorem reference_is_previous_current (K : Collaborators) (cm : c63_common) (image : yuv_t)
    (h : is_keyframe cm = true ∨ cm.curframe ≠ none) :
    ∃ cm1 cur, c63_encode_image K cm image = some cm1 ∧
      cm1.refframe = cm.curframe ∧ cm1.curframe = some cur ∧
      cur.recons =
        { Y := K.dequantize_idct cur.residuals.Y cur.predicted.Y cm.ypw cm.yph cm.quanttbl.Y
          U := K.dequantize_idct cur.residuals.U cur.predicted.U cm.upw cm.uph cm.quanttbl.U
          V := K.dequantize_idct cur.residuals.V cur.predicted.V cm.vpw cm.vph cm.quanttbl.V } ∧
      ∀ image2 : yuv_t, ∃ cm2, c63_encode_image K (bump_counters cm1) image2 = some cm2 ∧
        cm2.refframe = some cur := by
  obtain ⟨cm1, cur, he, hcur, href, -, -, -, -, hrec⟩ := c63_encode_image_spec K cm image h
  refine ⟨cm1, cur, he, href, hcur, hrec, ?_⟩
  intro image2
  have hpre : is_keyframe (bump_counters cm1) = true ∨ (bump_counters cm1).curframe ≠ none :=
    Or.inr (by simp [bump_counters, hcur])
  obtain ⟨cm2, -, he2, -, href2, -⟩ := c63_encode_image_spec K (bump_counters cm1) image2 hpre
  exact ⟨cm2, he2, by rw [href2]; simp [bump_counters, hcur]⟩

theorem reference_is_previous_current_witness :
    (is_keyframe tiny_context = true ∨ tiny_context.curframe ≠ none) ∧
    (∃ cm1 cur, c63_encode_image toy_collaborators tiny_context
        { Y := [9, 9, 9, 9], U := [5], V := [5] } = some cm1 ∧
      cm1.refframe = tiny_context.curframe ∧ cm1.curframe = some cur ∧
      cur.recons =
        { Y := toy_collaborators.dequantize_idct cur.residuals.Y cur.predicted.Y
            tiny_context.ypw tiny_context.yph tiny_context.quanttbl.Y
          U := toy_collaborators.dequantize_idct cur.residuals.U cur.predicted.U
            tiny_context.upw tiny_context.uph tiny_context.quanttbl.U
          V := toy_collaborators.dequantize_idct cur.residuals.V cur.predicted.V
            tiny_context.vpw tiny_context.vph tiny_context.quanttbl.V } ∧
      ∀ image2 : yuv_t, ∃ cm2,
        c63_encode_image toy_collaborators (bump_counters cm1) image2 = some cm2 ∧
        cm2.refframe = some cur) ∧
    (c63_encode_image toy_collaborators tiny_context
        { Y := [9, 9, 9, 9], U := [5], V := [5] }).map
      (fun c => c.curframe.map (fun f => f.recons))
      = some (some { Y := [8, 8, 8, 8], U := [4], V := [4] }) :=
  ⟨by decide,
   reference_is_previous_current toy_collaborators tiny_context
     { Y := [9, 9, 9, 9], U := [5], V := [5] } (by decide),
   by decide⟩

/-! ### Shutdown -/

/-- Claim C4. In every state of the server's loop in which the server's own
packet holds CMD_QUIT when the poll ends, the pass is a `break` that leaves
the state as it is and only reads the packet: no reset, no
`c63_encode_image`, no transfer, no CMD_DONE for the client. The loop then
ends the run with the library shutdown alone, whatever else the environment
holds. -/
theorem server_quit_exits (P : Platform) (K : Collaborators) (s : ServerState)
    (d1 d2 : sci_error_t) (h : s.local_comms.cmd = cmd.CMD_QUIT) :
    server_iteration P K s d1 d2 = Step.brk s [Event.read_cmd Node.server Node.server] ∧
    ∀ (e : ServerFrameEnv) (es : List ServerFrameEnv) (s0 : ServerState),
      server_observe e s0 = s →
      server_loop P K (e :: es) s0
        = (Outcome.exit 0,
            [Event.read_cmd Node.server Node.server, Event.terminate Node.server]) := by
  have hit : ∀ d1 d2, server_iteration P K s d1 d2
      = Step.brk s [Event.read_cmd Node.server Node.server] := by
    intro d1 d2
    simp [server_iteration, h]
  refine ⟨hit d1 d2, ?_⟩
  intro e es s0 hobs
  simp [server_loop, hobs, hit]

theorem server_quit_exits_witness :
    server_iteration lp64 toy_collaborators
        (server_observe { cmd := some cmd.CMD_QUIT, seg := none, dma_start := 0, dma_wait := 0 }
          tiny_server_state) 0 0
      = Step.brk
          (server_observe { cmd := some cmd.CMD_QUIT, seg := none, dma_start := 0, dma_wait := 0 }
            tiny_server_state)
          [Event.read_cmd Node.server Node.server] ∧
    server_loop lp64 toy_collaborators
        ({ cmd := some cmd.CMD_QUIT, seg := none, dma_start := 0, dma_wait := 0 } :: three_frames)
        tiny_server_state
      = (Outcome.exit 0,
          [Event.read_cmd Node.server Node.server, Event.terminate Node.server]) :=
  ⟨(server_quit_exits lp64 toy_collaborators _ 0 0 (by decide)).1,
   (server_quit_exits lp64 toy_collaborators _ 0 0 (by decide)).2 _ _ _ rfl⟩

/-! ### The client's loop -/

theorem fread_full (n : Nat) (f : FILE) (h : n ≤ f.data.length) :
    fread n f = (f.data.take n, { f with data := f.data.drop n }) := by
  simp [fread, List.length_take, Nat.min_eq_left h]

theorem fread_short (n : Nat) (f : FILE) (h : f.data.length < n) (hb : f.bad = false) :
    fread n f = (f.data, { f with data := [], eof := true }) := by
  have h1 : f.data.take n = f.data := List.take_of_length_le (le_of_lt h)
  have h2 : f.data.drop n = [] := List.drop_of_length_le (le_of_lt h)
  simp [fread, h1, h2, h, hb]

theorem fread_flags (n : Nat) (f : FILE) (hb : f.bad = false) :
    (fread n f).2.bad = false ∧ (fread n f).2.error = f.error ∧
    (f.eof = true → (fread n f).2.eof = true) ∧
    (fread n f).2.data.length ≤ f.data.length := by
  simp only [fread]
  split_ifs <;> simp_all

/-- A full frame is available: `read_yuv` returns an image and consumes
exactly `frame_bytes` bytes. -/
theorem read_yuv_full (width height : Nat) (cm : c63_common) (f : FILE) (hf : f.fresh)
    (h4 : 4 ∣ (width * height) % 2 ^ 32)
    (hlen : frame_bytes width height ≤ f.data.length) :
    read_yuv width height cm f
      = (ReadResult.image (read_yuv_image width height cm f),
          { f with data := f.data.drop (frame_bytes width height) }, []) := by
  obtain ⟨hb, he, herr⟩ := hf
  unfold frame_bytes at hlen ⊢
  unfold read_yuv_image
  generalize hwh : (width * height) % 2 ^ 32 = wh at h4 hlen
  have e1 := fread_full wh f (by omega)
  have e2 : fread (wh / 4) (fread wh f).2
      = ((f.data.drop wh).take (wh / 4), { f with data := (f.data.drop wh).drop (wh / 4) }) := by
    rw [e1]; exact fread_full _ _ (by simp; omega)
  have e3 : fread (wh / 4) (fread (wh / 4) (fread wh f).2).2
      = (((f.data.drop wh).drop (wh / 4)).take (wh / 4),
          { f with data := ((f.data.drop wh).drop (wh / 4)).drop (wh / 4) }) := by
    rw [e2]; exact fread_full _ _ (by simp; omega)
  have hl : 2 * ((f.data.take wh).length + ((f.data.drop wh).take (wh / 4)).length
      + (((f.data.drop wh).drop (wh / 4)).take (wh / 4)).length) = 3 * wh := by
    simp only [List.length_take, List.length_drop]
    omega
  simp only [read_yuv, hwh]
  rw [e3, e2, e1]
  simp only [herr, he, hl, Bool.false_eq_true, if_false, ne_eq, not_true_eq_false]
  simp [List.drop_drop, Nat.add_comm, Nat.add_left_comm]

/-- Less than a full frame is left before the end of the file: `read_yuv`
returns NULL without a message. -/
theorem read_yuv_short (width height : Nat) (cm : c63_common) (f : FILE)
    (hb : f.bad = false) (herr : f.error = false)
    (hpos : 0 < (width * height) % 2 ^ 32) (h4 : 4 ∣ (width * height) % 2 ^ 32)
    (hlen : f.data.length < frame_bytes width height) :
    ∃ f1, read_yuv width height cm f = (ReadResult.null, f1, []) := by
  unfold frame_bytes at hlen
  generalize hwh : (width * height) % 2 ^ 32 = wh at h4 hlen hpos
  have hq : 0 < wh / 4 := by omega
  obtain ⟨b1, r1, g1, l1⟩ := fread_flags wh f hb
  obtain ⟨b2, r2, g2, l2⟩ := fread_flags (wh / 4) (fread wh f).2 b1
  obtain ⟨b3, r3, g3, l3⟩ := fread_flags (wh / 4) (fread (wh / 4) (fread wh f).2).2 b2
  have herr3 : (fread (wh / 4) (fread (wh / 4) (fread wh f).2).2).2.error = false := by
    rw [r3, r2, r1, herr]
  have heof3 : (fread (wh / 4) (fread (wh / 4) (fread wh f).2).2).2.eof = true := by
    by_cases c1 : f.data.length < wh
    · apply g3; apply g2
      rw [fread_short wh f c1 hb]
    · have e1 := fread_full wh f (by omega)
      by_cases c2 : (f.data.drop wh).length < wh / 4
      · apply g3
        have e2 : fread (wh / 4) (fread wh f).2
            = ((f.data.drop wh), { f with data := [], eof := true }) := by
          rw [e1]; exact fread_short _ _ c2 hb
        rw [e2]
      · have e2 : fread (wh / 4) (fread wh f).2
            = ((f.data.drop wh).take (wh / 4),
                { f with data := (f.data.drop wh).drop (wh / 4) }) := by
          rw [e1]; exact fread_full _ _ (by simpa using c2)
        have e3 : fread (wh / 4) (fread (wh / 4) (fread wh f).2).2
            = ((f.data.drop wh).drop (wh / 4), { f with data := [], eof := true }) := by
          rw [e2]
          refine fread_short _ _ ?_ hb
          simp only [List.length_drop] at c2 ⊢
          omega
        rw [e3]
  refine ⟨(fread (wh / 4) (fread (wh / 4) (fread wh f).2).2).2, ?_⟩
  simp only [read_yuv, hwh, herr3, heof3]
  simp

theorem read_yuv_events (width height : Nat) (cm : c63_common) (f : FILE) :
    ∀ x ∈ (read_yuv width height cm f).2.2, ∃ m, x = Event.report Node.client m := by
  intro x hx
  simp only [read_yuv] at hx
  split_ifs at hx <;> simp at hx <;> exact ⟨_, hx⟩

/-- A pass of the client's loop in which a frame is read, both transfer calls
succeed and the server answers. -/
theorem client_iteration_good (P : Platform) (width height : Nat) (L : Int)
    (s : ClientState) (e : ClientFrameEnv) (img : yuv_t) (f : FILE) (cur : frame)
    (hr : read_yuv width height s.cm s.infile = (ReadResult.image img, f, []))
    (he : e.answers) (hcur : s.cm.curframe = some cur) :
    ∃ s1 ev, client_iteration P width height L s (some e)
        = (if L ≠ 0 ∧ s.numframes + 1 ≥ L then Step.brk s1 ev else Step.next s1 ev) ∧
      s1.infile = f ∧ s1.numframes = s.numframes + 1 ∧ s1.cm.curframe ≠ none ∧
      ev.countP Event.is_client_transfer = 1 ∧ ev.countP Event.is_client_proceed = 1 ∧
      ev.countP Event.is_write_frame = 1 := by
  obtain ⟨h1, h2, h3⟩ := he
  obtain ⟨r, hresp⟩ := Option.ne_none_iff_exists'.mp h3
  simp only [client_iteration, hr, h1, h2, hresp, hcur, ne_eq, not_true_eq_false, if_false]
  refine ⟨_, _, rfl, rfl, rfl, by simp, ?_, ?_, ?_⟩ <;>
    simp [List.countP_cons, Event.is_client_transfer, Event.is_client_proceed,
      Event.is_write_frame]

/-- A pass of the client's loop in which `read_yuv` returns NULL. -/
theorem client_iteration_null (P : Platform) (width height : Nat) (L : Int)
    (s : ClientState) (e : Option ClientFrameEnv) (f : FILE) (evr : List Event)
    (hr : read_yuv width height s.cm s.infile = (ReadResult.null, f, evr)) :
    client_iteration P width height L s e
      = Step.brk { s with local_comms := { s.local_comms with cmd := cmd.CMD_INVALID }, infile := f }
          ([Event.write_cmd Node.client Node.client cmd.CMD_INVALID] ++ evr) := by
  simp only [client_iteration, hr]

theorem client_loop_null (P : Platform) (width height : Nat) (L : Int)
    (envs : List ClientFrameEnv) (s : ClientState) (f : FILE) (evr : List Event)
    (hr : read_yuv width height s.cm s.infile = (ReadResult.null, f, evr)) :
    client_loop P width height L envs s
      = (Outcome.exit EXIT_SUCCESS,
          [Event.write_cmd Node.client Node.client cmd.CMD_INVALID] ++ evr ++
          [Event.write_cmd Node.client Node.server cmd.CMD_QUIT, Event.terminate Node.client]) := by
  cases envs <;> simp [client_loop, client_iteration_null P width height L s _ f evr hr, client_finish]

/-- The number of frames the client encodes from a stream of `N` complete
frames when `n` frames have been counted and the limit is `L`. -/
theorem client_loop_frames (P : Platform) (width height : Nat) (L : Int)
    (hpos : 0 < (width * height) % 2 ^ 32) (h4 : 4 ∣ (width * height) % 2 ^ 32) :
    ∀ (N : Nat) (envs : List ClientFrameEnv) (s : ClientState) (p : Nat),
      s.infile.fresh → s.infile.data.length = N * frame_bytes width height + p →
      p < frame_bytes width height → s.cm.curframe ≠ none →
      (∀ e ∈ envs, e.answers) → N ≤ envs.length →
      (L = 0 ∨ s.numframes < L) →
      (client_loop P width height L envs s).1 = Outcome.exit EXIT_SUCCESS ∧
      (client_loop P width height L envs s).2.countP Event.is_client_transfer
        = (if L = 0 then N else min N (L - s.numframes).toNat) ∧
      (client_loop P width height L envs s).2.countP Event.is_client_proceed
        = (if L = 0 then N else min N (L - s.numframes).toNat) ∧
      (client_loop P width height L envs s).2.countP Event.is_write_frame
        = (if L = 0 then N else min N (L - s.numframes).toNat) := by
  intro N
  induction N with
  | zero =>
    intro envs s p hf hlen hp _ _ _ _
    obtain ⟨f1, hr⟩ := read_yuv_short width height s.cm s.infile hf.1 hf.2.2 hpos h4
      (by omega)
    rw [client_loop_null P width height L envs s f1 [] hr]
    simp [List.countP_cons, Event.is_client_transfer, Event.is_client_proceed,
      Event.is_write_frame]
  | succ N ih =>
    intro envs s p hf hlen hp hcur hans hN hL
    have hge : frame_bytes width height ≤ s.infile.data.length := by
      rw [hlen, Nat.succ_mul]; omega
    have hr := read_yuv_full width height s.cm s.infile hf h4 hge
    obtain ⟨cur, hcur'⟩ := Option.ne_none_iff_exists'.mp hcur
    cases envs with
    | nil => simp at hN
    | cons e es =>
      obtain ⟨s1, ev, hit, hs1f, hs1n, hs1c, c1, c2, c3⟩ :=
        client_iteration_good P width height L s e _ _ cur hr
          (hans e (List.mem_cons_self _ _)) hcur'
      by_cases hc : L ≠ 0 ∧ s.numframes + 1 ≥ L
      · rw [if_pos hc] at hit
        have hK : (if L = 0 then N + 1 else min (N + 1) (L - s.numframes).toNat) = 1 := by
          rw [if_neg hc.1]
          have : (L - s.numframes).toNat = 1 := by omega
          rw [this]; omega
        simp only [client_loop, hit, client_finish, List.countP_append, c1, c2, c3, hK]
        simp [List.countP_cons, Event.is_client_transfer, Event.is_client_proceed,
          Event.is_write_frame]
      · rw [if_neg hc] at hit
        have hf1 : s1.infile.fresh := by rw [hs1f]; exact hf
        have hlen1 : s1.infile.data.length = N * frame_bytes width height + p := by
          rw [hs1f]; simp only [List.length_drop, hlen, Nat.succ_mul]; omega
        have hL1 : L = 0 ∨ s1.numframes < L := by
          rw [hs1n]
          by_cases h0 : L = 0
          · exact Or.inl h0
          · right
            have := not_and.mp hc h0
            omega
        obtain ⟨o, k1, k2, k3⟩ := ih es s1 p hf1 hlen1 hp hs1c
          (fun x hx => hans x (List.mem_cons_of_mem _ hx)) (by simpa using hN) hL1
        have hK : (if L = 0 then N + 1 else min (N + 1) (L - s.numframes).toNat)
            = 1 + (if L = 0 then N else min N (L - s1.numframes).toNat) := by
          rw [hs1n]
          by_cases h0 : L = 0
          · simp [h0]; omega
          · rw [if_neg h0, if_neg h0]
            have := not_and.mp hc h0
            have e1 : (L - s.numframes).toNat = (L - (s.numframes + 1)).toNat + 1 := by omega
            rw [e1]
            omega
        simp only [client_loop, hit, List.countP_append, c1, c2, c3, k1, k2, k3, hK, o]
        simp

theorem client_iteration_trace (P : Platform) (width height : Nat) (L : Int)
    (s : ClientState) (e : Option ClientFrameEnv) :
    (client_iteration P width height L s e).events.countP Event.is_quit_write = 0 ∧
    (∀ o ev, client_iteration P width height L s e = Step.halt o ev →
      o ≠ Outcome.exit EXIT_SUCCESS) := by
  have hev := read_yuv_events width height s.cm s.infile
  rcases hr : read_yuv width height s.cm s.infile with ⟨r, f, evr⟩
  rw [hr] at hev
  have hq : evr.countP Event.is_quit_write = 0 := by
    rw [List.countP_eq_zero]
    intro x hx
    obtain ⟨m, rfl⟩ := hev x hx
    simp [Event.is_quit_write]
  simp only [client_iteration, hr]
  cases r with
  | exit_failure =>
    simp [Step.events, List.countP_append, List.countP_cons, Event.is_quit_write, hq,
      EXIT_FAILURE, EXIT_SUCCESS]
  | null =>
    simp [Step.events, List.countP_append, List.countP_cons, Event.is_quit_write, hq]
  | image img =>
    cases e with
    | none =>
      simp [Step.events, List.countP_append, List.countP_cons, Event.is_quit_write, hq]
    | some e =>
      cases hresp : e.response <;> cases hcur : s.cm.curframe <;> simp only [] <;>
        split_ifs <;>
        simp [Step.events, List.countP_append, List.countP_cons, Event.is_quit_write, hq,
          EXIT_FAILURE, EXIT_SUCCESS, hresp, hcur]

theorem client_loop_quit_last (P : Platform) (width height : Nat) (L : Int) :
    ∀ (envs : List ClientFrameEnv) (s : ClientState),
      (client_loop P width height L envs s).1 = Outcome.exit EXIT_SUCCESS →
      ∃ pre, (client_loop P width height L envs s).2
          = pre ++ [Event.write_cmd Node.client Node.server cmd.CMD_QUIT,
                    Event.terminate Node.client] ∧
        pre.countP Event.is_quit_write = 0 := by
  intro envs
  induction envs with
  | nil =>
    intro s h
    obtain ⟨hq, hh⟩ := client_iteration_trace P width height L s none
    cases hit : client_iteration P width height L s none with
    | next s1 ev => simp [client_loop, hit] at h
    | brk s1 ev =>
      rw [hit] at hq
      exact ⟨ev, by simp [client_loop, hit, client_finish], hq⟩
    | halt o ev =>
      simp only [client_loop, hit] at h
      exact absurd h (hh o ev hit)
  | cons e es ih =>
    intro s h
    obtain ⟨hq, hh⟩ := client_iteration_trace P width height L s (some e)
    cases hit : client_iteration P width height L s (some e) with
    | next s1 ev =>
      rw [hit] at hq
      simp only [client_loop, hit] at h ⊢
      obtain ⟨pre, hpre, hcount⟩ := ih s1 h
      refine ⟨ev ++ pre, by rw [hpre, List.append_assoc], ?_⟩
      rw [List.countP_append, hcount]
      exact hq
    | brk s1 ev =>
      rw [hit] at hq
      exact ⟨ev, by simp [client_loop, hit, client_finish], hq⟩
    | halt o ev =>
      simp only [client_loop, hit] at h
      exact absurd h (hh o ev hit)

theorem connect_loop_trace (n : Node) (line : Nat) (p : Prim) :
    ∀ errs : List sci_error_t, ∀ x ∈ (connect_loop n line p errs).2, x.is_setup = true := by
  intro errs
  induction errs with
  | nil => intro x hx; simp [connect_loop] at hx
  | cons e es ih =>
    intro x hx
    simp only [connect_loop] at hx
    split_ifs at hx
    · simp at hx; subst hx; rfl
    · simp only [List.mem_cons] at hx
      rcases hx with rfl | hx
      · rfl
      · exact ih x hx

theorem run_setup_trace (n : Node) (sci : Nat → List sci_error_t) :
    ∀ steps : List SetupStep,
      (∀ x ∈ (run_setup n sci steps).2, x.is_setup = true) ∧
      (∀ o, (run_setup n sci steps).1 = some o →
        o = Outcome.running ∨ ∃ st, o = Outcome.exit st ∧ st ≠ 0) := by
  intro steps
  induction steps with
  | nil => simp [run_setup]
  | cons st rest ih =>
    obtain ⟨ih1, ih2⟩ := ih
    have hc := connect_loop_trace n st.line st.prim (sci st.line)
    simp only [run_setup]
    cases st.on_error <;> simp only [] <;> (try split_ifs with h) <;> refine ⟨?_, ?_⟩
    all_goals first
      | (intro x hx
         simp only [List.mem_cons, List.mem_append, List.mem_singleton, List.mem_nil_iff,
           or_false] at hx
         first
           | (rcases hx with rfl | rfl <;> rfl)
           | (rcases hx with rfl | hx
              · rfl
              · exact ih1 x hx)
           | (rcases hx with hx | hx
              · exact hc x hx
              · exact ih1 x hx)
           | exact hc x hx)
      | (intro o ho
         first
           | exact ih2 o ho
           | (simp only [Option.some.injEq] at ho
              subst ho
              first
                | exact Or.inl rfl
                | exact Or.inr ⟨_, rfl, h⟩
                | exact Or.inr ⟨_, rfl, by simp [EXIT_FAILURE]⟩))

theorem setup_count_zero (q : Event → Bool) (hq : ∀ x, x.is_setup = true → q x = false)
    (n : Node) (sci : Nat → List sci_error_t) (steps : List SetupStep) :
    (run_setup n sci steps).2.countP q = 0 := by
  rw [List.countP_eq_zero]
  intro x hx
  simp [hq x ((run_setup_trace n sci steps).1 x hx)]

theorem client_main_loop (S : Subsampling) (ydef uvdef : List Nat) (P : Platform)
    (args : ClientArgs) (env : ClientEnv) (f : FILE)
    (hout : args.output_ok = true) (hin : args.input = some f)
    (hc : (run_setup Node.client env.sci client_setup_comms).1 = none)
    (hs : (run_setup Node.client env.sci client_setup_segments).1 = none) :
    client_main S ydef uvdef P args env
      = ((client_loop P args.width args.height args.limit_numframes env.frames
            (client_entry_state (init_c63_enc S ydef uvdef args.width args.height) f
              (client_packet args) env)).1,
          (run_setup Node.client env.sci client_setup_comms).2 ++ client_handshake args ++
          (run_setup Node.client env.sci client_setup_segments).2 ++
          (client_loop P args.width args.height args.limit_numframes env.frames
            (client_entry_state (init_c63_enc S ydef uvdef args.width args.height) f
              (client_packet args) env)).2) := by
  rcases h1 : run_setup Node.client env.sci client_setup_comms with ⟨o1, ev1⟩
  rcases h2 : run_setup Node.client env.sci client_setup_segments with ⟨o2, ev2⟩
  rw [h1] at hc
  rw [h2] at hs
  simp only at hc hs
  subst hc hs
  simp only [client_main, hout, hin, h1, h2, client_handshake, client_packet]
  simp

/-- Claim C5. Whenever the client's run ends normally (status EXIT_SUCCESS),
its trace ends with the write of CMD_QUIT into the server's packet followed
only by the library shutdown, and CMD_QUIT is written nowhere before: the
write happens exactly once, after every frame cycle, as the last mailbox
access, with no read of a packet after it. -/
theorem client_quit_once_last (S : Subsampling) (ydef uvdef : List Nat) (P : Platform)
    (args : ClientArgs) (env : ClientEnv)
    (h : (client_main S ydef uvdef P args env).1 = Outcome.exit EXIT_SUCCESS) :
    ∃ pre, (client_main S ydef uvdef P args env).2
        = pre ++ [Event.write_cmd Node.client Node.server cmd.CMD_QUIT,
                  Event.terminate Node.client] ∧
      pre.countP Event.is_quit_write = 0 ∧
      (client_main S ydef uvdef P args env).2.countP Event.is_quit_write = 1 ∧
      (∀ x ∈ pre, x.is_quit_write = false) := by
  have key : ∃ pre, (client_main S ydef uvdef P args env).2
        = pre ++ [Event.write_cmd Node.client Node.server cmd.CMD_QUIT,
                  Event.terminate Node.client] ∧
      pre.countP Event.is_quit_write = 0 := by
    cases hout : args.output_ok with
    | false => simp [client_main, hout, EXIT_FAILURE, EXIT_SUCCESS] at h
    | true =>
      cases hin : args.input with
      | none => simp [client_main, hout, hin, EXIT_FAILURE, EXIT_SUCCESS] at h
      | some f =>
        have t1 := run_setup_trace Node.client env.sci client_setup_comms
        have t2 := run_setup_trace Node.client env.sci client_setup_segments
        have hno : ∀ o, (o = Outcome.running ∨ ∃ st, o = Outcome.exit st ∧ st ≠ 0) →
            o ≠ Outcome.exit EXIT_SUCCESS := by
          rintro o (rfl | ⟨st, rfl, hst⟩)
          · simp
          · simpa [EXIT_SUCCESS] using hst
        cases hc : (run_setup Node.client env.sci client_setup_comms).1 with
        | some o =>
          rcases h1 : run_setup Node.client env.sci client_setup_comms with ⟨o1, ev1⟩
          rw [h1] at hc
          simp only at hc
          subst hc
          simp only [client_main, hout, hin, h1] at h
          have := t1.2 o (by rw [h1])
          exact absurd h (hno o this)
        | none =>
          cases hs : (run_setup Node.client env.sci client_setup_segments).1 with
          | some o =>
            rcases h1 : run_setup Node.client env.sci client_setup_comms with ⟨o1, ev1⟩
            rcases h2 : run_setup Node.client env.sci client_setup_segments with ⟨o2, ev2⟩
            rw [h1] at hc
            rw [h2] at hs
            simp only at hc hs
            subst hc hs
            simp only [client_main, hout, hin, h1, h2] at h
            have := t2.2 o (by rw [h2])
            exact absurd h (hno o this)
          | none =>
            have hm := client_main_loop S ydef uvdef P args env f hout hin hc hs
            rw [hm] at h ⊢
            obtain ⟨pre, hpre, hcount⟩ := client_loop_quit_last P _ _ _ _ _ h
            refine ⟨(run_setup Node.client env.sci client_setup_comms).2 ++ client_handshake args
              ++ (run_setup Node.client env.sci client_setup_segments).2 ++ pre, ?_, ?_⟩
            · simp only [hpre, List.append_assoc]
            · simp only [List.countP_append, hcount,
                setup_count_zero Event.is_quit_write (by intro x; cases x <;> simp [Event.is_setup, Event.is_quit_write])]
              simp [client_handshake, List.countP_cons, Event.is_quit_write]
  obtain ⟨pre, hpre, hcount⟩ := key
  refine ⟨pre, hpre, hcount, ?_, ?_⟩
  · rw [hpre, List.countP_append, hcount]
    simp [List.countP_cons, Event.is_quit_write]
  · intro x hx
    have := List.countP_eq_zero.mp hcount x hx
    simpa using this

theorem client_quit_once_last_witness :
    (client_main yuv420 [] [] lp64 (tiny_args [1, 2, 3, 4, 5, 6, 7, 8]) (tiny_env 1)).1
      = Outcome.exit EXIT_SUCCESS ∧
    ∃ pre, (client_main yuv420 [] [] lp64 (tiny_args [1, 2, 3, 4, 5, 6, 7, 8]) (tiny_env 1)).2
        = pre ++ [Event.write_cmd Node.client Node.server cmd.CMD_QUIT,
                  Event.terminate Node.client] ∧
      pre.countP Event.is_quit_write = 0 ∧
      (client_main yuv420 [] [] lp64 (tiny_args [1, 2, 3, 4, 5, 6, 7, 8])
        (tiny_env 1)).2.countP Event.is_quit_write = 1 ∧
      (∀ x ∈ pre, x.is_quit_write = false) :=
  ⟨by decide,
   client_quit_once_last yuv420 [] [] lp64 (tiny_args [1, 2, 3, 4, 5, 6, 7, 8]) (tiny_env 1)
     (by decide)⟩

/-- Claim C6. When the setup succeeds, the input holds `N` complete frames
followed by `p` bytes of a partial frame (width*height positive, divisible by
4, below 2^32), both transfer calls succeed and the server answers for every
frame, the client ends normally having started exactly one image transfer,
written exactly one CMD_DONE into the server's packet and written exactly one
frame for each of `N` frames when the limit is 0 and of `min L N` frames when
the limit `L` is positive; nothing is transferred for the partial frame. -/
theorem client_frame_count (S : Subsampling) (ydef uvdef : List Nat) (P : Platform)
    (args : ClientArgs) (env : ClientEnv) (f : FILE) (N p : Nat)
    (hout : args.output_ok = true) (hin : args.input = some f)
    (hc : (run_setup Node.client env.sci client_setup_comms).1 = none)
    (hs : (run_setup Node.client env.sci client_setup_segments).1 = none)
    (hf : f.fresh) (hpos : 0 < args.width * args.height)
    (h32 : args.width * args.height < 2 ^ 32) (h4 : 4 ∣ args.width * args.height)
    (hlen : f.data.length = N * (args.width * args.height * 3 / 2) + p)
    (hp : p < args.width * args.height * 3 / 2)
    (hans : ∀ e ∈ env.frames, e.answers) (hN : N ≤ env.frames.length)
    (hL : 0 ≤ args.limit_numframes) :
    (client_main S ydef uvdef P args env).1 = Outcome.exit EXIT_SUCCESS ∧
    (client_main S ydef uvdef P args env).2.countP Event.is_client_transfer
      = (if args.limit_numframes = 0 then N else min args.limit_numframes.toNat N) ∧
    (client_main S ydef uvdef P args env).2.countP Event.is_client_proceed
      = (if args.limit_numframes = 0 then N else min args.limit_numframes.toNat N) ∧
    (client_main S ydef uvdef P args env).2.countP Event.is_write_frame
      = (if args.limit_numframes = 0 then N else min args.limit_numframes.toNat N) := by
  have hmod : (args.width * args.height) % 2 ^ 32 = args.width * args.height :=
    Nat.mod_eq_of_lt h32
  have hfb : frame_bytes args.width args.height = args.width * args.height * 3 / 2 := by
    unfold frame_bytes
    rw [hmod]
    obtain ⟨k, hk⟩ := h4
    omega
  rw [client_main_loop S ydef uvdef P args env f hout hin hc hs]
  obtain ⟨o, k1, k2, k3⟩ :=
    client_loop_frames P args.width args.height args.limit_numframes
      (by rw [hmod]; exact hpos) (by rw [hmod]; exact h4) N env.frames
      (client_entry_state (init_c63_enc S ydef uvdef args.width args.height) f
        (client_packet args) env) p hf (by rw [hfb]; exact hlen) (by rw [hfb]; exact hp)
      (by simp [client_entry_state]) hans hN
      (by
        by_cases h0 : args.limit_numframes = 0
        · exact Or.inl h0
        · right
          show (0 : Int) < args.limit_numframes
          omega)
  have hK : (if args.limit_numframes = 0 then N
        else min N (args.limit_numframes - (client_entry_state
          (init_c63_enc S ydef uvdef args.width args.height) f
          (client_packet args) env).numframes).toNat)
      = (if args.limit_numframes = 0 then N else min args.limit_numframes.toNat N) := by
    split_ifs
    · rfl
    · simp [client_entry_state, Nat.min_comm]
  rw [hK] at k1 k2 k3
  refine ⟨o, ?_, ?_, ?_⟩
  · simp only [List.countP_append, k1,
      setup_count_zero Event.is_client_transfer
        (by intro x; cases x <;> simp [Event.is_setup, Event.is_client_transfer])]
    simp [client_handshake, List.countP_cons, Event.is_client_transfer]
  · simp only [List.countP_append, k2,
      setup_count_zero Event.is_client_proceed
        (by intro x; cases x <;> simp [Event.is_setup, Event.is_client_proceed])]
    simp [client_handshake, List.countP_cons, Event.is_client_proceed]
  · simp only [List.countP_append, k3,
      setup_count_zero Event.is_write_frame
        (by intro x; cases x <;> simp [Event.is_setup, Event.is_write_frame])]
    simp [client_handshake, List.countP_cons, Event.is_write_frame]

theorem client_frame_count_witness :
    (client_main yuv420 [] [] lp64 (tiny_args [1, 2, 3, 4, 5, 6, 7, 8]) (tiny_env 1)).1
      = Outcome.exit EXIT_SUCCESS ∧
    (client_main yuv420 [] [] lp64 (tiny_args [1, 2, 3, 4, 5, 6, 7, 8])
      (tiny_env 1)).2.countP Event.is_client_transfer = 1 ∧
    (client_main yuv420 [] [] lp64 (tiny_args [1, 2, 3, 4, 5, 6, 7, 8])
      (tiny_env 1)).2.countP Event.is_client_proceed = 1 ∧
    (client_main yuv420 [] [] lp64 (tiny_args [1, 2, 3, 4, 5, 6, 7, 8])
      (tiny_env 1)).2.countP Event.is_write_frame = 1 :=
  client_frame_count yuv420 [] [] lp64 (tiny_args [1, 2, 3, 4, 5, 6, 7, 8]) (tiny_env 1)
    (file_of [1, 2, 3, 4, 5, 6, 7, 8]) 1 2 rfl rfl (by decide) (by decide) (by decide)
    (by decide) (by decide) (by decide) (by decide) (by decide) (by decide) (by decide)
    (by decide)

/-! ### Segment layout -/

/-- Claim C7, what the code computes. The fields of `struct image_segment` are
arrays of pointers, so its size is the pointer size times the number of
pixels of the three padded buffers, with `U` and `V` at the pointer size times
the pixel counts before them; for 16x16 frames and 8-byte pointers the size
passed to the transfer is 3072 bytes with `U` at 2048 and `V` at 2560, where
the three buffers hold 256 + 64 + 64 = 384 bytes. -/
theorem image_segment_size_in_pointers :
    (∀ (P : Platform) (cm : c63_common),
      sizeof_image_segment P cm
        = P.ptr_size * (cm.padw.Y * cm.padh.Y + cm.padw.U * cm.padh.U + cm.padw.V * cm.padh.V) ∧
      image_segment_offset_U P cm = P.ptr_size * (cm.padw.Y * cm.padh.Y) ∧
      image_segment_offset_V P cm
        = P.ptr_size * (cm.padw.Y * cm.padh.Y + cm.padw.U * cm.padh.U)) ∧
    sizeof_image_segment lp64 (init_c63_enc yuv420 [] [] 16 16) = 3072 ∧
    image_segment_offset_U lp64 (init_c63_enc yuv420 [] [] 16 16) = 2048 ∧
    image_segment_offset_V lp64 (init_c63_enc yuv420 [] [] 16 16) = 2560 ∧
    (init_c63_enc yuv420 [] [] 16 16).ypw * (init_c63_enc yuv420 [] [] 16 16).yph
      + (init_c63_enc yuv420 [] [] 16 16).upw * (init_c63_enc yuv420 [] [] 16 16).uph
      + (init_c63_enc yuv420 [] [] 16 16).vpw * (init_c63_enc yuv420 [] [] 16 16).vph = 384 := by
  refine ⟨?_, by decide, by decide, by decide, by decide⟩
  intro P cm
  refine ⟨?_, rfl, ?_⟩
  · simp only [sizeof_image_segment, image_segment_offset_V, image_segment_offset_U]
    ring
  · simp only [image_segment_offset_V, image_segment_offset_U]
    ring

/-! ### Mailbox accesses -/

theorem client_iteration_all (P : Platform) (width height : Nat) (L : Int)
    (s : ClientState) (e : Option ClientFrameEnv) :
    (client_iteration P width height L s e).events.all Event.client_discipline = true := by
  have hev := read_yuv_events width height s.cm s.infile
  rcases hr : read_yuv width height s.cm s.infile with ⟨r, f, evr⟩
  rw [hr] at hev
  have hq : evr.all Event.client_discipline = true := by
    rw [List.all_eq_true]
    intro x hx
    obtain ⟨m, rfl⟩ := hev x hx
    rfl
  simp only [client_iteration, hr]
  cases r with
  | exit_failure => simp [Step.events, Event.client_discipline, hq]
  | null => simp [Step.events, Event.client_discipline, hq]
  | image img =>
    cases e with
    | none => simp [Step.events, Event.client_discipline, hq]
    | some e =>
      cases hresp : e.response <;> cases hcur : s.cm.curframe <;> simp only [] <;>
        split_ifs <;>
        simp [Step.events, Event.client_discipline, hresp, hcur, hq]

theorem client_iteration_discipline (P : Platform) (width height : Nat) (L : Int)
    (s : ClientState) (e : Option ClientFrameEnv) :
    ∀ x ∈ (client_iteration P width height L s e).events, x.client_discipline = true :=
  List.all_eq_true.mp (client_iteration_all P width height L s e)

theorem client_loop_discipline (P : Platform) (width height : Nat) (L : Int) :
    ∀ (envs : List ClientFrameEnv) (s : ClientState),
      ∀ x ∈ (client_loop P width height L envs s).2, x.client_discipline = true := by
  intro envs
  induction envs with
  | nil =>
    intro s x hx
    have hd := client_iteration_discipline P width height L s none
    cases hit : client_iteration P width height L s none with
    | next s1 ev =>
      rw [hit] at hd; simp only [client_loop, hit] at hx; exact hd x hx
    | brk s1 ev =>
      rw [hit] at hd
      simp only [client_loop, hit, client_finish, List.mem_append, List.mem_cons,
        List.mem_singleton, List.mem_nil_iff, or_false] at hx
      rcases hx with hx | rfl | rfl
      · exact hd x hx
      · rfl
      · rfl
    | halt o ev =>
      rw [hit] at hd; simp only [client_loop, hit] at hx; exact hd x hx
  | cons e es ih =>
    intro s x hx
    have hd := client_iteration_discipline P width height L s (some e)
    cases hit : client_iteration P width height L s (some e) with
    | next s1 ev =>
      rw [hit] at hd
      simp only [client_loop, hit, List.mem_append] at hx
      rcases hx with hx | hx
      · exact hd x hx
      · exact ih s1 x hx
    | brk s1 ev =>
      rw [hit] at hd
      simp only [client_loop, hit, client_finish, List.mem_append, List.mem_cons,
        List.mem_singleton, List.mem_nil_iff, or_false] at hx
      rcases hx with hx | rfl | rfl
      · exact hd x hx
      · rfl
      · rfl
    | halt o ev =>
      rw [hit] at hd; simp only [client_loop, hit] at hx; exact hd x hx

theorem server_iteration_all (P : Platform) (K : Collaborators) (s : ServerState)
    (d1 d2 : sci_error_t) :
    (server_iteration P K s d1 d2).events.all
      (fun x => x.server_discipline && x.server_loop_reads_own) = true := by
  by_cases h1 : s.local_comms.cmd = cmd.CMD_INVALID
  · simp [server_iteration, h1, Step.events, Event.server_discipline,
      Event.server_loop_reads_own]
  by_cases h2 : s.local_comms.cmd = cmd.CMD_QUIT
  · simp [server_iteration, h2, Step.events, Event.server_discipline,
      Event.server_loop_reads_own]
  cases he : c63_encode_image K s.cm (server_unpack_image s) with
  | none =>
    simp [server_iteration, h1, h2, he, Step.events, Event.server_discipline,
      Event.server_loop_reads_own]
  | some cm1 =>
    cases hcur : cm1.curframe with
    | none =>
      simp [server_iteration, h1, h2, he, hcur, Step.events, Event.server_discipline,
        Event.server_loop_reads_own]
    | some cur =>
      by_cases hd1 : d1 = SCI_ERR_OK <;> by_cases hd2 : d2 = SCI_ERR_OK <;>
        simp [server_iteration, h1, h2, he, hcur, hd1, hd2, Step.events,
          Event.server_discipline, Event.server_loop_reads_own]

theorem server_iteration_discipline (P : Platform) (K : Collaborators) (s : ServerState)
    (d1 d2 : sci_error_t) :
    ∀ x ∈ (server_iteration P K s d1 d2).events,
      x.server_discipline = true ∧ x.server_loop_reads_own = true := by
  intro x hx
  have := List.all_eq_true.mp (server_iteration_all P K s d1 d2) x hx
  simpa using this

theorem server_loop_discipline (P : Platform) (K : Collaborators) :
    ∀ (envs : List ServerFrameEnv) (s : ServerState),
      ∀ x ∈ (server_loop P K envs s).2,
        x.server_discipline = true ∧ x.server_loop_reads_own = true := by
  intro envs
  induction envs with
  | nil => intro s x hx; simp [server_loop] at hx
  | cons e es ih =>
    intro s x hx
    have hd := server_iteration_discipline P K (server_observe e s) e.dma_start e.dma_wait
    cases hit : server_iteration P K (server_observe e s) e.dma_start e.dma_wait with
    | next s1 ev =>
      rw [hit] at hd
      simp only [server_loop, hit, List.mem_append] at hx
      rcases hx with hx | hx
      · exact hd x hx
      · exact ih s1 x hx
    | brk s1 ev =>
      rw [hit] at hd
      simp only [server_loop, hit, List.mem_append, List.mem_singleton] at hx
      rcases hx with hx | rfl
      · exact hd x hx
      · exact ⟨rfl, rfl⟩
    | halt o ev =>
      rw [hit] at hd; simp only [server_loop, hit] at hx; exact hd x hx

theorem client_main_discipline (S : Subsampling) (ydef uvdef : List Nat) (P : Platform)
    (args : ClientArgs) (env : ClientEnv) :
    ∀ x ∈ (client_main S ydef uvdef P args env).2, x.client_discipline = true := by
  have hs : ∀ y : Event, y.is_setup = true → y.client_discipline = true := by
    intro y; cases y <;> simp [Event.is_setup, Event.client_discipline]
  have t1 := (run_setup_trace Node.client env.sci client_setup_comms).1
  have t2 := (run_setup_trace Node.client env.sci client_setup_segments).1
  intro x hx
  cases hout : args.output_ok with
  | false =>
    simp [client_main, hout] at hx
    subst hx; rfl
  | true =>
    cases hin : args.input with
    | none =>
      simp [client_main, hout, hin] at hx
      subst hx; rfl
    | some f =>
      rcases h1 : run_setup Node.client env.sci client_setup_comms with ⟨o1, ev1⟩
      rw [h1] at t1
      cases o1 with
      | some o =>
        simp only [client_main, hout, hin, h1] at hx
        exact hs x (t1 x hx)
      | none =>
        rcases h2 : run_setup Node.client env.sci client_setup_segments with ⟨o2, ev2⟩
        rw [h2] at t2
        cases o2 with
        | some o =>
          simp only [client_main, hout, hin, h1, h2, Bool.not_true, Bool.false_eq_true,
            if_false, List.mem_append, List.mem_cons, List.mem_singleton, List.mem_nil_iff,
            or_false] at hx
          rcases hx with (hx | rfl | rfl | rfl) | hx
          · exact hs x (t1 x hx)
          · rfl
          · rfl
          · rfl
          · exact hs x (t2 x hx)
        | none =>
          simp only [client_main, hout, hin, h1, h2, Bool.not_true, Bool.false_eq_true,
            if_false, List.mem_append, List.mem_cons, List.mem_singleton, List.mem_nil_iff,
            or_false] at hx
          rcases hx with ((hx | rfl | rfl | rfl) | hx) | hx
          · exact hs x (t1 x hx)
          · rfl
          · rfl
          · rfl
          · exact hs x (t2 x hx)
          · exact client_loop_discipline P _ _ _ _ _ x hx

theorem server_main_discipline (S : Subsampling) (ydef uvdef : List Nat) (P : Platform)
    (K : Collaborators) (env : ServerEnv) :
    ∀ x ∈ (server_main S ydef uvdef P K env).2, x.server_discipline = true := by
  have hs : ∀ y : Event, y.is_setup = true → y.server_discipline = true := by
    intro y; cases y <;> simp [Event.is_setup, Event.server_discipline]
  have t1 := (run_setup_trace Node.server env.sci server_setup_comms).1
  have t2 := (run_setup_trace Node.server env.sci server_setup_segments).1
  intro x hx
  rcases h1 : run_setup Node.server env.sci server_setup_comms with ⟨o1, ev1⟩
  rw [h1] at t1
  cases o1 with
  | some o =>
    simp only [server_main, h1] at hx
    exact hs x (t1 x hx)
  | none =>
    cases hh : env.handshake with
    | none =>
      simp only [server_main, h1, hh, List.mem_append, List.mem_singleton] at hx
      rcases hx with hx | rfl
      · exact hs x (t1 x hx)
      · rfl
    | some pk =>
      by_cases hc : pk.cmd = cmd.CMD_INVALID
      · simp only [server_main, h1, hh, hc, if_true, List.mem_append, List.mem_singleton] at hx
        rcases hx with hx | rfl
        · exact hs x (t1 x hx)
        · rfl
      · rcases h2 : run_setup Node.server env.sci server_setup_segments with ⟨o2, ev2⟩
        rw [h2] at t2
        cases o2 with
        | some o =>
          simp only [server_main, h1, hh, hc, h2, if_false, List.mem_append, List.mem_cons,
            List.mem_singleton, List.mem_nil_iff, or_false] at hx
          rcases hx with (hx | rfl | rfl | rfl) | hx
          · exact hs x (t1 x hx)
          · rfl
          · rfl
          · rfl
          · exact hs x (t2 x hx)
        | none =>
          simp only [server_main, h1, hh, hc, h2, if_false, List.mem_append, List.mem_cons,
            List.mem_singleton, List.mem_nil_iff, or_false] at hx
          rcases hx with ((hx | rfl | rfl | rfl) | hx) | hx
          · exact hs x (t1 x hx)
          · rfl
          · rfl
          · rfl
          · exact hs x (t2 x hx)
          · exact (server_loop_discipline P K _ _ x hx).1

/-- Claim C8 as the code has it. In every run of the client each mailbox write
is the client's and goes either to its own packet (width, height, CMD_DONE of
the handshake, CMD_INVALID of the reset) or to the server's packet (CMD_DONE,
CMD_QUIT), and each mailbox read is of the command word of its own packet. In
every run of the server each mailbox write is the server's and is either
CMD_INVALID into its own packet or CMD_DONE into the client's packet, it
never writes a width or height, and in the frame loop it reads only its own
packet. -/
theorem mailbox_access_discipline :
    (∀ (S : Subsampling) (ydef uvdef : List Nat) (P : Platform) (args : ClientArgs)
        (env : ClientEnv),
      ∀ x ∈ (client_main S ydef uvdef P args env).2, x.client_discipline = true) ∧
    (∀ (S : Subsampling) (ydef uvdef : List Nat) (P : Platform) (K : Collaborators)
        (env : ServerEnv),
      ∀ x ∈ (server_main S ydef uvdef P K env).2, x.server_discipline = true) ∧
    (∀ (P : Platform) (K : Collaborators) (envs : List ServerFrameEnv) (s : ServerState),
      ∀ x ∈ (server_loop P K envs s).2, x.server_loop_reads_own = true) :=
  ⟨client_main_discipline, server_main_discipline,
   fun P K envs s x hx => (server_loop_discipline P K envs s x hx).2⟩

/-- Claim C8 as stated fails: in a one-frame run the client writes into the
server's packet and reads its own, and the server writes into the client's
packet and reads its own. -/
theorem mailbox_owner_only_counterexample :
    ¬ (∀ x ∈ (client_main yuv420 [] [] lp64 (tiny_args [1, 2, 3, 4, 5, 6]) (tiny_env 1)).2,
        x.owner_writes_other_reads = true) ∧
    ¬ (∀ x ∈ (server_loop lp64 toy_collaborators three_frames tiny_server_state).2,
        x.owner_writes_other_reads = true) ∧
    Event.write_cmd Node.client Node.server cmd.CMD_DONE
      ∈ (client_main yuv420 [] [] lp64 (tiny_args [1, 2, 3, 4, 5, 6]) (tiny_env 1)).2 ∧
    Event.write_cmd Node.server Node.client cmd.CMD_DONE
      ∈ (server_loop lp64 toy_collaborators three_frames tiny_server_state).2 := by
  refine ⟨by decide, by decide, by decide, by decide⟩

theorem mailbox_access_discipline_witness :
    (Event.write_cmd Node.client Node.server cmd.CMD_QUIT).client_discipline = true ∧
    (Event.write_cmd Node.server Node.client cmd.CMD_DONE).server_loop_reads_own = true :=
  ⟨mailbox_access_discipline.1 yuv420 [] [] lp64 (tiny_args [1, 2, 3, 4, 5, 6]) (tiny_env 1)
      _ (by decide),
   mailbox_access_discipline.2.2 lp64 toy_collaborators three_frames tiny_server_state
      _ (by decide)⟩

/-! ### Setup errors -/

theorem run_setup_append (n : Node) (sci : Nat → List sci_error_t) (post : List SetupStep) :
    ∀ pre : List SetupStep, (run_setup n sci pre).1 = none →
      run_setup n sci (pre ++ post)
        = ((run_setup n sci post).1, (run_setup n sci pre).2 ++ (run_setup n sci post).2) := by
  intro pre
  induction pre with
  | nil => intro _; simp [run_setup]
  | cons st rest ih =>
    intro h
    rw [List.cons_append]
    simp only [run_setup] at h ⊢
    cases hst : st.on_error <;> simp only [hst] at h ⊢ <;> (try split_ifs at h ⊢ with hc) <;>
      first
        | (simp at h; done)
        | (rw [ih h]; simp)

theorem run_setup_checked_error (n : Node) (sci : Nat → List sci_error_t) (st : SetupStep)
    (post : List SetupStep) (hst : st.checked)
    (herr : (sci st.line).headD SCI_ERR_OK ≠ SCI_ERR_OK) :
    run_setup n sci (st :: post)
      = (some (Outcome.exit (st.exit_status ((sci st.line).headD SCI_ERR_OK))),
          [Event.sci_call n st.line st.prim ((sci st.line).headD SCI_ERR_OK),
           Event.report n (Msg.sci_failed st.prim ((sci st.line).headD SCI_ERR_OK))]) := by
  rcases hst with h | h <;> simp only [run_setup, h, SetupStep.exit_status] <;> rw [if_pos herr]

theorem exit_status_ne_zero (st : SetupStep) (err : sci_error_t) (herr : err ≠ SCI_ERR_OK) :
    st.exit_status err ≠ 0 := by
  unfold SetupStep.exit_status
  cases st.on_error <;> simp only [EXIT_FAILURE] <;> first | exact herr | decide

theorem setup_prefix_fails (n : Node) (sci : Nat → List sci_error_t)
    (pre post : List SetupStep) (st : SetupStep) (hst : st.checked)
    (hpre : (run_setup n sci pre).1 = none)
    (herr : (sci st.line).headD SCI_ERR_OK ≠ SCI_ERR_OK) :
    run_setup n sci (pre ++ st :: post)
      = (some (Outcome.exit (st.exit_status ((sci st.line).headD SCI_ERR_OK))),
          (run_setup n sci pre).2 ++
          [Event.sci_call n st.line st.prim ((sci st.line).headD SCI_ERR_OK),
           Event.report n (Msg.sci_failed st.prim ((sci st.line).headD SCI_ERR_OK))]) := by
  rw [run_setup_append n sci (st :: post) pre hpre, run_setup_checked_error n sci st post hst herr]

theorem setup_failure_trace (n : Node) (sci : Nat → List sci_error_t)
    (pre : List SetupStep) (st : SetupStep) (before : List Event)
    (hb : before.countP Event.is_frame_loop = 0) :
    (before ++ ((run_setup n sci pre).2 ++
        [Event.sci_call n st.line st.prim ((sci st.line).headD SCI_ERR_OK),
         Event.report n (Msg.sci_failed st.prim ((sci st.line).headD SCI_ERR_OK))])).getLast?
      = some (Event.report n (Msg.sci_failed st.prim ((sci st.line).headD SCI_ERR_OK))) ∧
    (before ++ ((run_setup n sci pre).2 ++
        [Event.sci_call n st.line st.prim ((sci st.line).headD SCI_ERR_OK),
         Event.report n (Msg.sci_failed st.prim ((sci st.line).headD SCI_ERR_OK))])).countP
        Event.is_frame_loop = 0 := by
  constructor
  · rw [← List.append_assoc, List.getLast?_append]
    simp
  · rw [List.countP_append, List.countP_append, hb,
      setup_count_zero Event.is_frame_loop
        (by intro x; cases x <;> simp [Event.is_setup, Event.is_frame_loop])]
    simp [List.countP_cons, Event.is_frame_loop]

theorem client_setup_fatal (S : Subsampling) (ydef uvdef : List Nat) (P : Platform)
    (args : ClientArgs) (env : ClientEnv) (f : FILE) (pre post : List SetupStep)
    (st : SetupStep) (hout : args.output_ok = true) (hin : args.input = some f)
    (hlist : client_setup_comms = pre ++ st :: post ∨
      (client_setup_segments = pre ++ st :: post ∧
        (run_setup Node.client env.sci client_setup_comms).1 = none))
    (hst : st.checked) (hpre : (run_setup Node.client env.sci pre).1 = none)
    (herr : (env.sci st.line).headD SCI_ERR_OK ≠ SCI_ERR_OK) :
    fatal_setup_exit (client_main S ydef uvdef P args env) Node.client st
      ((env.sci st.line).headD SCI_ERR_OK) := by
  have hfail := setup_prefix_fails Node.client env.sci pre post st hst hpre herr
  have hne := exit_status_ne_zero st _ herr
  rcases hlist with hl | ⟨hl, hc⟩
  · rw [← hl] at hfail
    have ht := setup_failure_trace Node.client env.sci pre st [] rfl
    simp only [List.nil_append] at ht
    refine ⟨?_, hne, ?_, ?_⟩
    · simp only [client_main, hout, hin, hfail]
      try rfl
    · simp only [client_main, hout, hin, hfail]
      exact ht.1
    · simp only [client_main, hout, hin, hfail]
      exact ht.2
  · rw [← hl] at hfail
    rcases h1 : run_setup Node.client env.sci client_setup_comms with ⟨o1, ev1⟩
    rw [h1] at hc
    simp only at hc
    subst hc
    have hb : (ev1 ++ client_handshake args).countP Event.is_frame_loop = 0 := by
      have := setup_count_zero Event.is_frame_loop
        (by intro x; cases x <;> simp [Event.is_setup, Event.is_frame_loop])
        Node.client env.sci client_setup_comms
      rw [h1] at this
      rw [List.countP_append, this]
      simp [client_handshake, List.countP_cons, Event.is_frame_loop]
    have ht := setup_failure_trace Node.client env.sci pre st _ hb
    refine ⟨?_, hne, ?_, ?_⟩
    · simp only [client_main, hout, hin, h1, hfail]
      try rfl
    · simp only [client_main, hout, hin, h1, hfail]
      exact ht.1
    · simp only [client_main, hout, hin, h1, hfail]
      exact ht.2

theorem server_setup_fatal (S : Subsampling) (ydef uvdef : List Nat) (P : Platform)
    (K : Collaborators) (env : ServerEnv) (pre post : List SetupStep) (st : SetupStep)
    (hlist : server_setup_comms = pre ++ st :: post ∨
      (server_setup_segments = pre ++ st :: post ∧
        (run_setup Node.server env.sci server_setup_comms).1 = none ∧
        ∃ pk, env.handshake = some pk ∧ pk.cmd ≠ cmd.CMD_INVALID))
    (hst : st.checked) (hpre : (run_setup Node.server env.sci pre).1 = none)
    (herr : (env.sci st.line).headD SCI_ERR_OK ≠ SCI_ERR_OK) :
    fatal_setup_exit (server_main S ydef uvdef P K env) Node.server st
      ((env.sci st.line).headD SCI_ERR_OK) := by
  have hfail := setup_prefix_fails Node.server env.sci pre post st hst hpre herr
  have hne := exit_status_ne_zero st _ herr
  rcases hlist with hl | ⟨hl, hc, pk, hpk, hcmd⟩
  · rw [← hl] at hfail
    have ht := setup_failure_trace Node.server env.sci pre st [] rfl
    simp only [List.nil_append] at ht
    refine ⟨?_, hne, ?_, ?_⟩
    · simp only [server_main, hfail]
      try rfl
    · simp only [server_main, hfail]
      exact ht.1
    · simp only [server_main, hfail]
      exact ht.2
  · rw [← hl] at hfail
    rcases h1 : run_setup Node.server env.sci server_setup_comms with ⟨o1, ev1⟩
    rw [h1] at hc
    simp only at hc
    subst hc
    have hb : (ev1 ++ [Event.read_cmd Node.server Node.client,
        Event.read_width Node.server Node.client,
        Event.read_height Node.server Node.client]).countP Event.is_frame_loop = 0 := by
      have := setup_count_zero Event.is_frame_loop
        (by intro x; cases x <;> simp [Event.is_setup, Event.is_frame_loop])
        Node.server env.sci server_setup_comms
      rw [h1] at this
      rw [List.countP_append, this]
      simp [List.countP_cons, Event.is_frame_loop]
    have ht := setup_failure_trace Node.server env.sci pre st _ hb
    refine ⟨?_, hne, ?_, ?_⟩
    · simp only [server_main, h1, hpk, hcmd, if_false, hfail]
      try rfl
    · simp only [server_main, h1, hpk, hcmd, if_false, hfail]
      exact ht.1
    · simp only [server_main, h1, hpk, hcmd, if_false, hfail]
      exact ht.2

theorem run_setup_retry (n : Node) (sci : Nat → List sci_error_t) (st : SetupStep)
    (post : List SetupStep) (hst : st.on_error = OnError.retry) :
    (run_setup n sci (st :: post)).1 = some Outcome.running ∨
    (run_setup n sci (st :: post)).1 = (run_setup n sci post).1 := by
  simp only [run_setup, hst]
  split_ifs
  · exact Or.inr rfl
  · exact Or.inl rfl

theorem fread_bad_flags (n : Nat) (f : FILE) :
    (fread n f).2.bad = f.bad ∧
    (f.error = true → (fread n f).2.error = true) ∧
    (f.bad = true → f.data.length < n → (fread n f).2.error = true) ∧
    (fread n f).2.data.length = f.data.length - n := by
  simp only [fread]
  split_ifs <;> simp_all

theorem read_yuv_eof_stream (width height : Nat) (cm : c63_common) (f : FILE)
    (hb : f.bad = false) (herr : f.error = false)
    (hlen : 2 * read_yuv_len width height f ≠ 3 * ((width * height) % 2 ^ 32)) :
    ∃ f1 evr, read_yuv width height cm f = (ReadResult.null, f1, evr) := by
  obtain ⟨b1, r1, -, -⟩ := fread_flags ((width * height) % 2 ^ 32) f hb
  obtain ⟨b2, r2, -, -⟩ :=
    fread_flags ((width * height) % 2 ^ 32 / 4) (fread ((width * height) % 2 ^ 32) f).2 b1
  obtain ⟨-, r3, -, -⟩ :=
    fread_flags ((width * height) % 2 ^ 32 / 4)
      (fread ((width * height) % 2 ^ 32 / 4) (fread ((width * height) % 2 ^ 32) f).2).2 b2
  have herr3 : (fread ((width * height) % 2 ^ 32 / 4)
      (fread ((width * height) % 2 ^ 32 / 4) (fread ((width * height) % 2 ^ 32) f).2).2).2.error
        = false := by
    rw [r3, r2, r1, herr]
  simp only [read_yuv_len] at hlen
  simp only [read_yuv, herr3, Bool.false_eq_true, if_false]
  split_ifs with he
  · exact ⟨_, _, rfl⟩
  · exact ⟨_, _, rfl⟩

theorem read_yuv_error_stream (width height : Nat) (cm : c63_common) (f : FILE)
    (hb : f.bad = true) (hshort : f.data.length < frame_bytes width height) :
    ∃ f1, read_yuv width height cm f
      = (ReadResult.exit_failure, f1, [Event.report Node.client Msg.ferror]) := by
  unfold frame_bytes at hshort
  generalize hwh : (width * height) % 2 ^ 32 = wh at hshort
  obtain ⟨b1, e1, s1, l1⟩ := fread_bad_flags wh f
  obtain ⟨b2, e2, s2, l2⟩ := fread_bad_flags (wh / 4) (fread wh f).2
  obtain ⟨b3, e3, s3, l3⟩ := fread_bad_flags (wh / 4) (fread (wh / 4) (fread wh f).2).2
  have herr3 : (fread (wh / 4) (fread (wh / 4) (fread wh f).2).2).2.error = true := by
    by_cases c1 : f.data.length < wh
    · exact e3 (e2 (s1 hb c1))
    · by_cases c2 : (fread wh f).2.data.length < wh / 4
      · exact e3 (s2 (by rw [b1, hb]) c2)
      · exact s3 (by rw [b2, b1, hb]) (by omega)
  refine ⟨(fread (wh / 4) (fread (wh / 4) (fread wh f).2).2).2, ?_⟩
  simp only [read_yuv, hwh, herr3, if_true]

/-- Every byte asked for is delivered and `width*height` is not a multiple of
4: the count is not a full frame, and `read_yuv` prints the byte-count
message and returns NULL. -/
theorem read_yuv_miscounted (width height : Nat) (cm : c63_common) (f : FILE) (hf : f.fresh)
    (h4 : ¬ 4 ∣ (width * height) % 2 ^ 32)
    (hlen : frame_bytes width height ≤ f.data.length) :
    2 * read_yuv_len width height f ≠ 3 * ((width * height) % 2 ^ 32) ∧
    read_yuv width height cm f
      = (ReadResult.null, { f with data := f.data.drop (frame_bytes width height) },
          [Event.report Node.client Msg.incorrect_bytes]) := by
  obtain ⟨hb, he, herr⟩ := hf
  unfold frame_bytes at hlen ⊢
  generalize hwh : (width * height) % 2 ^ 32 = wh at h4 hlen
  have e1 := fread_full wh f (by omega)
  have e2 : fread (wh / 4) (fread wh f).2
      = ((f.data.drop wh).take (wh / 4), { f with data := (f.data.drop wh).drop (wh / 4) }) := by
    rw [e1]; exact fread_full _ _ (by simp; omega)
  have e3 : fread (wh / 4) (fread (wh / 4) (fread wh f).2).2
      = (((f.data.drop wh).drop (wh / 4)).take (wh / 4),
          { f with data := ((f.data.drop wh).drop (wh / 4)).drop (wh / 4) }) := by
    rw [e2]; exact fread_full _ _ (by simp; omega)
  have hl : (f.data.take wh).length + ((f.data.drop wh).take (wh / 4)).length
      + (((f.data.drop wh).drop (wh / 4)).take (wh / 4)).length = wh + wh / 4 + wh / 4 := by
    simp only [List.length_take, List.length_drop]
    omega
  have hne : ¬ 2 * (wh + wh / 4 + wh / 4) = 3 * wh := by
    intro hc
    apply h4
    omega
  constructor
  · simp only [read_yuv_len, hwh]
    rw [e3, e2, e1]
    simp only [hl]
    exact hne
  · simp only [read_yuv, hwh]
    rw [e3, e2, e1]
    simp only [herr, he, hl, Bool.false_eq_true, if_false, ne_eq, hne, not_false_eq_true,
      if_true]
    simp [List.drop_drop, Nat.add_comm, Nat.add_left_comm]

theorem fread_empty (n : Nat) (f : FILE) (hd : f.data = []) :
    (fread n f).1 = [] ∧ (fread n f).2.data = [] := by
  simp only [fread, hd]
  split_ifs <;> simp

/-- Nothing is left in the stream and a frame has at least one byte:
`read_yuv` obtains zero bytes and returns NULL without a message. -/
theorem read_yuv_at_end (width height : Nat) (cm : c63_common) (f : FILE) (hf : f.fresh)
    (hd : f.data = []) (hpos : 0 < (width * height) % 2 ^ 32) :
    read_yuv_len width height f = 0 ∧
    ∃ f1, read_yuv width height cm f = (ReadResult.null, f1, []) := by
  obtain ⟨hb, he, herr⟩ := hf
  generalize hwh : (width * height) % 2 ^ 32 = wh at hpos
  have e1 : fread wh f = ([], { f with data := [], eof := true }) := by
    have := fread_short wh f (by rw [hd]; exact hpos) hb
    rw [this, hd]
  have b1 : ({ f with data := [], eof := true } : FILE).bad = false := hb
  obtain ⟨b2, r2, g2, l2⟩ := fread_flags (wh / 4) { f with data := [], eof := true } b1
  obtain ⟨b3, r3, g3, l3⟩ :=
    fread_flags (wh / 4) (fread (wh / 4) { f with data := [], eof := true }).2 b2
  have d2 : (fread (wh / 4) { f with data := [], eof := true }).1 = [] :=
    (fread_empty (wh / 4) _ rfl).1
  have d3 : (fread (wh / 4) (fread (wh / 4) { f with data := [], eof := true }).2).1 = [] :=
    (fread_empty (wh / 4) _ (fread_empty (wh / 4) _ rfl).2).1
  have herr3 : (fread (wh / 4) (fread (wh / 4) { f with data := [], eof := true }).2).2.error
      = false := by rw [r3, r2]; exact herr
  have heof3 : (fread (wh / 4) (fread (wh / 4) { f with data := [], eof := true }).2).2.eof
      = true := g3 (g2 rfl)
  constructor
  · simp only [read_yuv_len, hwh]
    rw [e1]
    simp only [d2, d3, List.length_nil]
  · refine ⟨(fread (wh / 4) (fread (wh / 4) { f with data := [], eof := true }).2).2, ?_⟩
    simp only [read_yuv, hwh]
    rw [e1]
    simp only [herr3, heof3, Bool.false_eq_true, if_false, if_true]

/-- Claim C10 as the code has it, for the treatment of a short read. When the
bytes obtained for a frame are not a full frame and the stream has not
reported an error, `read_yuv` returns NULL, as it does at the end of the
stream, and the client does not fail: it leaves its loop after the reset of
its packet and at most messages on the error stream, starts no transfer,
writes no frame, writes CMD_QUIT and ends with EXIT_SUCCESS. When every byte
asked for was delivered and `width*height` is not a multiple of 4, the count
is not a full frame and the one message is the byte-count message. A read of
zero bytes at the end of the stream gives the same run without a message.
Only when the read falls short because the stream reported an error does the
client print the error and end with EXIT_FAILURE. -/
theorem short_read_outcome (P : Platform) (width height : Nat) (L : Int)
    (envs : List ClientFrameEnv) (s : ClientState) :
    (s.infile.bad = false → s.infile.error = false →
      2 * read_yuv_len width height s.infile ≠ 3 * ((width * height) % 2 ^ 32) →
      ∃ f1 evr, read_yuv width height s.cm s.infile = (ReadResult.null, f1, evr) ∧
        (∀ x ∈ evr, x.is_report = true) ∧
        client_loop P width height L envs s
          = (Outcome.exit EXIT_SUCCESS,
              [Event.write_cmd Node.client Node.client cmd.CMD_INVALID] ++ evr ++
              [Event.write_cmd Node.client Node.server cmd.CMD_QUIT,
               Event.terminate Node.client])) ∧
    (s.infile.fresh → frame_bytes width height ≤ s.infile.data.length →
      ¬ 4 ∣ (width * height) % 2 ^ 32 →
      2 * read_yuv_len width height s.infile ≠ 3 * ((width * height) % 2 ^ 32) ∧
      client_loop P width height L envs s
        = (Outcome.exit EXIT_SUCCESS,
            [Event.write_cmd Node.client Node.client cmd.CMD_INVALID,
             Event.report Node.client Msg.incorrect_bytes,
             Event.write_cmd Node.client Node.server cmd.CMD_QUIT,
             Event.terminate Node.client])) ∧
    (s.infile.fresh → s.infile.data = [] → 0 < (width * height) % 2 ^ 32 →
      read_yuv_len width height s.infile = 0 ∧
      client_loop P width height L envs s
        = (Outcome.exit EXIT_SUCCESS,
            [Event.write_cmd Node.client Node.client cmd.CMD_INVALID,
             Event.write_cmd Node.client Node.server cmd.CMD_QUIT,
             Event.terminate Node.client])) ∧
    (s.infile.bad = true → s.infile.data.length < frame_bytes width height →
      client_loop P width height L envs s
        = (Outcome.exit EXIT_FAILURE,
            [Event.write_cmd Node.client Node.client cmd.CMD_INVALID,
             Event.report Node.client Msg.ferror])) := by
  refine ⟨?_, ?_, ?_, ?_⟩
  · intro hb herr hlen
    obtain ⟨f1, evr, hr⟩ := read_yuv_eof_stream width height s.cm s.infile hb herr hlen
    refine ⟨f1, evr, hr, ?_, client_loop_null P width height L envs s f1 evr hr⟩
    intro x hx
    have := read_yuv_events width height s.cm s.infile x (by rw [hr]; exact hx)
    obtain ⟨m, rfl⟩ := this
    rfl
  · intro hf hlen h4
    obtain ⟨hne, hr⟩ := read_yuv_miscounted width height s.cm s.infile hf h4 hlen
    exact ⟨hne, client_loop_null P width height L envs s _ _ hr⟩
  · intro hf hd hpos
    obtain ⟨h0, f1, hr⟩ := read_yuv_at_end width height s.cm s.infile hf hd hpos
    exact ⟨h0, client_loop_null P width height L envs s _ _ hr⟩
  · intro hb hshort
    obtain ⟨f1, hr⟩ := read_yuv_error_stream width height s.cm s.infile hb hshort
    cases envs <;> simp [client_loop, client_iteration, hr]

theorem short_read_outcome_witness :
    (∃ f1 evr, read_yuv 2 2 (tiny_client_state [1, 2, 3]).cm (tiny_client_state [1, 2, 3]).infile
        = (ReadResult.null, f1, evr) ∧
      (∀ x ∈ evr, x.is_report = true) ∧
      client_loop lp64 2 2 0 [answer] (tiny_client_state [1, 2, 3])
        = (Outcome.exit EXIT_SUCCESS,
            [Event.write_cmd Node.client Node.client cmd.CMD_INVALID] ++ evr ++
            [Event.write_cmd Node.client Node.server cmd.CMD_QUIT,
             Event.terminate Node.client])) ∧
    client_loop lp64 1 2 0 [answer] (tiny_client_state [1, 2, 3, 4])
      = (Outcome.exit EXIT_SUCCESS,
          [Event.write_cmd Node.client Node.client cmd.CMD_INVALID,
           Event.report Node.client Msg.incorrect_bytes,
           Event.write_cmd Node.client Node.server cmd.CMD_QUIT,
           Event.terminate Node.client]) ∧
    client_loop lp64 2 2 0 [answer] (tiny_client_state [])
      = (Outcome.exit EXIT_SUCCESS,
          [Event.write_cmd Node.client Node.client cmd.CMD_INVALID,
           Event.write_cmd Node.client Node.server cmd.CMD_QUIT,
           Event.terminate Node.client]) ∧
    client_loop lp64 2 2 0 [answer]
        { tiny_client_state [] with infile := bad_file_of [1, 2, 3] }
      = (Outcome.exit EXIT_FAILURE,
          [Event.write_cmd Node.client Node.client cmd.CMD_INVALID,
           Event.report Node.client Msg.ferror]) :=
  ⟨(short_read_outcome lp64 2 2 0 [answer] (tiny_client_state [1, 2, 3])).1
      (by decide) (by decide) (by decide),
   ((short_read_outcome lp64 1 2 0 [answer] (tiny_client_state [1, 2, 3, 4])).2.1
      (by decide) (by decide) (by decide)).2,
   ((short_read_outcome lp64 2 2 0 [answer] (tiny_client_state [])).2.2.1
      (by decide) (by decide) (by decide)).2,
   (short_read_outcome lp64 2 2 0 [answer]
      { tiny_client_state [] with infile := bad_file_of [1, 2, 3] }).2.2.2
      (by decide) (by decide)⟩

/-- Claim C10 as stated fails: with 2x2 frames (6 bytes each) a source of 3
bytes gives a read of 3 bytes, neither zero nor a full frame, yet the client
ends with EXIT_SUCCESS, as it does on an empty source; and with 1x2 frames a
source of 4 bytes gives a read of 2 bytes where a full frame is 3, the
byte-count message is printed, and the client still ends with EXIT_SUCCESS
after writing CMD_QUIT. -/
theorem truncated_read_is_clean_counterexample :
    read_yuv_len 2 2 (file_of [1, 2, 3]) = 3 ∧
    (client_main yuv420 [] [] lp64 (tiny_args [1, 2, 3]) (tiny_env 1)).1
      = Outcome.exit EXIT_SUCCESS ∧
    (client_main yuv420 [] [] lp64 (tiny_args []) (tiny_env 1)).1
      = (client_main yuv420 [] [] lp64 (tiny_args [1, 2, 3]) (tiny_env 1)).1 ∧
    read_yuv_len 1 2 (file_of [1, 2, 3, 4]) = 2 ∧
    client_loop lp64 1 2 0 [answer] (tiny_client_state [1, 2, 3, 4])
      = (Outcome.exit EXIT_SUCCESS,
          [Event.write_cmd Node.client Node.client cmd.CMD_INVALID,
           Event.report Node.client Msg.incorrect_bytes,
           Event.write_cmd Node.client Node.server cmd.CMD_QUIT,
           Event.terminate Node.client]) := by
  refine ⟨by decide, by decide, by decide, by decide, by decide⟩

/-! ### Block counts and buffer sizes -/

theorem to_uint32_mul_dvd (x : Int) (k : Nat) (hk : k ∣ 2 ^ 32) :
    k ∣ to_uint32 (x * k) := by
  unfold to_uint32
  have h1 : (k : Int) ∣ x * k % 2 ^ 32 := by
    have hk' : (k : Int) ∣ (2 : Int) ^ 32 := by exact_mod_cast Int.natCast_dvd_natCast.mpr hk
    have e := Int.emod_def (x * k) (2 ^ 32)
    rw [e]
    exact Dvd.dvd.sub (Dvd.intro_left x rfl) (Dvd.dvd.mul_right hk' _)
  have h0 : 0 ≤ x * k % 2 ^ 32 := Int.emod_nonneg _ (by norm_num)
  have : ((k : Int)) ∣ (((x * k % 2 ^ 32).toNat : Nat) : Int) := by
    rw [Int.toNat_of_nonneg h0]; exact h1
  exact Int.natCast_dvd_natCast.mp this

/-- Claim C16. For every width and height the chroma block count the drivers
write as `mb_rows/2 * mb_cols/2`, which C evaluates as
`((mb_rows/2) * mb_cols) / 2`, equals `(mb_rows/2) * (mb_cols/2)` and is
exactly a quarter of the luma block count `mb_rows * mb_cols`, with
`mb_cols = ypw/8` and `mb_rows = yph/8`; for 16x16 there are 4 luma blocks
and 1 chroma block. -/
theorem chroma_block_count (s : Subsampling) (ydef uvdef : List Nat) (width height : Int) :
    (init_c63_enc s ydef uvdef width height).mb_cols
      = (init_c63_enc s ydef uvdef width height).ypw / 8 ∧
    (init_c63_enc s ydef uvdef width height).mb_rows
      = (init_c63_enc s ydef uvdef width height).yph / 8 ∧
    (init_c63_enc s ydef uvdef width height).mb_rows / 2
        * (init_c63_enc s ydef uvdef width height).mb_cols / 2
      = ((init_c63_enc s ydef uvdef width height).mb_rows / 2)
        * ((init_c63_enc s ydef uvdef width height).mb_cols / 2) ∧
    4 * ((init_c63_enc s ydef uvdef width height).mb_rows / 2
        * (init_c63_enc s ydef uvdef width height).mb_cols / 2)
      = (init_c63_enc s ydef uvdef width height).mb_rows
        * (init_c63_enc s ydef uvdef width height).mb_cols ∧
    (init_c63_enc yuv420 [] [] 16 16).mb_rows * (init_c63_enc yuv420 [] [] 16 16).mb_cols = 4 ∧
    (init_c63_enc yuv420 [] [] 16 16).mb_rows / 2
        * (init_c63_enc yuv420 [] [] 16 16).mb_cols / 2 = 1 := by
  have hw : 16 ∣ (init_c63_enc s ydef uvdef width height).ypw :=
    to_uint32_mul_dvd (c_ceil_div (int_to_float width) 16) 16 (by norm_num)
  have hh : 16 ∣ (init_c63_enc s ydef uvdef width height).yph :=
    to_uint32_mul_dvd (c_ceil_div (int_to_float height) 16) 16 (by norm_num)
  have hc : (init_c63_enc s ydef uvdef width height).mb_cols
      = (init_c63_enc s ydef uvdef width height).ypw / 8 := rfl
  have hr : (init_c63_enc s ydef uvdef width height).mb_rows
      = (init_c63_enc s ydef uvdef width height).yph / 8 := rfl
  obtain ⟨a, ha⟩ := hw
  obtain ⟨b, hb⟩ := hh
  have hc2 : (init_c63_enc s ydef uvdef width height).mb_cols = 2 * a := by
    rw [hc, ha]; omega
  have hr2 : (init_c63_enc s ydef uvdef width height).mb_rows = 2 * b := by
    rw [hr, hb]; omega
  refine ⟨hc, hr, ?_, ?_, by decide, by decide⟩
  · rw [hc2, hr2]
    have e1 : 2 * b / 2 = b := by omega
    have e2 : 2 * a / 2 = a := by omega
    rw [e1, e2, show b * (2 * a) = 2 * (b * a) by ring]
    omega
  · rw [hc2, hr2]
    have e1 : 2 * b / 2 = b := by omega
    rw [e1, show b * (2 * a) = 2 * (b * a) by ring]
    have e3 : 2 * (b * a) / 2 = b * a := by omega
    rw [e3]; ring

theorem memcpy_all (buf got : List Nat) :
    memcpy buf got got.length = got ++ buf.drop got.length := by
  simp [memcpy]

theorem le_c_ceil_div_mul (a b : Int) (hb : 0 < b) : a ≤ c_ceil_div a b * b := by
  unfold c_ceil_div
  have h1 := Int.emod_add_ediv (-a) b
  have h2 := Int.emod_nonneg (-a) (ne_of_gt hb)
  nlinarith

theorem to_uint32_of_lt (x : Int) (h0 : 0 ≤ x) (h : x < 2 ^ 32) : (to_uint32 x : Int) = x := by
  unfold to_uint32
  rw [Int.emod_eq_of_lt h0 h]
  exact Int.toNat_of_nonneg h0

/-- With the 4:2:0 factors and dimensions in the exact float range, the luma
buffer is at least as wide and high as the frame and each chroma buffer at
least half as wide and high. -/
theorem padded_covers (ydef uvdef : List Nat) (w h : Nat) (hw : 0 < w) (hh : 0 < h)
    (hw24 : w < 2 ^ 24) (hh24 : h < 2 ^ 24) :
    w ≤ (init_c63_enc yuv420 ydef uvdef w h).padw.Y ∧
    h ≤ (init_c63_enc yuv420 ydef uvdef w h).padh.Y ∧
    w ≤ 2 * (init_c63_enc yuv420 ydef uvdef w h).padw.U ∧
    h ≤ 2 * (init_c63_enc yuv420 ydef uvdef w h).padh.U ∧
    (init_c63_enc yuv420 ydef uvdef w h).padw.V = (init_c63_enc yuv420 ydef uvdef w h).padw.U ∧
    (init_c63_enc yuv420 ydef uvdef w h).padh.V = (init_c63_enc yuv420 ydef uvdef w h).padh.U := by
  have key : ∀ a : Nat, 0 < a → a < 2 ^ 24 →
      a ≤ to_uint32 (c_ceil_div (int_to_float (a : Int)) 16 * 16) ∧
      a ≤ 2 * to_uint32 (c_ceil_div (int_to_float ((a : Int) * yuv420.UX)) (yuv420.YX * 8) * 8) := by
    intro a ha ha24
    have ha' : (0 : Int) < a := by exact_mod_cast ha
    have ha24' : (a : Int) < 2 ^ 24 := by exact_mod_cast ha24
    have e := int_to_float_exact (a : Int) (le_of_lt ha') ha24'
    have e1 : int_to_float ((a : Int) * yuv420.UX) = (a : Int) := by
      rw [show (a : Int) * yuv420.UX = a from mul_one _, e]
    have e28 : yuv420.YX * 8 = 16 := rfl
    rw [e, e1, e28]
    have c1 := le_c_ceil_div_mul (a : Int) 16 (by norm_num)
    have c2 := c_ceil_div_le_self (a : Int) 16 (le_of_lt ha') (by norm_num)
    have u1 := to_uint32_of_lt (c_ceil_div (a : Int) 16 * 16) (by omega) (by omega)
    have u2 := to_uint32_of_lt (c_ceil_div (a : Int) 16 * 8) (by omega) (by omega)
    constructor <;> omega
  obtain ⟨k1, k2⟩ := key w hw hw24
  obtain ⟨k3, k4⟩ := key h hh hh24
  exact ⟨k1, k3, k2, k4, rfl, rfl⟩

/-- Claim C12. A call of `c63_encode_image` that returns gives, for each
component, residuals = `dct_quantize` of the image and the predicted buffer
and reconstruction = `dequantize_idct` of those residuals and the same
predicted buffer, with the component's quantisation table, whether or not
the frame is a keyframe; on a keyframe the predicted buffers and the block
metadata are those `create_frame` produced (motion estimation and
compensation did not run), and on a non-keyframe the metadata are the output
of motion estimation and the predicted buffers the output of motion
compensation on the reference frame. -/
theorem encode_stage_sequence (K : Collaborators) (cm : c63_common) (image : yuv_t)
    (h : is_keyframe cm = true ∨ cm.curframe ≠ none) :
    ∃ cm1 cur, c63_encode_image K cm image = some cm1 ∧ cm1.curframe = some cur ∧
      cur.keyframe = is_keyframe cm ∧
      cur.residuals =
        { Y := K.dct_quantize image.Y cur.predicted.Y cm.padw.Y cm.padh.Y cm.quanttbl.Y
          U := K.dct_quantize image.U cur.predicted.U cm.padw.U cm.padh.U cm.quanttbl.U
          V := K.dct_quantize image.V cur.predicted.V cm.padw.V cm.padh.V cm.quanttbl.V } ∧
      cur.recons =
        { Y := K.dequantize_idct cur.residuals.Y cur.predicted.Y cm.ypw cm.yph cm.quanttbl.Y
          U := K.dequantize_idct cur.residuals.U cur.predicted.U cm.upw cm.uph cm.quanttbl.U
          V := K.dequantize_idct cur.residuals.V cur.predicted.V cm.vpw cm.vph cm.quanttbl.V } ∧
      (is_keyframe cm = true →
        cur.predicted = (K.create_frame { cm with refframe := cm.curframe } image).predicted ∧
        cur.mbs = (K.create_frame { cm with refframe := cm.curframe } image).mbs) ∧
      (is_keyframe cm = false → ∀ ref, cm.curframe = some ref →
        cur.mbs = K.c63_motion_estimate { cm with refframe := cm.curframe } image ref
          { K.create_frame { cm with refframe := cm.curframe } image with keyframe := false } ∧
        cur.predicted = K.c63_motion_compensate { cm with refframe := cm.curframe } ref
          { K.create_frame { cm with refframe := cm.curframe } image with
            keyframe := false
            mbs := K.c63_motion_estimate { cm with refframe := cm.curframe } image ref
              { K.create_frame { cm with refframe := cm.curframe } image with
                keyframe := false } }) := by
  by_cases hp : cm.framenum = 0 ∨ cm.frames_since_keyframe = cm.keyframe_interval
  · cases hres : c63_encode_image K cm image with
    | none => simp [c63_encode_image, is_keyframe, hp] at hres
    | some cm1 =>
      simp [c63_encode_image, is_keyframe, hp] at hres
      subst hres
      simp [is_keyframe, hp]
  · have hkey : is_keyframe cm = false := by simp [is_keyframe, hp]
    rw [hkey] at h
    rcases h with h | h
    · exact absurd h (by simp)
    · obtain ⟨ref, href⟩ := Option.ne_none_iff_exists'.mp h
      cases hres : c63_encode_image K cm image with
      | none => simp [c63_encode_image, is_keyframe, hp, href] at hres
      | some cm1 =>
        simp [c63_encode_image, is_keyframe, hp, href] at hres
        subst hres
        simp [is_keyframe, hp, href]

theorem encode_stage_sequence_witness :
    ∃ cm1 cur, c63_encode_image toy_collaborators tiny_context
        { Y := [9, 9, 9, 9], U := [5], V := [5] } = some cm1 ∧
      cm1.curframe = some cur ∧ cur.keyframe = true ∧
      cur.residuals = { Y := [4, 4, 4, 4], U := [2], V := [2] } ∧
      cur.recons = { Y := [8, 8, 8, 8], U := [4], V := [4] } := by
  obtain ⟨cm1, cur, he, hcur, hk, hres, hrec, hkey, -⟩ :=
    encode_stage_sequence toy_collaborators tiny_context
      { Y := [9, 9, 9, 9], U := [5], V := [5] } (by decide)
  have hp := (hkey (by decide)).1
  refine ⟨cm1, cur, he, hcur, by rw [hk]; decide, ?_, ?_⟩
  · rw [hres, hp]; decide
  · rw [hrec, hres, hp]; decide

/-! ### Motion estimation needs a reference frame -/

theorem c63_encode_image_none_iff (K : Collaborators) (cm : c63_common) (image : yuv_t) :
    c63_encode_image K cm image = none ↔ (is_keyframe cm = false ∧ cm.curframe = none) := by
  constructor
  · intro h
    by_contra hc
    have hpre : is_keyframe cm = true ∨ cm.curframe ≠ none := by
      by_cases hk : is_keyframe cm = true
      · exact Or.inl hk
      · right
        intro hn
        exact hc ⟨by simpa using hk, hn⟩
    obtain ⟨cm1, cur, he, -⟩ := c63_encode_image_spec K cm image hpre
    rw [h] at he
    cases he
  · rintro ⟨hk, hn⟩
    have hp : ¬ (cm.framenum = 0 ∨ cm.frames_since_keyframe = cm.keyframe_interval) := by
      simpa [is_keyframe] using hk
    simp [c63_encode_image, is_keyframe, hp, hn]

theorem server_loop_no_crash (P : Platform) (K : Collaborators) :
    ∀ (envs : List ServerFrameEnv) (s : ServerState),
      (s.cm.framenum = 0 ∨ s.cm.curframe ≠ none) →
      (server_loop P K envs s).1 ≠ Outcome.crash ∧
      (s.cm.framenum = 0 → (keyframe_flags (server_loop P K envs s).2).head? ≠ some false) := by
  intro envs
  induction envs with
  | nil => intro s _; simp [server_loop, keyframe_flags]
  | cons e es ih =>
    intro s hinv
    have hpre : is_keyframe (server_observe e s).cm = true
        ∨ (server_observe e s).cm.curframe ≠ none := by
      rcases hinv with h0 | hc
      · left; simp [is_keyframe, server_observe_cm, h0]
      · exact Or.inr hc
    obtain ⟨cm0, cur0, he0, hcur0, -, hk0, -⟩ :=
      c63_encode_image_spec K (server_observe e s).cm
        (server_unpack_image (server_observe e s)) hpre
    rcases server_iteration_cases P K (server_observe e s) e.dma_start e.dma_wait with
      ⟨-, hst⟩ | ⟨-, hst⟩ | ⟨-, hn, -⟩ | ⟨-, cm1, cur, ev, he, hcur, hfl, hst⟩
    · have := ih (server_observe e s) hinv
      simp only [server_loop, hst]
      refine ⟨this.1, fun h0 => ?_⟩
      simpa [keyframe_flags] using this.2 h0
    · simp [server_loop, hst, keyframe_flags]
    · rw [he0] at hn; cases hn
    · rw [he0] at he
      cases he
      rw [hcur0] at hcur
      cases hcur
      have hfirst : s.cm.framenum = 0 → cur0.keyframe = true := by
        intro h0
        rw [hk0]
        simp [is_keyframe, server_observe_cm, h0]
      rcases hst with ⟨-, hst⟩ | ⟨-, -, s1, hst, hs1⟩
      · simp only [server_loop, hst]
        refine ⟨by simp, fun h0 => ?_⟩
        rw [hfl, hfirst h0]
        simp
      · have hinv1 : s1.cm.framenum = 0 ∨ s1.cm.curframe ≠ none := by
          right; rw [hs1]; simp [bump_counters, hcur0]
        have := ih s1 hinv1
        simp only [server_loop, hst]
        refine ⟨this.1, fun h0 => ?_⟩
        rw [keyframe_flags_append, hfl, hfirst h0]
        simp

/-- Claim C19. From a freshly initialised context the server's loop never
reaches motion estimation with an absent reference frame, whatever the
environment does: no run of the loop, and no run of the server's `main`, ends
in a NULL dereference; the first frame encoded is a keyframe; a call of
`c63_encode_image` fails only for a non-keyframe without a current frame; and
after every call the reference frame is the frame that was current before. -/
theorem motion_estimation_has_reference :
    (∀ (P : Platform) (K : Collaborators) (envs : List ServerFrameEnv) (s : ServerState),
      s.cm.framenum = 0 → s.cm.frames_since_keyframe = 0 → s.cm.curframe = none →
      s.cm.refframe = none →
      (server_loop P K envs s).1 ≠ Outcome.crash ∧
      (keyframe_flags (server_loop P K envs s).2).head? ≠ some false) ∧
    (∀ (S : Subsampling) (ydef uvdef : List Nat) (P : Platform) (K : Collaborators)
        (env : ServerEnv), (server_main S ydef uvdef P K env).1 ≠ Outcome.crash) ∧
    (∀ (K : Collaborators) (cm : c63_common) (image : yuv_t),
      c63_encode_image K cm image = none ↔ (is_keyframe cm = false ∧ cm.curframe = none)) ∧
    (∀ (K : Collaborators) (cm cm1 : c63_common) (image : yuv_t),
      c63_encode_image K cm image = some cm1 → cm1.refframe = cm.curframe) := by
  refine ⟨?_, ?_, c63_encode_image_none_iff, ?_⟩
  · intro P K envs s h0 _ _ _
    have := server_loop_no_crash P K envs s (Or.inl h0)
    exact ⟨this.1, this.2 h0⟩
  · intro S ydef uvdef P K env
    have t1 := (run_setup_trace Node.server env.sci server_setup_comms).2
    have t2 := (run_setup_trace Node.server env.sci server_setup_segments).2
    have hno : ∀ o, (o = Outcome.running ∨ ∃ st, o = Outcome.exit st ∧ st ≠ 0) →
        o ≠ Outcome.crash := by
      rintro o (rfl | ⟨st, rfl, -⟩) <;> simp
    rcases h1 : run_setup Node.server env.sci server_setup_comms with ⟨o1, ev1⟩
    rw [h1] at t1
    cases o1 with
    | some o =>
      simp only [server_main, h1]
      exact hno o (t1 o rfl)
    | none =>
      cases hh : env.handshake with
      | none => simp [server_main, h1, hh]
      | some pk =>
        by_cases hc : pk.cmd = cmd.CMD_INVALID
        · simp [server_main, h1, hh, hc]
        · rcases h2 : run_setup Node.server env.sci server_setup_segments with ⟨o2, ev2⟩
          rw [h2] at t2
          cases o2 with
          | some o =>
            simp only [server_main, h1, hh, hc, h2, if_false]
            exact hno o (t2 o rfl)
          | none =>
            simp only [server_main, h1, hh, hc, h2, if_false]
            exact (server_loop_no_crash P K env.frames _ (Or.inl rfl)).1
  · intro K cm cm1 image he
    have hpre : is_keyframe cm = true ∨ cm.curframe ≠ none := by
      by_contra hc
      have hn : c63_encode_image K cm image = none := by
        rw [c63_encode_image_none_iff]
        constructor
        · by_contra hk
          exact hc (Or.inl (by simpa using hk))
        · by_contra hcur
          exact hc (Or.inr hcur)
      rw [hn] at he
      cases he
    obtain ⟨cm2, cur, he2, -, href, -⟩ := c63_encode_image_spec K cm image hpre
    rw [he] at he2
    cases he2
    exact href

theorem motion_estimation_has_reference_witness :
    (server_loop lp64 toy_collaborators three_frames tiny_server_state).1 ≠ Outcome.crash ∧
    (keyframe_flags
      (server_loop lp64 toy_collaborators three_frames tiny_server_state).2).head?
        ≠ some false :=
  motion_estimation_has_reference.1 lp64 toy_collaborators three_frames tiny_server_state
    (by decide) (by decide) (by decide) (by decide)

/-! ### Frame sizes that are not a multiple of four -/

theorem fread_length_le (n : Nat) (f : FILE) : (fread n f).1.length ≤ n := by
  simp only [fread]
  split_ifs <;> simp [List.length_take]

theorem read_yuv_len_le (width height : Nat) (f : FILE) :
    read_yuv_len width height f
      ≤ (width * height) % 2 ^ 32 + (width * height) % 2 ^ 32 / 4
        + (width * height) % 2 ^ 32 / 4 := by
  simp only [read_yuv_len]
  have h1 := fread_length_le ((width * height) % 2 ^ 32) f
  have h2 := fread_length_le ((width * height) % 2 ^ 32 / 4) (fread ((width * height) % 2 ^ 32) f).2
  have h3 := fread_length_le ((width * height) % 2 ^ 32 / 4)
    (fread ((width * height) % 2 ^ 32 / 4) (fread ((width * height) % 2 ^ 32) f).2).2
  omega

theorem read_yuv_image_len (width height : Nat) (cm : c63_common) (f f1 : FILE)
    (img : yuv_t) (ev : List Event)
    (h : read_yuv width height cm f = (ReadResult.image img, f1, ev)) :
    2 * read_yuv_len width height f = 3 * ((width * height) % 2 ^ 32) := by
  simp only [read_yuv] at h
  simp only [read_yuv_len]
  split_ifs at h with h1 h2 h3
  · simp at h
  · simp at h
  · simp at h
  · simpa using h3

theorem read_yuv_not_image (width height : Nat) (h4 : ¬ 4 ∣ (width * height) % 2 ^ 32)
    (cm : c63_common) (f : FILE) :
    (read_yuv width height cm f).1 = ReadResult.null ∨
    (read_yuv width height cm f).1 = ReadResult.exit_failure := by
  rcases hr : read_yuv width height cm f with ⟨r, f1, ev⟩
  cases r with
  | image img =>
    have h1 := read_yuv_image_len width height cm f f1 img ev hr
    have h2 := read_yuv_len_le width height f
    exfalso
    apply h4
    omega
  | null => exact Or.inl rfl
  | exit_failure => exact Or.inr rfl

theorem client_loop_no_image (P : Platform) (width height : Nat) (L : Int)
    (envs : List ClientFrameEnv) (s : ClientState)
    (hr : (read_yuv width height s.cm s.infile).1 = ReadResult.null ∨
      (read_yuv width height s.cm s.infile).1 = ReadResult.exit_failure) :
    (client_loop P width height L envs s).2.countP Event.is_write_frame = 0 ∧
    (client_loop P width height L envs s).2.countP Event.is_client_transfer = 0 := by
  have hev := read_yuv_events width height s.cm s.infile
  rcases hrr : read_yuv width height s.cm s.infile with ⟨r, f1, evr⟩
  rw [hrr] at hr hev
  have hq1 : evr.countP Event.is_write_frame = 0 := by
    rw [List.countP_eq_zero]
    intro x hx
    obtain ⟨m, rfl⟩ := hev x hx
    simp [Event.is_write_frame]
  have hq2 : evr.countP Event.is_client_transfer = 0 := by
    rw [List.countP_eq_zero]
    intro x hx
    obtain ⟨m, rfl⟩ := hev x hx
    simp [Event.is_client_transfer]
  simp only at hr
  rcases hr with rfl | rfl
  · rw [client_loop_null P width height L envs s f1 evr hrr]
    simp [List.countP_append, List.countP_cons, hq1, hq2, Event.is_write_frame,
      Event.is_client_transfer]
  · cases envs <;>
      simp [client_loop, client_iteration, hrr, List.countP_append, List.countP_cons, hq1, hq2,
        Event.is_write_frame, Event.is_client_transfer]

/-- Claim C18. `read_yuv` returns an image only if the bytes obtained are
twice over three times `width*height`, that is `len = width*height*1.5`; the
bytes obtained never exceed `width*height + 2*((width*height)/4)`; so when
`width*height` is not divisible by 4 `read_yuv` never returns an image, it
returns NULL with the byte-count message even from a stream that delivers
every byte asked for, and the client writes no frame and starts no transfer. -/
theorem read_yuv_needs_multiple_of_four (width height : Nat) :
    (∀ (cm : c63_common) (f f1 : FILE) (img : yuv_t) (ev : List Event),
      read_yuv width height cm f = (ReadResult.image img, f1, ev) →
      2 * read_yuv_len width height f = 3 * ((width * height) % 2 ^ 32)) ∧
    (∀ f : FILE, read_yuv_len width height f ≤ frame_bytes width height) ∧
    (¬ 4 ∣ (width * height) % 2 ^ 32 →
      (∀ (cm : c63_common) (f : FILE) (img : yuv_t),
        (read_yuv width height cm f).1 ≠ ReadResult.image img) ∧
      (∀ (cm : c63_common) (f : FILE), f.fresh → frame_bytes width height ≤ f.data.length →
        read_yuv_len width height f = frame_bytes width height ∧
        (read_yuv width height cm f).1 = ReadResult.null ∧
        (read_yuv width height cm f).2.2 = [Event.report Node.client Msg.incorrect_bytes]) ∧
      (∀ (P : Platform) (L : Int) (envs : List ClientFrameEnv) (s : ClientState),
        (client_loop P width height L envs s).2.countP Event.is_write_frame = 0 ∧
        (client_loop P width height L envs s).2.countP Event.is_client_transfer = 0)) := by
  refine ⟨read_yuv_image_len width height, read_yuv_len_le width height, ?_⟩
  intro h4
  refine ⟨?_, ?_, ?_⟩
  · intro cm f img himg
    rcases read_yuv_not_image width height h4 cm f with h | h <;> rw [h] at himg <;> cases himg
  · intro cm f hf hlen
    obtain ⟨hb, he, herr⟩ := hf
    unfold frame_bytes at hlen ⊢
    generalize hwh : (width * height) % 2 ^ 32 = wh at h4 hlen
    have e1 := fread_full wh f (by omega)
    have e2 : fread (wh / 4) (fread wh f).2
        = ((f.data.drop wh).take (wh / 4), { f with data := (f.data.drop wh).drop (wh / 4) }) := by
      rw [e1]; exact fread_full _ _ (by simp; omega)
    have e3 : fread (wh / 4) (fread (wh / 4) (fread wh f).2).2
        = (((f.data.drop wh).drop (wh / 4)).take (wh / 4),
            { f with data := ((f.data.drop wh).drop (wh / 4)).drop (wh / 4) }) := by
      rw [e2]; exact fread_full _ _ (by simp; omega)
    have hl : (f.data.take wh).length + ((f.data.drop wh).take (wh / 4)).length
        + (((f.data.drop wh).drop (wh / 4)).take (wh / 4)).length = wh + wh / 4 + wh / 4 := by
      simp only [List.length_take, List.length_drop]
      omega
    have hne : ¬ 2 * (wh + wh / 4 + wh / 4) = 3 * wh := by
      intro hc
      apply h4
      omega
    refine ⟨?_, ?_, ?_⟩
    · simp only [read_yuv_len, hwh]
      rw [e3, e2, e1]
      exact hl
    · simp only [read_yuv, hwh]
      rw [e3, e2, e1]
      simp only [herr, he, hl, Bool.false_eq_true, if_false, ne_eq, hne, not_false_eq_true,
        if_true]
    · simp only [read_yuv, hwh]
      rw [e3, e2, e1]
      simp only [herr, he, hl, Bool.false_eq_true, if_false, ne_eq, hne, not_false_eq_true,
        if_true]
  · intro P L envs s
    exact client_loop_no_image P width height L envs s
      (read_yuv_not_image width height h4 s.cm s.infile)

theorem read_yuv_needs_multiple_of_four_witness :
    read_yuv_len 1 2 (file_of [1, 2, 3, 4]) = frame_bytes 1 2 ∧
    (read_yuv 1 2 tiny_context (file_of [1, 2, 3, 4])).1 = ReadResult.null ∧
    (read_yuv 1 2 tiny_context (file_of [1, 2, 3, 4])).2.2
      = [Event.report Node.client Msg.incorrect_bytes] :=
  (read_yuv_needs_multiple_of_four 1 2).2.2 (by decide) |>.2.1 tiny_context
    (file_of [1, 2, 3, 4]) (by decide) (by decide)

/-! ### The order of transfer and signal -/

theorem proceed_run_append (n : Node) (a b : List Event) :
    ∀ st, proceed_run n st (a ++ b)
      = (proceed_run n st a).bind (fun s => proceed_run n s b) := by
  induction a with
  | nil => intro st; rfl
  | cons e t ih =>
    intro st
    simp only [List.cons_append, proceed_run]
    cases proceed_step n st e with
    | none => rfl
    | some s1 => exact ih s1

theorem proceed_run_reports (n : Node) (evr : List Event)
    (h : ∀ x ∈ evr, ∃ m, x = Event.report Node.client m) :
    ∀ st, proceed_run n st evr = some st := by
  induction evr with
  | nil => intro st; rfl
  | cons e t ih =>
    intro st
    obtain ⟨m, rfl⟩ := h _ (List.mem_cons_self _ _)
    simp only [proceed_run, proceed_step]
    exact ih (fun x hx => h x (List.mem_cons_of_mem _ hx)) st

/-- The monitor on one pass of the client's loop from state 0: no violation,
and state 0 again when the loop continues or is left. -/
theorem client_iteration_order (P : Platform) (width height : Nat) (L : Int)
    (s : ClientState) (e : Option ClientFrameEnv) :
    (∃ st, proceed_run Node.client 0 (client_iteration P width height L s e).events = some st) ∧
    (∀ s1 ev, client_iteration P width height L s e = Step.next s1 ev →
      proceed_run Node.client 0 ev = some 0) ∧
    (∀ s1 ev, client_iteration P width height L s e = Step.brk s1 ev →
      proceed_run Node.client 0 ev = some 0) := by
  have hev := read_yuv_events width height s.cm s.infile
  rcases hr : read_yuv width height s.cm s.infile with ⟨r, f, evr⟩
  rw [hr] at hev
  have hq := proceed_run_reports Node.client evr hev
  simp only [client_iteration, hr]
  cases r with
  | exit_failure =>
    simp [Step.events, proceed_run_append, proceed_run, proceed_step, hq]
  | null =>
    simp [Step.events, proceed_run_append, proceed_run, proceed_step, hq]
  | image img =>
    cases e with
    | none => simp [Step.events, proceed_run_append, proceed_run, proceed_step, hq]
    | some e =>
      cases hresp : e.response <;> cases hcur : s.cm.curframe <;> simp only [] <;>
        by_cases h1 : e.dma_start = SCI_ERR_OK <;> by_cases h2 : e.dma_wait = SCI_ERR_OK <;>
        by_cases h3 : L ≠ 0 ∧ s.numframes + 1 ≥ L <;>
        simp [Step.events, proceed_run_append, proceed_run, proceed_step, hq, hresp, hcur,
          h1, h2, h3]

theorem server_iteration_order (P : Platform) (K : Collaborators) (s : ServerState)
    (d1 d2 : sci_error_t) :
    (∃ st, proceed_run Node.server 0 (server_iteration P K s d1 d2).events = some st) ∧
    (∀ s1 ev, server_iteration P K s d1 d2 = Step.next s1 ev →
      proceed_run Node.server 0 ev = some 0) ∧
    (∀ s1 ev, server_iteration P K s d1 d2 = Step.brk s1 ev →
      proceed_run Node.server 0 ev = some 0) := by
  by_cases h1 : s.local_comms.cmd = cmd.CMD_INVALID
  · simp [server_iteration, h1, Step.events, proceed_run, proceed_step]
  by_cases h2 : s.local_comms.cmd = cmd.CMD_QUIT
  · simp [server_iteration, h2, Step.events, proceed_run, proceed_step]
  cases he : c63_encode_image K s.cm (server_unpack_image s) with
  | none => simp [server_iteration, h1, h2, he, Step.events, proceed_run, proceed_step]
  | some cm1 =>
    cases hcur : cm1.curframe with
    | none => simp [server_iteration, h1, h2, he, hcur, Step.events, proceed_run, proceed_step]
    | some cur =>
      by_cases hd1 : d1 = SCI_ERR_OK <;> by_cases hd2 : d2 = SCI_ERR_OK <;>
        simp [server_iteration, h1, h2, he, hcur, hd1, hd2, Step.events, proceed_run,
          proceed_step]

theorem client_loop_order (P : Platform) (width height : Nat) (L : Int) :
    ∀ (envs : List ClientFrameEnv) (s : ClientState),
      ∃ st, proceed_run Node.client 0 (client_loop P width height L envs s).2 = some st := by
  intro envs
  induction envs with
  | nil =>
    intro s
    obtain ⟨⟨st, h0⟩, h1, h2⟩ := client_iteration_order P width height L s none
    cases hit : client_iteration P width height L s none with
    | next s1 ev => rw [hit] at h0; exact ⟨st, by simpa [client_loop, hit, Step.events] using h0⟩
    | brk s1 ev =>
      have := h2 s1 ev hit
      simp [client_loop, hit, client_finish, proceed_run_append, this, proceed_run,
        proceed_step]
    | halt o ev => rw [hit] at h0; exact ⟨st, by simpa [client_loop, hit, Step.events] using h0⟩
  | cons e es ih =>
    intro s
    obtain ⟨⟨st, h0⟩, h1, h2⟩ := client_iteration_order P width height L s (some e)
    cases hit : client_iteration P width height L s (some e) with
    | next s1 ev =>
      have := h1 s1 ev hit
      obtain ⟨st1, hst1⟩ := ih s1
      exact ⟨st1, by simp [client_loop, hit, proceed_run_append, this, hst1]⟩
    | brk s1 ev =>
      have := h2 s1 ev hit
      simp [client_loop, hit, client_finish, proceed_run_append, this, proceed_run,
        proceed_step]
    | halt o ev => rw [hit] at h0; exact ⟨st, by simpa [client_loop, hit, Step.events] using h0⟩

theorem server_loop_order (P : Platform) (K : Collaborators) :
    ∀ (envs : List ServerFrameEnv) (s : ServerState),
      ∃ st, proceed_run Node.server 0 (server_loop P K envs s).2 = some st := by
  intro envs
  induction envs with
  | nil => intro s; exact ⟨0, rfl⟩
  | cons e es ih =>
    intro s
    obtain ⟨⟨st, h0⟩, h1, h2⟩ :=
      server_iteration_order P K (server_observe e s) e.dma_start e.dma_wait
    cases hit : server_iteration P K (server_observe e s) e.dma_start e.dma_wait with
    | next s1 ev =>
      have := h1 s1 ev hit
      obtain ⟨st1, hst1⟩ := ih s1
      exact ⟨st1, by simp [server_loop, hit, proceed_run_append, this, hst1]⟩
    | brk s1 ev =>
      have := h2 s1 ev hit
      simp [server_loop, hit, proceed_run_append, this, proceed_run, proceed_step]
    | halt o ev => rw [hit] at h0; exact ⟨st, by simpa [server_loop, hit, Step.events] using h0⟩

theorem client_transfer_error (P : Platform) (width height : Nat) (L : Int)
    (s : ClientState) (e : ClientFrameEnv) (img : yuv_t) (f : FILE) (evr : List Event)
    (hr : read_yuv width height s.cm s.infile = (ReadResult.image img, f, evr))
    (herr : e.dma_start ≠ SCI_ERR_OK ∨ e.dma_wait ≠ SCI_ERR_OK) :
    ∃ ev, client_iteration P width height L s (some e)
        = Step.halt (Outcome.exit EXIT_FAILURE) ev ∧
      ev.countP Event.is_client_proceed = 0 := by
  have hev := read_yuv_events width height s.cm s.infile
  rw [hr] at hev
  have hq : evr.countP Event.is_client_proceed = 0 := by
    rw [List.countP_eq_zero]
    intro x hx
    obtain ⟨m, rfl⟩ := hev x hx
    simp [Event.is_client_proceed]
  by_cases h1 : e.dma_start = SCI_ERR_OK
  · have h2 : e.dma_wait ≠ SCI_ERR_OK := by
      rcases herr with h | h
      · exact absurd h1 h
      · exact h
    refine ⟨(client_iteration P width height L s (some e)).events, ?_, ?_⟩ <;>
      simp [client_iteration, hr, h1, h2, Step.events, List.countP_append, List.countP_cons,
        hq, Event.is_client_proceed]
  · refine ⟨(client_iteration P width height L s (some e)).events, ?_, ?_⟩ <;>
      simp [client_iteration, hr, h1, Step.events, List.countP_append, List.countP_cons,
        hq, Event.is_client_proceed]

theorem server_transfer_error (P : Platform) (K : Collaborators) (s : ServerState)
    (d1 d2 : sci_error_t) (cm1 : c63_common)
    (hc : s.local_comms.cmd = cmd.CMD_DONE)
    (he : c63_encode_image K s.cm (server_unpack_image s) = some cm1)
    (herr : d1 ≠ SCI_ERR_OK ∨ d2 ≠ SCI_ERR_OK) :
    ∃ ev, server_iteration P K s d1 d2 = Step.halt (Outcome.exit EXIT_FAILURE) ev ∧
      ev.countP Event.is_server_proceed = 0 := by
  obtain ⟨cur, hcur⟩ := c63_encode_image_curframe K _ _ _ he
  by_cases h1 : d1 = SCI_ERR_OK
  · have h2 : d2 ≠ SCI_ERR_OK := by
      rcases herr with h | h
      · exact absurd h1 h
      · exact h
    refine ⟨(server_iteration P K s d1 d2).events, ?_, ?_⟩ <;>
      simp [server_iteration, hc, he, hcur, h1, h2, Step.events, List.countP_append,
        List.countP_cons, Event.is_server_proceed]
  · refine ⟨(server_iteration P K s d1 d2).events, ?_, ?_⟩ <;>
      simp [server_iteration, hc, he, hcur, h1, Step.events, List.countP_append,
        List.countP_cons, Event.is_server_proceed]

/-- Claim C13. In every run of either frame loop, each write of CMD_DONE into
the peer's packet comes after the payload was copied into the local segment,
the transfer was then started without error and the completion wait then
returned without error, in that order within the cycle (the monitor
`proceed_run` never reports a violation). When, in a cycle that reached the
transfer, starting it or waiting for it reports an error, the pass ends with
`exit(EXIT_FAILURE)` and its trace holds no CMD_DONE for the peer. -/
theorem proceed_after_transfer :
    (∀ (P : Platform) (width height : Nat) (L : Int) (envs : List ClientFrameEnv)
        (s : ClientState),
      ∃ st, proceed_run Node.client 0 (client_loop P width height L envs s).2 = some st) ∧
    (∀ (P : Platform) (K : Collaborators) (envs : List ServerFrameEnv) (s : ServerState),
      ∃ st, proceed_run Node.server 0 (server_loop P K envs s).2 = some st) ∧
    (∀ (P : Platform) (width height : Nat) (L : Int) (s : ClientState) (e : ClientFrameEnv)
        (img : yuv_t) (f : FILE) (evr : List Event),
      read_yuv width height s.cm s.infile = (ReadResult.image img, f, evr) →
      (e.dma_start ≠ SCI_ERR_OK ∨ e.dma_wait ≠ SCI_ERR_OK) →
      ∃ ev, client_iteration P width height L s (some e)
          = Step.halt (Outcome.exit EXIT_FAILURE) ev ∧
        ev.countP Event.is_client_proceed = 0) ∧
    (∀ (P : Platform) (K : Collaborators) (s : ServerState) (d1 d2 : sci_error_t)
        (cm1 : c63_common),
      s.local_comms.cmd = cmd.CMD_DONE →
      c63_encode_image K s.cm (server_unpack_image s) = some cm1 →
      (d1 ≠ SCI_ERR_OK ∨ d2 ≠ SCI_ERR_OK) →
      ∃ ev, server_iteration P K s d1 d2 = Step.halt (Outcome.exit EXIT_FAILURE) ev ∧
        ev.countP Event.is_server_proceed = 0) :=
  ⟨client_loop_order, server_loop_order, client_transfer_error, server_transfer_error⟩

theorem proceed_after_transfer_witness :
    (∃ st, proceed_run Node.client 0
      (client_loop lp64 2 2 0 [answer] (tiny_client_state [1, 2, 3, 4, 5, 6])).2 = some st) ∧
    (client_loop lp64 2 2 0 [answer]
      (tiny_client_state [1, 2, 3, 4, 5, 6])).2.countP Event.is_client_proceed = 1 ∧
    (∃ ev, client_iteration lp64 2 2 0 (tiny_client_state [1, 2, 3, 4, 5, 6])
        (some { dma_start := 0, dma_wait := 9, response := none })
          = Step.halt (Outcome.exit EXIT_FAILURE) ev ∧
      ev.countP Event.is_client_proceed = 0) ∧
    proceed_run Node.client 0
      [Event.pack_image { Y := [], U := [], V := [] },
       Event.dma_start Node.client 0 0,
       Event.write_cmd Node.client Node.server cmd.CMD_DONE] = none :=
  ⟨proceed_after_transfer.1 lp64 2 2 0 [answer] (tiny_client_state [1, 2, 3, 4, 5, 6]),
   by decide,
   proceed_after_transfer.2.2.1 lp64 2 2 0 (tiny_client_state [1, 2, 3, 4, 5, 6])
     { dma_start := 0, dma_wait := 9, response := none }
     (read_yuv_image 2 2 (tiny_client_state [1, 2, 3, 4, 5, 6]).cm (file_of [1, 2, 3, 4, 5, 6]))
     { file_of [1, 2, 3, 4, 5, 6] with data := [] } [] (by decide) (by decide),
   by decide⟩

/-! ### The image segment at byte level -/

theorem read_bytes_length (seg : Bytes) (off n : Nat) : (read_bytes seg off n).length = n := by
  simp [read_bytes]

theorem read_write_same (seg : Bytes) (off : Nat) (src : List Nat) :
    read_bytes (write_bytes seg off src src.length) off src.length = src := by
  apply List.ext_getElem
  · simp [read_bytes]
  · intro i h1 h2
    simp only [read_bytes, List.getElem_map, List.getElem_range, write_bytes]
    have hi : i < src.length := h2
    rw [if_pos ⟨Nat.le_add_right _ _, by omega⟩]
    simp [List.getD_eq_getElem?_getD, hi]

theorem read_write_other (seg : Bytes) (off n off1 n1 : Nat) (src : List Nat)
    (h : off1 + n1 ≤ off ∨ off + n ≤ off1) :
    read_bytes (write_bytes seg off src n) off1 n1 = read_bytes seg off1 n1 := by
  simp only [read_bytes]
  apply List.map_congr_left
  intro i hi
  have hi' : i < n1 := List.mem_range.mp hi
  simp only [write_bytes]
  rw [if_neg]
  omega

theorem read_bytes_congr (s1 s2 : Bytes) (off n : Nat)
    (h : ∀ a, off ≤ a → a < off + n → s1 a = s2 a) :
    read_bytes s1 off n = read_bytes s2 off n := by
  simp only [read_bytes]
  apply List.map_congr_left
  intro i hi
  have hi' : i < n := List.mem_range.mp hi
  exact h _ (Nat.le_add_right _ _) (by omega)

theorem memcpy_full {α : Type} (dst src : List α) (n : Nat) (hs : src.length = n)
    (hd : dst.length = n) : memcpy dst src n = src := by
  simp [memcpy, ← hs, List.drop_of_length_le (le_of_eq (hd.trans hs.symm))]

theorem image_segment_ranges (P : Platform) (cm : c63_common) (hp1 : 1 ≤ P.ptr_size) :
    image_segment_offset_Y P cm + cm.padw.Y * cm.padh.Y ≤ image_segment_offset_U P cm ∧
    image_segment_offset_U P cm + cm.padw.U * cm.padh.U ≤ image_segment_offset_V P cm ∧
    image_segment_offset_V P cm + cm.padw.V * cm.padh.V ≤ sizeof_image_segment P cm := by
  simp only [image_segment_offset_Y, image_segment_offset_U, image_segment_offset_V,
    sizeof_image_segment]
  have h1 := Nat.mul_le_mul_right (cm.padw.Y * cm.padh.Y) hp1
  have h2 := Nat.mul_le_mul_right (cm.padw.U * cm.padh.U) hp1
  have h3 := Nat.mul_le_mul_right (cm.padw.V * cm.padh.V) hp1
  omega

/-- Claim C14. Client and server have the same context and pointer size. When
the server's image segment agrees byte for byte, over the size of the
segment, with the client's segment after the client packed an image of
padded size, the three buffers the server unpacks are the buffers the client
packed. The offsets of the three fields are the same on both sides, each
range written ends before the next field starts and the last one inside the
segment, so the ranges are disjoint. The copies counted in elements, as the
drivers' loop functions have them, give the same result. -/
theorem image_segment_roundtrip (Pc Ps : Platform) (cm : c63_common) (seg0 seg_s : Bytes)
    (image_c image_s : yuv_t) (hP : Pc.ptr_size = Ps.ptr_size) (hp1 : 1 ≤ Pc.ptr_size)
    (hc : yuv_sized cm image_c) (hs : yuv_sized cm image_s)
    (hcopy : ∀ a, a < sizeof_image_segment Pc cm →
      seg_s a = client_pack_image_bytes Pc cm seg0 image_c a) :
    server_unpack_image_bytes Ps cm seg_s image_s = image_c ∧
    (image_segment_offset_Y Pc cm = image_segment_offset_Y Ps cm ∧
     image_segment_offset_U Pc cm = image_segment_offset_U Ps cm ∧
     image_segment_offset_V Pc cm = image_segment_offset_V Ps cm ∧
     sizeof_image_segment Pc cm = sizeof_image_segment Ps cm) ∧
    (image_segment_offset_Y Pc cm + cm.padw.Y * cm.padh.Y ≤ image_segment_offset_U Pc cm ∧
     image_segment_offset_U Pc cm + cm.padw.U * cm.padh.U ≤ image_segment_offset_V Pc cm ∧
     image_segment_offset_V Pc cm + cm.padw.V * cm.padh.V ≤ sizeof_image_segment Pc cm) ∧
    (∀ (c : ClientState) (s : ServerState), c.cm = cm → s.cm = cm →
      yuv_sized cm c.local_seg → yuv_sized cm s.image →
      server_unpack_image { s with local_seg := client_pack_image c image_c } = image_c) := by
  have hoff : image_segment_offset_Y Pc cm = image_segment_offset_Y Ps cm ∧
      image_segment_offset_U Pc cm = image_segment_offset_U Ps cm ∧
      image_segment_offset_V Pc cm = image_segment_offset_V Ps cm ∧
      sizeof_image_segment Pc cm = sizeof_image_segment Ps cm := by
    simp only [image_segment_offset_Y, image_segment_offset_U, image_segment_offset_V,
      sizeof_image_segment, hP, and_self]
  obtain ⟨r1, r2, r3⟩ := image_segment_ranges Pc cm hp1
  obtain ⟨cY, cU, cV⟩ := hc
  obtain ⟨sY, sU, sV⟩ := hs
  obtain ⟨oY, oU, oV, -⟩ := hoff
  refine ⟨?_, ⟨oY, oU, oV, by simp only [sizeof_image_segment, image_segment_offset_V,
    image_segment_offset_U, hP]⟩, ⟨r1, r2, r3⟩, ?_⟩
  · have hY : read_bytes seg_s (image_segment_offset_Y Pc cm) (cm.padw.Y * cm.padh.Y)
        = image_c.Y := by
      rw [read_bytes_congr seg_s _ _ _ (fun a _ h2 => hcopy a (by omega))]
      simp only [client_pack_image_bytes]
      rw [read_write_other _ _ _ _ _ _ (Or.inl (by omega)),
        read_write_other _ _ _ _ _ _ (Or.inl r1), ← cY]
      exact read_write_same _ _ _
    have hU : read_bytes seg_s (image_segment_offset_U Pc cm) (cm.padw.U * cm.padh.U)
        = image_c.U := by
      rw [read_bytes_congr seg_s _ _ _ (fun a _ h2 => hcopy a (by omega))]
      simp only [client_pack_image_bytes]
      rw [read_write_other _ _ _ _ _ _ (Or.inl r2), ← cU]
      exact read_write_same _ _ _
    have hV : read_bytes seg_s (image_segment_offset_V Pc cm) (cm.padw.V * cm.padh.V)
        = image_c.V := by
      rw [read_bytes_congr seg_s _ _ _ (fun a _ h2 => hcopy a (by omega))]
      simp only [client_pack_image_bytes, ← cV]
      exact read_write_same _ _ _
    simp only [server_unpack_image_bytes, ← oY, ← oU, ← oV, hY, hU, hV]
    rw [memcpy_full _ _ _ cY sY, memcpy_full _ _ _ cU sU, memcpy_full _ _ _ cV sV]
  · intro c s hcm hsm hl hi
    obtain ⟨lY, lU, lV⟩ := hl
    obtain ⟨iY, iU, iV⟩ := hi
    simp only [server_unpack_image, client_pack_image, hcm, hsm]
    rw [memcpy_full _ image_c.Y _ cY lY, memcpy_full _ image_c.U _ cU lU,
      memcpy_full _ image_c.V _ cV lV, memcpy_full _ _ _ cY iY, memcpy_full _ _ _ cU iU,
      memcpy_full _ _ _ cV iV]

theorem image_segment_roundtrip_witness :
    server_unpack_image_bytes lp64 tiny_context
        (client_pack_image_bytes lp64 tiny_context zero_bytes { Y := [1, 2, 3, 4], U := [5], V := [6] })
        { Y := [0, 0, 0, 0], U := [0], V := [0] }
      = { Y := [1, 2, 3, 4], U := [5], V := [6] } ∧
    image_segment_offset_U lp64 tiny_context = 32 ∧
    image_segment_offset_V lp64 tiny_context = 40 ∧
    sizeof_image_segment lp64 tiny_context = 48 :=
  ⟨(image_segment_roundtrip lp64 lp64 tiny_context zero_bytes
      (client_pack_image_bytes lp64 tiny_context zero_bytes { Y := [1, 2, 3, 4], U := [5], V := [6] })
      { Y := [1, 2, 3, 4], U := [5], V := [6] } { Y := [0, 0, 0, 0], U := [0], V := [0] }
      rfl (by decide) (by decide) (by decide) (fun _ _ => rfl)).1,
   by decide, by decide, by decide⟩


/-! ### The result segment at byte level -/

theorem encode_array_length {α : Type} (enc : α → List Nat) (size : Nat) (xs : List α)
    (h : ∀ x ∈ xs, (enc x).length = size) : (encode_array enc xs).length = xs.length * size := by
  induction xs with
  | nil => simp [encode_array]
  | cons x xs ih =>
    simp only [encode_array, List.length_append, List.length_cons]
    rw [ih (fun y hy => h y (List.mem_cons_of_mem _ hy)), h x (List.mem_cons_self _ _)]
    ring

theorem decode_encode_array {α : Type} (enc : α → List Nat) (dec : List Nat → α) (size : Nat)
    (xs : List α) (h : ∀ x ∈ xs, (enc x).length = size ∧ dec (enc x) = x) :
    decode_array dec size xs.length (encode_array enc xs) = xs := by
  induction xs with
  | nil => simp [decode_array]
  | cons x xs ih =>
    obtain ⟨hl, hd⟩ := h x (List.mem_cons_self _ _)
    simp only [encode_array, List.length_cons, decode_array]
    rw [List.take_left' hl, List.drop_left' hl, hd,
      ih (fun y hy => h y (List.mem_cons_of_mem _ hy))]

theorem result_segment_ranges (P : Platform) (cm : c63_common) (hmb : P.mb_size ≤ P.ptr_size)
    (h16 : 2 ≤ P.ptr_size) :
    P.int_size ≤ result_segment_offset_mbs_row P cm 0 ∧
    result_segment_offset_mbs_row P cm 0 + cm.mb_rows * cm.mb_cols * P.mb_size
      ≤ result_segment_offset_mbs_row P cm 1 ∧
    result_segment_offset_mbs_row P cm 1 + cm.mb_rows / 2 * cm.mb_cols / 2 * P.mb_size
      ≤ result_segment_offset_mbs_row P cm 2 ∧
    result_segment_offset_mbs_row P cm 2 + cm.mb_rows / 2 * cm.mb_cols / 2 * P.mb_size
      ≤ result_segment_offset_Ydct P cm ∧
    result_segment_offset_Ydct P cm + cm.ypw * cm.yph * 2 ≤ result_segment_offset_Udct P cm ∧
    result_segment_offset_Udct P cm + cm.upw * cm.uph * 2 ≤ result_segment_offset_Vdct P cm ∧
    result_segment_offset_Vdct P cm + cm.vpw * cm.vph * 2 ≤ sizeof_result_segment P cm := by
  have hq : cm.mb_rows / 2 * cm.mb_cols / 2 ≤ cm.mb_rows * cm.mb_cols :=
    le_trans (Nat.div_le_self _ _) (Nat.mul_le_mul_right _ (Nat.div_le_self _ _))
  have h0 : P.int_size ≤ (P.int_size + P.ptr_size - 1) / P.ptr_size * P.ptr_size := by
    have e := Nat.div_add_mod (P.int_size + P.ptr_size - 1) P.ptr_size
    have l := Nat.mod_lt (P.int_size + P.ptr_size - 1) (show 0 < P.ptr_size by omega)
    rw [Nat.mul_comm] at e
    omega
  have h1 : cm.mb_rows * cm.mb_cols * P.mb_size ≤ P.ptr_size * (cm.mb_rows * cm.mb_cols) := by
    rw [Nat.mul_comm P.ptr_size]; exact Nat.mul_le_mul_left _ hmb
  have h2 : cm.mb_rows / 2 * cm.mb_cols / 2 * P.mb_size
      ≤ P.ptr_size * (cm.mb_rows * cm.mb_cols) := by
    rw [Nat.mul_comm P.ptr_size]; exact Nat.mul_le_mul hq hmb
  have h4 : cm.ypw * cm.yph * 2 ≤ P.ptr_size * (cm.ypw * cm.yph) := by
    rw [Nat.mul_comm P.ptr_size]; exact Nat.mul_le_mul_left _ h16
  have h5 : cm.upw * cm.uph * 2 ≤ P.ptr_size * (cm.upw * cm.uph) := by
    rw [Nat.mul_comm P.ptr_size]; exact Nat.mul_le_mul_left _ h16
  have h6 : cm.vpw * cm.vph * 2 ≤ P.ptr_size * (cm.vpw * cm.vph) := by
    rw [Nat.mul_comm P.ptr_size]; exact Nat.mul_le_mul_left _ h16
  have e0 : P.ptr_size * (0 * (cm.mb_rows * cm.mb_cols)) = 0 := by simp
  have e1 : P.ptr_size * (1 * (cm.mb_rows * cm.mb_cols))
      = P.ptr_size * (cm.mb_rows * cm.mb_cols) := by simp
  have e2 : P.ptr_size * (2 * (cm.mb_rows * cm.mb_cols))
      = 2 * (P.ptr_size * (cm.mb_rows * cm.mb_cols)) := by ring
  have e3 : P.ptr_size * (3 * (cm.mb_rows * cm.mb_cols))
      = 3 * (P.ptr_size * (cm.mb_rows * cm.mb_cols)) := by ring
  simp only [result_segment_offset_mbs_row, result_segment_offset_mbs,
    result_segment_offset_Ydct, result_segment_offset_Udct, result_segment_offset_Vdct,
    sizeof_result_segment, e0, e1, e2, e3]
  omega

theorem read_write_exact (seg : Bytes) (off n : Nat) (src : List Nat) (h : src.length = n) :
    read_bytes (write_bytes seg off src n) off n = src := by
  subst h; exact read_write_same seg off src

theorem array_field_roundtrip {α : Type} (enc : α → List Nat) (dec : List Nat → α)
    (size n : Nat) (xs dst : List α) (bytes : List Nat) (hx : xs.length = n)
    (hd : dst.length = n) (hf : ∀ x ∈ xs, (enc x).length = size ∧ dec (enc x) = x)
    (hb : bytes = encode_array enc xs) :
    memcpy dst (decode_array dec size n bytes) n = xs := by
  subst hb
  subst hx
  rw [decode_encode_array enc dec size xs hf]
  exact memcpy_full _ _ _ rfl hd

theorem memcpy_memcpy {α : Type} (dst mid src : List α) (n : Nat) (hs : src.length = n)
    (hd : dst.length = n) : memcpy dst (memcpy mid src n) n = src := by
  subst hs
  simp [memcpy, hd]

/-- Claim C15. Client and server have the same sizes and representation of
values; a macroblock record is no larger than a pointer, and neither is a
2-byte coefficient. When the client's result segment agrees byte for byte,
over the size of the segment, with the server's segment after the server
packed a frame whose arrays have the context's counts, the keyframe flag,
the three block-metadata arrays and the three residual arrays the client
unpacks are those of the server's frame. The seven ranges written follow one
another without overlap: each ends before the next field (or row of `mbs`)
starts, the last inside the segment. The copies counted in elements, as the
drivers' loop functions have them, give the same result. -/
theorem result_segment_roundtrip (Ps Pc : Platform) (R : ObjectRepr) (cm : c63_common)
    (seg0 seg_c : Bytes) (cur_s cur_c : frame) (hP : Pc = Ps)
    (hmb : Ps.mb_size ≤ Ps.ptr_size) (h16 : 2 ≤ Ps.ptr_size)
    (hR : R.faithful_on Ps cur_s) (hs : frame_sized cm cur_s) (hc : frame_sized cm cur_c)
    (hcopy : ∀ a, a < sizeof_result_segment Ps cm →
      seg_c a = server_pack_result_bytes Ps R cm seg0 cur_s a) :
    ((client_unpack_result_bytes Pc R cm seg_c cur_c).keyframe = cur_s.keyframe ∧
     (client_unpack_result_bytes Pc R cm seg_c cur_c).mbs = cur_s.mbs ∧
     (client_unpack_result_bytes Pc R cm seg_c cur_c).residuals = cur_s.residuals) ∧
    (Ps.int_size ≤ result_segment_offset_mbs_row Ps cm 0 ∧
     result_segment_offset_mbs_row Ps cm 0 + cm.mb_rows * cm.mb_cols * Ps.mb_size
       ≤ result_segment_offset_mbs_row Ps cm 1 ∧
     result_segment_offset_mbs_row Ps cm 1 + cm.mb_rows / 2 * cm.mb_cols / 2 * Ps.mb_size
       ≤ result_segment_offset_mbs_row Ps cm 2 ∧
     result_segment_offset_mbs_row Ps cm 2 + cm.mb_rows / 2 * cm.mb_cols / 2 * Ps.mb_size
       ≤ result_segment_offset_Ydct Ps cm ∧
     result_segment_offset_Ydct Ps cm + cm.ypw * cm.yph * 2 ≤ result_segment_offset_Udct Ps cm ∧
     result_segment_offset_Udct Ps cm + cm.upw * cm.uph * 2 ≤ result_segment_offset_Vdct Ps cm ∧
     result_segment_offset_Vdct Ps cm + cm.vpw * cm.vph * 2 ≤ sizeof_result_segment Ps cm) ∧
    (∀ r : result_segment,
      (client_unpack_result cm cur_c (server_pack_result cm cur_s r)).keyframe = cur_s.keyframe ∧
      (client_unpack_result cm cur_c (server_pack_result cm cur_s r)).mbs = cur_s.mbs ∧
      (client_unpack_result cm cur_c (server_pack_result cm cur_s r)).residuals
        = cur_s.residuals) := by
  subst hP
  have hr := result_segment_ranges Pc cm hmb h16
  obtain ⟨r0, r1, r2, r3, r4, r5, r6⟩ := hr
  obtain ⟨⟨kl, kd⟩, hm, hx⟩ := hR
  obtain ⟨⟨sY, sU, sV⟩, ⟨sy, su, sv⟩⟩ := hs
  obtain ⟨⟨cY, cU, cV⟩, ⟨cy, cu, cv⟩⟩ := hc
  have mY : ∀ m ∈ cur_s.mbs.Y, (R.mb_bytes m).length = Pc.mb_size ∧ R.mb_of_bytes (R.mb_bytes m) = m :=
    fun m h => hm m (List.mem_append_left _ h)
  have mU : ∀ m ∈ cur_s.mbs.U, (R.mb_bytes m).length = Pc.mb_size ∧ R.mb_of_bytes (R.mb_bytes m) = m :=
    fun m h => hm m (List.mem_append_right _ (List.mem_append_left _ h))
  have mV : ∀ m ∈ cur_s.mbs.V, (R.mb_bytes m).length = Pc.mb_size ∧ R.mb_of_bytes (R.mb_bytes m) = m :=
    fun m h => hm m (List.mem_append_right _ (List.mem_append_right _ h))
  have xY : ∀ x ∈ cur_s.residuals.Y, (R.i16_bytes x).length = 2 ∧ R.i16_of_bytes (R.i16_bytes x) = x :=
    fun m h => hx m (List.mem_append_left _ h)
  have xU : ∀ x ∈ cur_s.residuals.U, (R.i16_bytes x).length = 2 ∧ R.i16_of_bytes (R.i16_bytes x) = x :=
    fun m h => hx m (List.mem_append_right _ (List.mem_append_left _ h))
  have xV : ∀ x ∈ cur_s.residuals.V, (R.i16_bytes x).length = 2 ∧ R.i16_of_bytes (R.i16_bytes x) = x :=
    fun m h => hx m (List.mem_append_right _ (List.mem_append_right _ h))
  have lmY := encode_array_length R.mb_bytes Pc.mb_size cur_s.mbs.Y (fun m h => (mY m h).1)
  have lmU := encode_array_length R.mb_bytes Pc.mb_size cur_s.mbs.U (fun m h => (mU m h).1)
  have lmV := encode_array_length R.mb_bytes Pc.mb_size cur_s.mbs.V (fun m h => (mV m h).1)
  have lxY := encode_array_length R.i16_bytes 2 cur_s.residuals.Y (fun m h => (xY m h).1)
  have lxU := encode_array_length R.i16_bytes 2 cur_s.residuals.U (fun m h => (xU m h).1)
  have lxV := encode_array_length R.i16_bytes 2 cur_s.residuals.V (fun m h => (xV m h).1)
  rw [sY] at lmY
  rw [sU] at lmU
  rw [sV] at lmV
  rw [sy] at lxY
  rw [su] at lxU
  rw [sv] at lxV
  have bK : read_bytes seg_c 0 Pc.int_size = R.int_bytes cur_s.keyframe := by
    rw [read_bytes_congr seg_c _ _ _ (fun a _ h2 => hcopy a (by omega))]
    simp only [server_pack_result_bytes]
    rw [read_write_other _ _ _ _ _ _ (Or.inl (by omega)),
      read_write_other _ _ _ _ _ _ (Or.inl (by omega)),
      read_write_other _ _ _ _ _ _ (Or.inl (by omega)),
      read_write_other _ _ _ _ _ _ (Or.inl (by omega)),
      read_write_other _ _ _ _ _ _ (Or.inl (by omega)),
      read_write_other _ _ _ _ _ _ (Or.inl (by omega))]
    exact read_write_exact _ _ _ _ kl
  have bmY : read_bytes seg_c (result_segment_offset_mbs_row Pc cm 0)
      (cm.mb_rows * cm.mb_cols * Pc.mb_size) = encode_array R.mb_bytes cur_s.mbs.Y := by
    rw [read_bytes_congr seg_c _ _ _ (fun a _ h2 => hcopy a (by omega))]
    simp only [server_pack_result_bytes]
    rw [read_write_other _ _ _ _ _ _ (Or.inl (by omega)),
      read_write_other _ _ _ _ _ _ (Or.inl (by omega)),
      read_write_other _ _ _ _ _ _ (Or.inl (by omega)),
      read_write_other _ _ _ _ _ _ (Or.inl (by omega)),
      read_write_other _ _ _ _ _ _ (Or.inl (by omega))]
    exact read_write_exact _ _ _ _ lmY
  have bmU : read_bytes seg_c (result_segment_offset_mbs_row Pc cm 1)
      (cm.mb_rows / 2 * cm.mb_cols / 2 * Pc.mb_size) = encode_array R.mb_bytes cur_s.mbs.U := by
    rw [read_bytes_congr seg_c _ _ _ (fun a _ h2 => hcopy a (by omega))]
    simp only [server_pack_result_bytes]
    rw [read_write_other _ _ _ _ _ _ (Or.inl (by omega)),
      read_write_other _ _ _ _ _ _ (Or.inl (by omega)),
      read_write_other _ _ _ _ _ _ (Or.inl (by omega)),
      read_write_other _ _ _ _ _ _ (Or.inl (by omega))]
    exact read_write_exact _ _ _ _ lmU
  have bmV : read_bytes seg_c (result_segment_offset_mbs_row Pc cm 2)
      (cm.mb_rows / 2 * cm.mb_cols / 2 * Pc.mb_size) = encode_array R.mb_bytes cur_s.mbs.V := by
    rw [read_bytes_congr seg_c _ _ _ (fun a _ h2 => hcopy a (by omega))]
    simp only [server_pack_result_bytes]
    rw [read_write_other _ _ _ _ _ _ (Or.inl (by omega)),
      read_write_other _ _ _ _ _ _ (Or.inl (by omega)),
      read_write_other _ _ _ _ _ _ (Or.inl (by omega))]
    exact read_write_exact _ _ _ _ lmV
  have bxY : read_bytes seg_c (result_segment_offset_Ydct Pc cm) (cm.ypw * cm.yph * 2)
      = encode_array R.i16_bytes cur_s.residuals.Y := by
    rw [read_bytes_congr seg_c _ _ _ (fun a _ h2 => hcopy a (by omega))]
    simp only [server_pack_result_bytes]
    rw [read_write_other _ _ _ _ _ _ (Or.inl (by omega)),
      read_write_other _ _ _ _ _ _ (Or.inl (by omega))]
    exact read_write_exact _ _ _ _ lxY
  have bxU : read_bytes seg_c (result_segment_offset_Udct Pc cm) (cm.upw * cm.uph * 2)
      = encode_array R.i16_bytes cur_s.residuals.U := by
    rw [read_bytes_congr seg_c _ _ _ (fun a _ h2 => hcopy a (by omega))]
    simp only [server_pack_result_bytes]
    rw [read_write_other _ _ _ _ _ _ (Or.inl (by omega))]
    exact read_write_exact _ _ _ _ lxU
  have bxV : read_bytes seg_c (result_segment_offset_Vdct Pc cm) (cm.vpw * cm.vph * 2)
      = encode_array R.i16_bytes cur_s.residuals.V := by
    rw [read_bytes_congr seg_c _ _ _ (fun a _ h2 => hcopy a (by omega))]
    simp only [server_pack_result_bytes]
    exact read_write_exact _ _ _ _ lxV
  refine ⟨⟨?_, ?_, ?_⟩, ⟨r0, r1, r2, r3, r4, r5, r6⟩, ?_⟩
  · simp only [client_unpack_result_bytes, bK, kd]
  · simp only [client_unpack_result_bytes]
    rw [array_field_roundtrip R.mb_bytes R.mb_of_bytes _ _ cur_s.mbs.Y _ _ sY cY mY bmY,
      array_field_roundtrip R.mb_bytes R.mb_of_bytes _ _ cur_s.mbs.U _ _ sU cU mU bmU,
      array_field_roundtrip R.mb_bytes R.mb_of_bytes _ _ cur_s.mbs.V _ _ sV cV mV bmV]
  · simp only [client_unpack_result_bytes]
    rw [array_field_roundtrip R.i16_bytes R.i16_of_bytes _ _ cur_s.residuals.Y _ _ sy cy xY bxY,
      array_field_roundtrip R.i16_bytes R.i16_of_bytes _ _ cur_s.residuals.U _ _ su cu xU bxU,
      array_field_roundtrip R.i16_bytes R.i16_of_bytes _ _ cur_s.residuals.V _ _ sv cv xV bxV]
  · intro r
    simp only [client_unpack_result, server_pack_result]
    rw [memcpy_memcpy _ _ _ _ sY cY, memcpy_memcpy _ _ _ _ sU cU, memcpy_memcpy _ _ _ _ sV cV,
      memcpy_memcpy _ _ _ _ sy cy, memcpy_memcpy _ _ _ _ su cu, memcpy_memcpy _ _ _ _ sv cv]
    exact ⟨trivial, rfl, rfl⟩

theorem result_segment_roundtrip_witness :
    ((client_unpack_result_bytes lp64 le_repr tiny_context
        (server_pack_result_bytes lp64 le_repr tiny_context zero_bytes tiny_frame)
        blank_frame).keyframe = tiny_frame.keyframe ∧
     (client_unpack_result_bytes lp64 le_repr tiny_context
        (server_pack_result_bytes lp64 le_repr tiny_context zero_bytes tiny_frame)
        blank_frame).mbs = tiny_frame.mbs ∧
     (client_unpack_result_bytes lp64 le_repr tiny_context
        (server_pack_result_bytes lp64 le_repr tiny_context zero_bytes tiny_frame)
        blank_frame).residuals = tiny_frame.residuals) ∧
    sizeof_result_segment lp64 tiny_context = 152 :=
  ⟨(result_segment_roundtrip lp64 lp64 le_repr tiny_context zero_bytes
      (server_pack_result_bytes lp64 le_repr tiny_context zero_bytes tiny_frame)
      tiny_frame blank_frame rfl (by decide) (by decide) (by decide) (by decide) (by decide)
      (fun _ _ => rfl)).1,
   by decide⟩


/-! ### The two nodes side by side -/

theorem img_log_succ {Img : Type} (input : List Img) (n : Nat) (h : n < input.length) :
    img_log input n ++ [input[n]?] = img_log input (n + 1) := by
  simp only [img_log, List.take_succ, List.map_append]
  rw [List.getElem?_eq_getElem h]
  simp

theorem res_log_succ {Img Res : Type} (encode : List (Option Img) → Res) (input : List Img)
    (n : Nat) :
    res_log encode input n ++ [some (encode (img_log input (n + 1)))]
      = res_log encode input (n + 1) := by
  simp [res_log, List.range_succ]

theorem drop_eq_cons {α : Type} (l : List α) (n : Nat) (x : α) (rest : List α)
    (h : l.drop n = x :: rest) : n < l.length ∧ l[n]? = some x ∧ l.drop (n + 1) = rest := by
  induction l generalizing n with
  | nil => simp at h
  | cons y ys ih =>
    cases n with
    | zero => simp at h; simp [h]
    | succ m =>
      simp only [List.drop_succ_cons] at h
      obtain ⟨h1, h2, h3⟩ := ih m h
      refine ⟨by simpa using h1, by simpa using h2, by simpa using h3⟩

theorem phase_inv_start {Img Res : Type} (encode : List (Option Img) → Res) (input : List Img)
    (limit_numframes : Int) : phase_inv encode input (World.start input limit_numframes) := by
  simp [phase_inv, World.start, logs_are, img_log, res_log]

theorem phase_inv_step_client {Img Res : Type} (encode : List (Option Img) → Res)
    (input : List Img) (fails : Bool) (w : World Img Res) (h : phase_inv encode input w) :
    phase_inv encode input (step_client fails w) := by
  obtain ⟨cpc, spc, client_cmd, server_cmd, client_seg, server_seg, server_result_seg,
    client_result_seg, infile, numframes, limit_numframes, image, server_image, curframe,
    framenum, sent, consumed, returned, received⟩ := w
  cases cpc <;> cases spc <;> simp only [phase_inv, logs_are] at h
  case mk.read.poll =>
    obtain ⟨h1, h2, h3, h4, h5, h6, h7⟩ := h
    cases fails
    · cases hin : infile with
      | nil =>
        simp only [step_client, hin, phase_inv, logs_are, Bool.false_eq_true, if_false]
        exact ⟨h2, numframes, by rw [← hin, h3], h4, h5, h6, h7⟩
      | cons img rest =>
        rw [hin] at h3
        obtain ⟨k1, k2, k3⟩ := drop_eq_cons input numframes img rest h3.symm
        simp only [step_client, hin, phase_inv, logs_are, Bool.false_eq_true, if_false]
        exact ⟨h1, h2, k1, k2.symm, k3.symm, h4, h5, h6, h7⟩
    · simp only [step_client, phase_inv, logs_are, if_true]
      exact ⟨h2, numframes, h3, h4, h5, h6, h7⟩
  case mk.dma_start.poll =>
    obtain ⟨h1, h2, h3, h4, h5, h6, h7, h8, h9⟩ := h
    cases fails
    · simp only [step_client, phase_inv, logs_are, Bool.false_eq_true, if_false]
      exact ⟨h1, h2, h3, h4, h5, h6, h7, h8, h9⟩
    · simp only [step_client, phase_inv, logs_are, if_true]
      exact ⟨h2, numframes + 1, h5, h6, h7, h8, h9⟩
  case mk.dma_wait.poll =>
    obtain ⟨h1, h2, h3, h4, h5, h6, h7, h8, h9⟩ := h
    cases fails
    · simp only [step_client, phase_inv, logs_are, Bool.false_eq_true, if_false]
      refine ⟨h1, h2, h3, h4, h5, ?_, h7, h8, h9⟩
      rw [h6, h4]
      exact img_log_succ input numframes h3
    · simp only [step_client, phase_inv, logs_are, if_true]
      exact ⟨h2, numframes + 1, h5, h6, h7, h8, h9⟩
  case mk.poll.poll =>
    rcases h with ⟨h1, h2, h3⟩ | ⟨h1, h2, h3, h4⟩
    · have hne : client_cmd ≠ cmd.CMD_DONE := by rw [h1]; decide
      simp only [step_client, hne, if_false, phase_inv, logs_are]
      exact Or.inl ⟨h1, h2, h3⟩
    · simp only [step_client, h1, if_true, phase_inv, logs_are]
      exact ⟨h2, h3, h4⟩
  case mk.unpack.poll =>
    obtain ⟨h1, h2, h3, h4, h5, h6, h7⟩ := h
    have hr : received ++ [client_result_seg] = res_log encode input (numframes + 1) := by
      rw [h7, h2]; exact res_log_succ encode input numframes
    by_cases hl : limit_numframes ≠ 0 ∧ ((numframes + 1 : Nat) : Int) ≥ limit_numframes
    · simp only [step_client]
      rw [if_pos hl]
      simp only [phase_inv, logs_are]
      exact ⟨h1, numframes + 1, h3, h4, h5, h6, hr⟩
    · simp only [step_client]
      rw [if_neg hl]
      simp only [phase_inv, logs_are]
      exact ⟨h1, h3, h4, h5, h6, hr⟩
  all_goals simp_all [step_client, phase_inv, logs_are]

theorem phase_inv_step_server {Img Res : Type} (encode : List (Option Img) → Res)
    (input : List Img) (fails : Bool) (w : World Img Res) (h : phase_inv encode input w) :
    phase_inv encode input (step_server encode fails w) := by
  obtain ⟨cpc, spc, client_cmd, server_cmd, client_seg, server_seg, server_result_seg,
    client_result_seg, infile, numframes, limit_numframes, image, server_image, curframe,
    framenum, sent, consumed, returned, received⟩ := w
  cases cpc <;> cases spc <;> simp only [phase_inv, logs_are] at h
  case mk.poll.poll =>
    rcases h with ⟨h1, h2, h3⟩ | ⟨h1, h2, h3⟩
    · have hne : server_cmd ≠ cmd.CMD_INVALID := by rw [h2]; decide
      simp only [step_server, hne, if_false, phase_inv, logs_are]
      exact ⟨h1, h2, h3⟩
    · simp only [step_server, h2, if_true, phase_inv, logs_are]
      exact Or.inr ⟨h1, trivial, h3⟩
  case mk.poll.check =>
    obtain ⟨h1, h2, h3⟩ := h
    have hne : server_cmd ≠ cmd.CMD_QUIT := by rw [h2]; decide
    simp only [step_server, hne, if_false, phase_inv, logs_are]
    exact ⟨h1, h2, h3⟩
  case mk.poll.unpack =>
    obtain ⟨h1, h2, h3, h4, h5, h6, h7, h8, h9⟩ := h
    simp only [step_server, phase_inv, logs_are]
    refine ⟨h1, h2, h5, h6, ?_, h8, h9⟩
    rw [h7, h4]
    exact img_log_succ input numframes h3
  case mk.poll.dma_start =>
    obtain ⟨h1, h2, h3, h4⟩ := h
    cases fails
    · simp only [step_server, phase_inv, logs_are, Bool.false_eq_true, if_false]
      exact ⟨h1, h2, h3, h4⟩
    · simp only [step_server, phase_inv, logs_are, if_true]
      exact ⟨h1, h2, h4⟩
  case mk.poll.dma_wait =>
    obtain ⟨h1, h2, h3, h4, h5, h6, h7, h8⟩ := h
    cases fails
    · simp only [step_server, phase_inv, logs_are, Bool.false_eq_true, if_false]
      refine ⟨h1, h2, h3, h4, h5, h6, ?_, h8⟩
      rw [h7, h3]
      exact res_log_succ encode input numframes
    · simp only [step_server, phase_inv, logs_are, if_true]
      exact ⟨h1, h2, h4, h5, h6, h7, h8⟩
  all_goals simp_all [step_server, phase_inv, logs_are]

theorem phase_inv_step {Img Res : Type} (encode : List (Option Img) → Res) (input : List Img)
    (t : Tick) (w : World Img Res) (h : phase_inv encode input w) :
    phase_inv encode input (step encode t w) := by
  obtain ⟨node, fails⟩ := t
  cases node
  · exact phase_inv_step_client encode input fails w h
  · exact phase_inv_step_server encode input fails w h

theorem phase_inv_run {Img Res : Type} (encode : List (Option Img) → Res) (input : List Img)
    (sched : List Tick) (w : World Img Res) (h : phase_inv encode input w) :
    phase_inv encode input (run encode sched w) := by
  induction sched generalizing w with
  | nil => exact h
  | cons t ts ih => exact ih _ (phase_inv_step encode input t w h)

theorem phase_inv_logs {Img Res : Type} (encode : List (Option Img) → Res) (input : List Img)
    (w : World Img Res) (h : phase_inv encode input w) :
    w.received = res_log encode input w.numframes ∧
    ((w.sent = img_log input w.numframes ∧ w.consumed = img_log input w.numframes ∧
        w.returned = res_log encode input w.numframes) ∨
      (w.sent = img_log input (w.numframes + 1) ∧ w.consumed = img_log input w.numframes ∧
        w.returned = res_log encode input w.numframes) ∨
      (w.sent = img_log input (w.numframes + 1) ∧
        w.consumed = img_log input (w.numframes + 1) ∧
        w.returned = res_log encode input w.numframes) ∨
      (w.sent = img_log input (w.numframes + 1) ∧
        w.consumed = img_log input (w.numframes + 1) ∧
        w.returned = res_log encode input (w.numframes + 1))) := by
  obtain ⟨cpc, spc, client_cmd, server_cmd, client_seg, server_seg, server_result_seg,
    client_result_seg, infile, numframes, limit_numframes, image, server_image, curframe,
    framenum, sent, consumed, returned, received⟩ := w
  cases cpc <;> cases spc <;> simp only [phase_inv, logs_are] at h <;> tauto

theorem img_log_self {Img : Type} (input : List Img) (k : Nat) :
    img_log input k = img_log input (img_log input k).length := by
  rcases Nat.le_total k input.length with h | h
  · simp [img_log, Nat.min_eq_left h]
  · simp [img_log, Nat.min_eq_right h, List.take_of_length_le h]

theorem img_log_prefix {Img : Type} (input : List Img) (c s : Nat) (h : c ≤ s) :
    img_log input c = (img_log input s).take (img_log input c).length := by
  rcases Nat.le_total c input.length with h1 | h1
  · simp [img_log, Nat.min_eq_left h1, ← List.map_take, List.take_take, Nat.min_eq_left h]
  · have h2 : input.length ≤ s := le_trans h1 h
    simp [img_log, Nat.min_eq_right h1, List.take_of_length_le h1, List.take_of_length_le h2]

theorem img_log_length {Img : Type} (input : List Img) (k : Nat) :
    (img_log input k).length = min k input.length := by
  simp [img_log]

theorem res_log_length {Img Res : Type} (encode : List (Option Img) → Res) (input : List Img)
    (r : Nat) : (res_log encode input r).length = r := by
  simp [res_log]

theorem res_log_prefix {Img Res : Type} (encode : List (Option Img) → Res) (input : List Img)
    (n r : Nat) (h : n ≤ r) :
    res_log encode input n = (res_log encode input r).take n := by
  simp [res_log, ← List.map_take, List.take_range, Nat.min_eq_left h]

/-- Claim C11. In every interleaving of the steps of the two frame loops,
with any of the calls failing at any turn, from the memory both loops start
with: the images sent are the first images of the input file, each whole;
what the server copied out of its image segment after seeing PROCEED is, in
order, what was sent, and at most one image sent is not yet copied out, so
each copy is of the image sent last; the results returned are the encodings
of the first images, each whole; what the client copied out of its result
segment and wrote is, in order, what was returned, at most one result
returned is not yet written, and the count of frames written is
`numframes`. With two input frames and each node running until it waits, both
results arrive and both loops end; when a transfer's completion wait fails,
the server's segment is left without a whole payload and the server never
reads it. -/
theorem mailbox_payload_in_order {Img Res : Type} (encode : List (Option Img) → Res)
    (input : List Img) (limit_numframes : Int) (sched : List Tick) :
    let w := run encode sched (World.start input limit_numframes)
    (w.sent = img_log input w.sent.length ∧
      w.consumed = w.sent.take w.consumed.length ∧
      w.sent.length ≤ w.consumed.length + 1) ∧
    (w.returned = res_log encode input w.returned.length ∧
      w.received = w.returned.take w.received.length ∧
      w.returned.length ≤ w.received.length + 1 ∧
      w.received.length = w.numframes) ∧
    ((run toy_encode two_frames (World.start [5, 7] 0)).consumed
        = [some 5, some 7] ∧
      (run toy_encode two_frames (World.start [5, 7] 0)).received
        = [some 5, some 12] ∧
      (run toy_encode two_frames (World.start [5, 7] 0)).cpc = ClientPc.done ∧
      (run toy_encode two_frames (World.start [5, 7] 0)).spc = ServerPc.done) ∧
    ((run toy_encode broken_transfer (World.start [5, 7, 9] 0)).server_seg = none ∧
      (run toy_encode broken_transfer (World.start [5, 7, 9] 0)).cpc = ClientPc.failed ∧
      (run toy_encode broken_transfer (World.start [5, 7, 9] 0)).spc = ServerPc.poll ∧
      (run toy_encode broken_transfer (World.start [5, 7, 9] 0)).consumed = []) := by
  intro w
  have hinv : phase_inv encode input w :=
    phase_inv_run encode input sched _ (phase_inv_start encode input limit_numframes)
  obtain ⟨hrec, hlogs⟩ := phase_inv_logs encode input w hinv
  have l1 := img_log_length input w.numframes
  have l2 := img_log_length input (w.numframes + 1)
  have p0 := img_log_prefix input w.numframes w.numframes (le_refl _)
  have p1 := img_log_prefix input w.numframes (w.numframes + 1) (Nat.le_succ _)
  have p2 := img_log_prefix input (w.numframes + 1) (w.numframes + 1) (le_refl _)
  have q0 := res_log_prefix encode input w.numframes w.numframes (le_refl _)
  have q1 := res_log_prefix encode input w.numframes (w.numframes + 1) (Nat.le_succ _)
  refine ⟨?_, ?_, ⟨by decide, by decide, by decide, by decide⟩,
    ⟨by decide, by decide, by decide, by decide⟩⟩
  · rcases hlogs with ⟨hs, hc, -⟩ | ⟨hs, hc, -⟩ | ⟨hs, hc, -⟩ | ⟨hs, hc, -⟩ <;>
      rw [hs, hc] <;> refine ⟨img_log_self _ _, ?_, ?_⟩ <;>
      first
        | exact p0
        | exact p1
        | exact p2
        | (rw [l1]; omega)
        | (rw [l2]; omega)
  · rcases hlogs with ⟨-, -, hr⟩ | ⟨-, -, hr⟩ | ⟨-, -, hr⟩ | ⟨-, -, hr⟩ <;>
      rw [hr, hrec] <;> simp only [res_log_length] <;>
      first
        | exact ⟨trivial, q0, by omega, trivial⟩
        | exact ⟨trivial, q1, by omega, trivial⟩

end C63
